import Mathlib

set_option linter.unusedTactic false
set_option linter.unreachableTactic false
set_option linter.dupNamespace false

/-!
# Egg-Runner: the daemonization ritual and the signal controller

A shallow embedding of `source/runner.cpp`, `source/signal.cpp` and the parts of
`source/credentials.cpp` they call.

* Program memory (the `process` object, the static handler table and counters) is
  explicit state.
* Everything outside the program (kernel, C library, user hooks) is an environment
  `Sys`: one typed response function per call, each a function of the history of
  events so far.  Every call is recorded in the trace with its arguments.
* A computation ends normally, by a C++ exception, or in undefined behaviour
  (an access outside an array, a null stream handed to `fclose`).
-/

namespace Egg

/-! ## Byte strings and numbers -/

/-- Byte strings: `std::string` values and the contents of character buffers. -/
abbrev Str := List Char

/-- The zero byte that ends a C string. -/
def NUL : Char := Char.ofNat 0

/-- The C string held in a buffer: the bytes before the first zero byte. -/
def c_str (buf : Str) : Str := buf.takeWhile (fun c => c != NUL)

/-- Position of the first occurrence of `pat` in `s`
(`std::string::find`, `none` standing for `npos`). -/
def find : Str → Str → Option Nat
  | [], pat => if pat.isEmpty then some 0 else none
  | c :: s, pat =>
    if pat.isPrefixOf (c :: s) then some 0 else (find s pat).map (· + 1)

/-- Position of the last occurrence of the byte `c` in `s`
(`std::string::find_last_of`, `none` standing for `npos`). -/
def find_last_of : Str → Char → Option Nat
  | [], _ => none
  | x :: xs, c =>
    match find_last_of xs c with
    | some i => some (i + 1)
    | none => if x = c then some 0 else none

/-- The substring `s.substr(pos, count)`; `count = none` is `npos` (to the end).
Only used with `pos ≤ s.size()`, where it cannot throw. -/
def substr (s : Str) (pos : Nat) (count : Option Nat) : Str :=
  match count with
  | some n => (s.drop pos).take n
  | none => s.drop pos

/-- The character of a decimal digit. -/
def digit (d : Nat) : Char := Char.ofNat (48 + d)

/-- Decimal digits of `n`, most significant first, by recursion on fuel. -/
def decimal_fuel : Nat → Nat → Str
  | 0, _ => []
  | fuel + 1, n =>
    if n < 10 then [digit n] else decimal_fuel fuel (n / 10) ++ [digit (n % 10)]

/-- Decimal text of a natural number. -/
def decimal (n : Nat) : Str := decimal_fuel (n + 1) n

/-- Decimal text of an integer: `std::to_string` and `printf("%d")`. -/
def to_string (i : Int) : Str :=
  if i < 0 then '-' :: decimal i.natAbs else decimal i.natAbs

/-- The C locale's `isspace`. -/
def isspace (c : Char) : Bool := c.toNat = 32 || (9 ≤ c.toNat && c.toNat ≤ 13)

/-- The C locale's `isdigit`. -/
def isdigit (c : Char) : Bool := 48 ≤ c.toNat && c.toNat ≤ 57

/-- What `strtol(s, nullptr, 10)` scans: leading white space, an optional sign,
then decimal digits. `consumed` counts the bytes accepted; the byte after them is
examined too. -/
structure Scan where
  neg : Bool
  digits : Str
  consumed : Nat
deriving DecidableEq, Repr

/-- Scan the longest prefix of `s` that `strtol` accepts in base 10. -/
def scan_long (s : Str) : Scan :=
  let ws := s.takeWhile isspace
  let r := s.dropWhile isspace
  match r with
  | '-' :: t =>
    let ds := t.takeWhile isdigit
    ⟨true, ds, ws.length + 1 + ds.length⟩
  | '+' :: t =>
    let ds := t.takeWhile isdigit
    ⟨false, ds, ws.length + 1 + ds.length⟩
  | _ =>
    let ds := r.takeWhile isdigit
    ⟨false, ds, ws.length + ds.length⟩

/-- Value of a run of decimal digits. -/
def digits_value (ds : Str) : Nat :=
  ds.foldl (fun acc c => acc * 10 + (c.toNat - 48)) 0

/-- Largest `long` (LP64). -/
def LONG_MAX : Int := 2 ^ 63 - 1

/-- Smallest `long` (LP64). -/
def LONG_MIN : Int := -(2 ^ 63)

/-- The magnitude and sign scanned, as an unbounded integer. -/
def Scan.value (sc : Scan) : Int :=
  if sc.neg then -(digits_value sc.digits : Int) else (digits_value sc.digits : Int)

/-- The function `strtol(s, nullptr, 10)`: zero when no digits are found, clamped
to the range of `long`. -/
def strtol (s : Str) : Int :=
  let v := (scan_long s).value
  if v < LONG_MIN then LONG_MIN else if LONG_MAX < v then LONG_MAX else v

/-- Conversion of a `long` to the 32-bit `pid_t`/`int` (two's complement wrap). -/
def wrap32 (x : Int) : Int := (x + 2 ^ 31) % 2 ^ 32 - 2 ^ 31

/-! ## Exceptions and outcomes -/

/-- The two `std::error_category` objects the sources use. -/
inductive Category where
  | system
  | generic
deriving DecidableEq, Repr

/-- C++ exceptions that cross the functions modelled here. -/
inductive Exception where
  /-- A `std::system_error` with its code, category and message argument. -/
  | system_error (code : Nat) (cat : Category) (what : Str)
  /-- A `std::invalid_argument` (thrown by `std::stol`). -/
  | invalid_argument (what : Str)
  /-- A `std::out_of_range` (thrown by `std::stol`). -/
  | out_of_range (what : Str)
  /-- Anything a user hook throws that is not one of the above. -/
  | thrown (tag : Nat)
deriving DecidableEq, Repr

/-- Undefined behaviour the sources can reach. -/
inductive Fault where
  /-- Indexing a static table of `controller::count` entries outside its bounds. -/
  | out_of_bounds (index : Int)
  /-- The call `fclose(NULL)`. -/
  | fclose_null
  /-- Reading a character buffer past its end (no terminating zero byte). -/
  | buffer_overrun
  /-- Dereferencing a null pointer. -/
  | null_dereference
  /-- Handing an array that `delete []` has released to a function that writes it. -/
  | use_after_free
deriving DecidableEq, Repr

/-- How a computation ends. -/
inductive Outcome (α : Type) where
  | ok (a : α)
  | raised (e : Exception)
  | undefined (u : Fault)
deriving DecidableEq, Repr

/-- Some `errno` values of Linux. -/
def EPERM : Nat := 1
/-- No such process. -/
def ESRCH : Nat := 3
/-- Permission denied. -/
def EACCES : Nat := 13
/-- Device or resource busy. -/
def EBUSY : Nat := 16
/-- Invalid argument. -/
def EINVAL : Nat := 22
/-- Result out of range. -/
def ERANGE : Nat := 34

/-- The error `std::make_error_code(std::errc::invalid_argument)` with a message. -/
def errc_invalid_argument (msg : Str) : Exception :=
  .system_error EINVAL .generic msg

/-- The error `std::make_error_code(std::errc::device_or_resource_busy)` with a message. -/
def errc_device_or_resource_busy (msg : Str) : Exception :=
  .system_error EBUSY .generic msg

/-! ## Signals: data -/

/-- A `sigset_t`: bit `s` is set when signal `s` is a member. -/
abbrev Sigset := Nat

/-- The value `sigemptyset` produces. -/
def sigemptyset : Sigset := 0

/-- Membership of signal `s` in a set. -/
def Sigset.mem (m : Sigset) (s : Int) : Bool := 0 ≤ s && m.testBit s.toNat

/-- Bit flag `SA_SIGINFO` of Linux. -/
def SA_SIGINFO : Nat := 4
/-- Bit flag `SA_RESTART` of Linux. -/
def SA_RESTART : Nat := 0x10000000
/-- The `how` argument `SIG_BLOCK`. -/
def SIG_BLOCK : Int := 0
/-- The `how` argument `SIG_UNBLOCK`. -/
def SIG_UNBLOCK : Int := 1

/-- The function a `struct sigaction` points to. -/
inductive SigFn where
  | SIG_DFL
  | SIG_IGN
  /-- The static trampoline `__signal_callback` of `signal.cpp`. -/
  | __signal_callback
  /-- Any other function. -/
  | foreign (addr : Nat)
deriving DecidableEq, Repr

/-- The fields of `struct sigaction` that the sources set or pass on. -/
structure SigAction where
  sa_sigaction : SigFn
  sa_mask : Sigset
  sa_flags : Nat
deriving DecidableEq, Repr

namespace signal

/-- The enumeration `egg::signal::policy`. -/
inductive policy where
  | terminate_process
  | ignore
  | core_dump
  | stop_process
  | continue_process
deriving DecidableEq, Repr

/-- An object of a class derived from `egg::signal::handler`. `object` identifies
the object (and so its `process` overrides); `_old_action` holds whatever the
memory held until `sigaction` stores the previous disposition there. -/
structure handler where
  _id : Int
  _flags : Nat
  _policy : policy
  _old_action : SigAction
  object : Nat
deriving DecidableEq, Repr

/-- The counters `egg::signal::stat` (both `unsigned long`). -/
structure stat where
  call_count : Nat
  error_count : Nat
deriving DecidableEq, Repr

end signal

/-! ## The process object -/

/-- The enumeration `process::property`, with `trace`, which `runner.cpp` uses. -/
inductive property where
  | description
  | daemon
  | user
  | group
  | working_directory
  | pid_file
  | syslog
  | cgroup
  | trace
deriving DecidableEq, Repr

/-- Data members of `egg::process` (the references to the environment and to the
signal controller singletons are global state here). -/
structure process where
  __f_trace : Bool
  __f_is_daemon : Bool
  __f_req_user_change : Bool
  __f_req_group_change : Bool
  __f_req_cwd_change : Bool
  __f_req_pid_file : Bool
  __f_req_syslog : Bool
  __f_req_cgroup : Bool
  __f_switch_complete : Bool
  _name : Str
  _description : Str
  _uid : Nat
  _user : Str
  _gid : Nat
  _group : Str
  _syslog_label : Str
  _working_directory : Str
  _pid_path : Str
deriving DecidableEq, Repr

/-! ## Events -/

/-- The four pure virtual hooks of `process`. -/
inductive Hook where
  | before
  | between
  | after
  | run
deriving DecidableEq, Repr

/-- Member functions that `execute()` calls, as marks in the trace. -/
inductive Step where
  | __is_service_up
  | create_directory
  | __set_capabilities
  | __set_credentials
  | __cwd
  | __fork
  | __detach_terminal
  | __in_between
  | __write_pid
  | __remove_pid
deriving DecidableEq, Repr

/-- Calls into the kernel and the C library, with the arguments that matter. -/
inductive Syscall where
  | openlog (label : Str)
  | syslog (priority : Nat) (format : Str)
  | closelog
  | getpid
  | open_ (path : Str) (flags : Nat)
  | read (fd : Int) (size : Nat)
  | kill (pid : Int) (sig : Int)
  | opendir (path : Str)
  | readdir
  | closedir
  | fopen (path : Str) (mode : Str)
  | fclose
  | fprintf (text : Str)
  | remove (path : Str)
  | mkdir (path : Str) (mode : Nat)
  | stat (path : Str)
  | fstat (path : Str)
  | chown (path : Str) (uid : Nat) (gid : Nat)
  | sysconf
  | getpwuid (uid : Nat)
  | getgrgid (gid : Nat)
  | getpwnam (name : Str)
  | getgrnam (name : Str)
  | getcwd (size : Nat)
  | capng_get_caps_process
  | capng_clear
  | capng_updatev (type : Nat)
  | capng_apply
  | capng_have_capability
  | capng_change_id (uid : Nat) (gid : Nat)
  | geteuid
  | getegid
  | getuid
  | getgid
  | setgid (gid : Nat)
  | initgroups (user : Str) (gid : Nat)
  | setegid (gid : Nat)
  | setuid (uid : Nat)
  | seteuid (uid : Nat)
  | getenv (key : Str)
  | setenv (key : Str) (value : Str)
  | chdir (path : Str)
  | fork
  | waitpid (pid : Int)
  | sigfillset
  | sigprocmask (how : Int) (set : Option Sigset)
  | sigaction (sig : Int) (act : SigAction)
  | dup2 (oldfd : Int) (newfd : Int)
  | close (fd : Int)
  | getdtablesize
  | setsid
  | umask (mask : Nat)
deriving Repr

/-- The function of a `struct sigaction` as integers. -/
def SigFn.encode : SigFn → List Int
  | .SIG_DFL => [0]
  | .SIG_IGN => [1]
  | .__signal_callback => [2]
  | .foreign addr => [3, addr]

/-- The set handed to `sigprocmask`, if any, as integers. -/
def encode_set : Option Sigset → List Int
  | none => []
  | some set => [set]

/-- A call as the number of its function and its arguments, integers and byte
strings. -/
def Syscall.encode : Syscall → Nat × List Int × List Str
  | .openlog label => (0, [], [label])
  | .syslog priority format => (1, [priority], [format])
  | .closelog => (2, [], [])
  | .getpid => (3, [], [])
  | .open_ path flags => (4, [flags], [path])
  | .read fd size => (5, [fd, size], [])
  | .kill pid sig => (6, [pid, sig], [])
  | .opendir path => (7, [], [path])
  | .readdir => (8, [], [])
  | .closedir => (9, [], [])
  | .fopen path mode => (10, [], [path, mode])
  | .fclose => (11, [], [])
  | .fprintf text => (12, [], [text])
  | .remove path => (13, [], [path])
  | .mkdir path mode => (14, [mode], [path])
  | .stat path => (15, [], [path])
  | .fstat path => (16, [], [path])
  | .chown path uid gid => (17, [uid, gid], [path])
  | .sysconf => (18, [], [])
  | .getpwuid uid => (19, [uid], [])
  | .getgrgid gid => (20, [gid], [])
  | .getpwnam name => (21, [], [name])
  | .getgrnam name => (22, [], [name])
  | .getcwd size => (23, [size], [])
  | .capng_get_caps_process => (24, [], [])
  | .capng_clear => (25, [], [])
  | .capng_updatev type => (26, [type], [])
  | .capng_apply => (27, [], [])
  | .capng_have_capability => (28, [], [])
  | .capng_change_id uid gid => (29, [uid, gid], [])
  | .geteuid => (30, [], [])
  | .getegid => (31, [], [])
  | .getuid => (32, [], [])
  | .getgid => (33, [], [])
  | .setgid gid => (34, [gid], [])
  | .initgroups user gid => (35, [gid], [user])
  | .setegid gid => (36, [gid], [])
  | .setuid uid => (37, [uid], [])
  | .seteuid uid => (38, [uid], [])
  | .getenv key => (39, [], [key])
  | .setenv key value => (40, [], [key, value])
  | .chdir path => (41, [], [path])
  | .fork => (42, [], [])
  | .waitpid pid => (43, [pid], [])
  | .sigfillset => (44, [], [])
  | .sigprocmask how set => (45, how :: encode_set set, [])
  | .sigaction sig act => (46, sig :: act.sa_mask :: act.sa_flags :: act.sa_sigaction.encode, [])
  | .dup2 oldfd newfd => (47, [oldfd, newfd], [])
  | .close fd => (48, [fd], [])
  | .getdtablesize => (49, [], [])
  | .setsid => (50, [], [])
  | .umask mask => (51, [mask], [])

set_option maxHeartbeats 4000000 in
/-- Equality of calls is decided on their encodings. -/
instance : DecidableEq Syscall := fun a b =>
  decidable_of_iff (a.encode = b.encode) ⟨fun h => by
    have hfn : ∀ x y : SigFn, x.encode = y.encode → x = y := by
      intro x y hxy
      cases x <;> cases y <;> simp_all [SigFn.encode]
    have hset : ∀ x y : Option Sigset, encode_set x = encode_set y → x = y := by
      intro x y hxy
      cases x <;> cases y <;> simp_all [encode_set]
    cases a <;> cases b <;>
      first
      | rfl
      | (have h1 := congrArg Prod.fst h; simp [Syscall.encode] at h1; done)
      | (simp [Syscall.encode] at h; simp [h]; done)
      | (simp [Syscall.encode] at h; simp [h.1, hset _ _ h.2]; done)
      | (rename_i s1 a1 s2 a2; cases a1; cases a2; simp [Syscall.encode] at h
         obtain ⟨h1, h2, h3, h4⟩ := h
         simp [h1, h2, h3, hfn _ _ h4]), congrArg Syscall.encode⟩

/-- What is observable of a run, in order. -/
inductive Event where
  /-- A user hook is invoked; `final` is what `is_final_instance()` returns then. -/
  | hook (h : Hook) (final : Bool)
  /-- The function `execute()` calls one of its helpers. -/
  | call (s : Step)
  /-- The helper `__fork()` has returned to `execute()` with this value. -/
  | forked (parent : Bool)
  /-- A call into the kernel or the C library. -/
  | sys (c : Syscall)
  /-- A `delete` of a handler object. -/
  | deleted (h : signal.handler)
  /-- The three-argument `process` of a handler object is invoked for a signal. -/
  | dispatched (h : signal.handler) (sig : Int)
deriving DecidableEq, Repr

/-! ## The environment -/

/-- Return value of a call and the value of `errno` after it. -/
structure Ret where
  val : Int
  errno : Nat
deriving DecidableEq, Repr

/-- The fields of `struct passwd` the sources read. -/
structure Passwd where
  pw_name : Str
  pw_uid : Nat
  pw_dir : Str
deriving DecidableEq, Repr

/-- The fields of `struct group` the sources read. -/
structure Group where
  gr_name : Str
  gr_gid : Nat
deriving DecidableEq, Repr

/-- The fields of `struct stat` the sources read. -/
structure StatBuf where
  st_uid : Nat
  st_gid : Nat
deriving DecidableEq, Repr

/-- Everything outside the program: platform constants, build configuration and,
for each call, its response as a function of the events so far. -/
structure Sys where
  /-- The constant `NSIG` of `<signal.h>`, the value of `controller::count`. -/
  NSIG : Nat
  /-- The signal number `SIGCHLD` (also spelled `SIGCLD`). -/
  SIGCHLD : Int
  /-- Build macro `HAVE_INITGROUPS` of `common.h`. -/
  HAVE_INITGROUPS : Bool
  /-- Build macro `HAVE_PWUID_R` of `common.h`. -/
  HAVE_PWUID_R : Bool
  /-- Build macro `HAVE_GRGID_R` of `common.h`. -/
  HAVE_GRGID_R : Bool
  /-- What a user hook does when invoked: return, or throw. -/
  hook : List Event → Hook → Option Exception
  getpid : List Event → Int
  open_ : List Event → Str → Nat → Ret
  /-- Result of `read(fd, buf, size)` and the bytes the file offers. -/
  read : List Event → Int → Nat → Ret × Str
  kill : List Event → Int → Int → Ret
  /-- The entries (`d_name`) of a directory stream, or `errno`. -/
  opendir : List Event → Str → Except Nat (List Str)
  /-- The bytes of the opened stream, or `errno`. -/
  fopen : List Event → Str → Str → Except Nat Str
  fprintf : List Event → Str → Ret
  mkdir : List Event → Str → Nat → Ret
  stat : List Event → Str → Ret × StatBuf
  fstat : List Event → Str → Ret × StatBuf
  chown : List Event → Str → Nat → Nat → Ret
  sysconf : List Event → Int
  getpwuid_r : List Event → Nat → Ret × Option Passwd
  getpwuid : List Event → Nat → Ret × Option Passwd
  getgrgid_r : List Event → Nat → Ret × Option Group
  getgrgid : List Event → Nat → Ret × Option Group
  capng_get_caps_process : List Event → Int
  capng_updatev : List Event → Nat → Ret
  capng_apply : List Event → Ret
  capng_have_capability : List Event → Bool
  capng_change_id : List Event → Nat → Nat → Ret
  geteuid : List Event → Nat
  getegid : List Event → Nat
  getuid : List Event → Nat
  getgid : List Event → Nat
  setgid : List Event → Nat → Ret
  initgroups : List Event → Str → Nat → Ret
  setegid : List Event → Nat → Ret
  setuid : List Event → Nat → Ret
  seteuid : List Event → Nat → Ret
  getenv : List Event → Str → Option Str
  chdir : List Event → Str → Ret
  /-- Return value of `fork()`: negative on failure, zero in the child. -/
  fork : List Event → Ret
  waitpid : List Event → Int → Ret
  /-- Return value of `sigfillset` and the set it produces. -/
  sigfillset : List Event → Ret × Sigset
  /-- Return value of `sigprocmask` and the previous mask it reports. -/
  sigprocmask : List Event → Int → Option Sigset → Ret × Sigset
  /-- The `errno` with which `sigaddset` rejects a signal number, if it does. -/
  sigaddset_errno : Int → Option Nat
  /-- Return value of `sigaction(sig, act, old)` and the previous disposition. -/
  sigaction : List Event → Int → SigAction → Ret × SigAction
  dup2 : List Event → Int → Int → Ret
  getdtablesize : List Event → Int
  setsid : List Event → Ret
  /-- What the memory of a new handler object holds in `_old_action`. -/
  fresh_action : List Event → SigAction
  /-- Build macro `HAVE_PWNAM_R` of `common.h`. -/
  HAVE_PWNAM_R : Bool
  /-- Build macro `HAVE_GRNAM_R` of `common.h`. -/
  HAVE_GRNAM_R : Bool
  getpwnam_r : List Event → Str → Ret × Option Passwd
  getpwnam : List Event → Str → Ret × Option Passwd
  getgrnam_r : List Event → Str → Ret × Option Group
  getgrnam : List Event → Str → Ret × Option Group
  /-- The path `getcwd(buffer, size)` stores in the buffer, or `errno`. -/
  getcwd : List Event → Nat → Except Nat Str

/-! ## State and computations -/

/-- Program memory and the trace of events. -/
structure World where
  /-- The `process` object `execute()` runs on. -/
  self : process
  /-- The static table `_s_handler` of `signal.cpp`, by index. -/
  _s_handler : Nat → Option signal.handler
  /-- The static table `_s_stat` of `signal.cpp`, by index. -/
  _s_stat : Nat → signal.stat
  /-- Events so far, oldest first. -/
  trace : List Event

/-- A computation: from a world to an outcome and the world it leaves. -/
def M (α : Type) : Type := World → Outcome α × World

/-- Sequencing: an exception or a fault ends the computation where it occurs. -/
def M.bind {α β : Type} (m : M α) (f : α → M β) : M β := fun w =>
  match m w with
  | (.ok a, w1) => f a w1
  | (.raised e, w1) => (.raised e, w1)
  | (.undefined u, w1) => (.undefined u, w1)

/-- Normal completion with a value. -/
def M.pure {α : Type} (a : α) : M α := fun w => (.ok a, w)

instance : Monad M where
  pure := M.pure
  bind := M.bind

/-- The statement `throw e`. -/
def raise {α : Type} (e : Exception) : M α := fun w => (.raised e, w)

/-- Undefined behaviour. -/
def fault {α : Type} (u : Fault) : M α := fun w => (.undefined u, w)

/-- The current world. -/
def getw : M World := fun w => (.ok w, w)

/-- The `process` object. -/
def this : M process := fun w => (.ok w.self, w)

/-- Append an event to the trace. -/
def emit (e : Event) : M Unit := fun w => (.ok (), { w with trace := w.trace ++ [e] })

/-- A call whose result is not used. -/
def sys (c : Syscall) : M Unit := emit (.sys c)

/-- A call with a result: the environment answers from the history before the
call, then the call is recorded. -/
def ask {α : Type} (c : Syscall) (response : List Event → α) : M α := fun w =>
  (.ok (response w.trace), { w with trace := w.trace ++ [.sys c] })

/-- The block `try m catch (const std::system_error& ec) h`. -/
def try_catch_system_error {α : Type} (m : M α) (h : Exception → M α) : M α := fun w =>
  match m w with
  | (.raised (.system_error c k msg), w1) => h (.system_error c k msg) w1
  | r => r

/-- The block `try m catch (const std::exception& e) h`: every exception of the
standard hierarchy is caught. -/
def try_catch_exception {α : Type} (m : M α) (h : Exception → M α) : M α := fun w =>
  match m w with
  | (.raised (.thrown t), w1) => (.raised (.thrown t), w1)
  | (.raised e, w1) => h e w1
  | r => r

/-- The message of an exception built from a literal and a number. -/
def msg_num (text : String) (n : Int) : Str := text.toList ++ to_string n

/-! ## `signal.cpp`: the controller -/

namespace signal
namespace controller

variable (σ : Sys)

/-- The number of entries of `_s_handler` and `_s_stat` (`controller::count`). -/
def count : Int := σ.NSIG

/-- Reading `_s_handler[i]`. -/
def load (i : Int) : M (Option handler) := fun w =>
  if 0 ≤ i ∧ i < count σ then (.ok (w._s_handler i.toNat), w)
  else (.undefined (.out_of_bounds i), w)

/-- Writing `_s_handler[i]`. -/
def store (i : Int) (v : Option handler) : M Unit := fun w =>
  if 0 ≤ i ∧ i < count σ then
    (.ok (), { w with _s_handler := Function.update w._s_handler i.toNat v })
  else (.undefined (.out_of_bounds i), w)

/-- The constructor `controller::controller()`: every slot becomes `nullptr`. -/
def construct : M Unit := fun w =>
  (.ok (), { w with _s_handler := fun _ => none })

/-- The one-argument `controller::__lock(bool)`. -/
def __lock (is_lock_required : Bool) : M Unit := do
  let __action := if is_lock_required then SIG_BLOCK else SIG_UNBLOCK
  let (r, mask) ← ask .sigfillset σ.sigfillset
  if r.val ≠ 0 then
    raise (.system_error r.errno .system "Failed to call sigfillset".toList)
  let (r, _) ← ask (.sigprocmask __action (some mask)) (σ.sigprocmask · __action (some mask))
  if r.val ≠ 0 then
    raise (.system_error r.errno .system "Failed to call sigprocmask for all signals".toList)

/-- The message of the range check shared by `__lock` and `enable`. -/
def wrong_signal_code (id : Int) : Str :=
  msg_num "Wrong signal code " id ++ msg_num ". The max signal value is " (count σ - 1)

/-- The two-argument `controller::__lock(bool, const int)`. -/
def __lock_id (is_lock_required : Bool) (the_id : Int) : M Unit := do
  if the_id < count σ then
    let __action := if is_lock_required then SIG_BLOCK else SIG_UNBLOCK
    let (r, mask) ← ask (.sigprocmask __action none) (σ.sigprocmask · __action none)
    if r.val ≠ 0 then
      raise (.system_error r.errno .system (msg_num "Failed to call sigprocmask for signal " the_id))
    match σ.sigaddset_errno the_id with
    | some e => raise (.system_error e .system (msg_num "Wrong signal " the_id))
    | none =>
      let mask : Sigset := mask ||| 2 ^ the_id.toNat
      let (r, _) ← ask (.sigprocmask __action (some mask)) (σ.sigprocmask · __action (some mask))
      if r.val ≠ 0 then
        raise (.system_error r.errno .system (msg_num "Failed to call sigprocmask for signal " the_id))
  else
    raise (errc_invalid_argument (wrong_signal_code σ the_id))

/-- The member `controller::lock()`. -/
def lock : M Unit := __lock σ true

/-- The member `controller::lock(const int)`. -/
def lock_id (id : Int) : M Unit := __lock_id σ true id

/-- The member `controller::release()`. -/
def release : M Unit := __lock σ false

/-- The member `controller::release(const int)`. -/
def release_id (id : Int) : M Unit := __lock_id σ false id

/-- The loop `for (i = 0; i < count; ++i)` of `enable` that fills `sa.sa_mask`
with every signal whose slot is populated. -/
def fill_set : List Nat → Sigset → M Sigset
  | [], mask => pure mask
  | i :: rest, mask => do
    match ← load σ i with
    | some _ =>
      match σ.sigaddset_errno i with
      | some e => raise (.system_error e .system (msg_num "Wrong signal " i))
      | none => fill_set rest (mask ||| 2 ^ i)
    | none => fill_set rest mask

/-- The member `controller::enable(handler::pointer)`; `none` is `nullptr`. -/
def enable (the_handle : Option handler) : M Unit := do
  match the_handle with
  | none => raise (errc_invalid_argument "Null pointer".toList)
  | some h =>
    let id := h._id
    if id ≥ count σ then
      raise (errc_invalid_argument (wrong_signal_code σ id))
    -- Clean up
    match ← load σ id with
    | some old =>
      emit (.deleted old)
      store σ id none
    | none => pure ()
    -- Move to handler
    store σ id (some h)
    -- Fill the set
    let mask ← fill_set σ (List.range σ.NSIG) sigemptyset
    let sa : SigAction := ⟨.__signal_callback, mask, SA_SIGINFO ||| h._flags⟩
    -- Set action; on success the kernel stores the previous one in the handler
    let (r, old) ← ask (.sigaction id sa) (σ.sigaction · id sa)
    if r.val ≠ 0 then
      raise (.system_error r.errno .system (msg_num "Unable to set up signal handler for " id))
    store σ id (some { h with _old_action := old })

/-- The member `controller::disable(const int)`. -/
def disable (id : Int) : M Unit := do
  match ← load σ id with
  | none => return
  | some h =>
    let _ ← ask (.sigaction id h._old_action) (σ.sigaction · id h._old_action)
    emit (.deleted h)
    store σ id none

/-- The member `controller::get_stat(const int)`. -/
def get_stat (the_id : Int) : M stat := fun w =>
  if 0 ≤ the_id ∧ the_id < count σ then (.ok (w._s_stat the_id.toNat), w)
  else (.undefined (.out_of_bounds the_id), w)

/-- Writing `_s_stat[i]`. -/
def store_stat (i : Int) (v : stat) : M Unit := fun w =>
  if 0 ≤ i ∧ i < count σ then
    (.ok (), { w with _s_stat := Function.update w._s_stat i.toNat v })
  else (.undefined (.out_of_bounds i), w)

/-- The static trampoline `__signal_callback`; the counters are `unsigned long`. -/
def __signal_callback (the_id : Int) : M Unit := do
  match ← load σ the_id with
  | some h =>
    emit (.dispatched h the_id)
    let st ← get_stat σ the_id
    store_stat σ the_id { st with call_count := (st.call_count + 1) % 2 ^ 64 }
  | none =>
    let st ← get_stat σ the_id
    store_stat σ the_id { st with error_count := (st.error_count + 1) % 2 ^ 64 }

end controller
end signal

/-! ## `credentials.cpp` -/

namespace credentials

variable (σ : Sys)

/-- The function `credentials::user_id_to_name`. -/
def user_id_to_name (the_id : Nat) : M Str := do
  if σ.HAVE_PWUID_R then
    let the_size ← ask .sysconf σ.sysconf
    if the_size = -1 then
      raise (.system_error ERANGE .generic "Failed call to sysconf(_SC_GETPW_R_SIZE_MAX)".toList)
    let (r, _password) ← ask (.getpwuid the_id) (σ.getpwuid_r · the_id)
    if r.val ≠ 0 then
      raise (.system_error r.errno .system "Failed call to getpwuid_r()".toList)
    match _password with
    | none => raise (errc_invalid_argument (msg_num "User id " the_id ++ " not found".toList))
    | some pw => return pw.pw_name
  else
    let (_, _password) ← ask (.getpwuid the_id) (σ.getpwuid · the_id)
    match _password with
    | none => raise (errc_invalid_argument (msg_num "User id " the_id ++ " not found".toList))
    | some pw => return pw.pw_name

/-- The function `credentials::group_id_to_name`. -/
def group_id_to_name (the_id : Nat) : M Str := do
  if σ.HAVE_GRGID_R then
    let the_size ← ask .sysconf σ.sysconf
    if the_size = -1 then
      raise (.system_error ERANGE .generic "Failed call to sysconf(_SC_GETPW_R_SIZE_MAX)".toList)
    let (r, _group) ← ask (.getgrgid the_id) (σ.getgrgid_r · the_id)
    if r.val ≠ 0 then
      raise (.system_error r.errno .system "Failed call to getgrgid_r()".toList)
    match _group with
    | none => raise (errc_invalid_argument (msg_num "Group id " the_id ++ " not found".toList))
    | some gr => return gr.gr_name
  else
    let (_, _group) ← ask (.getgrgid the_id) (σ.getgrgid · the_id)
    match _group with
    | none => raise (errc_invalid_argument (msg_num "Group id " the_id ++ " not found".toList))
    | some gr => return gr.gr_name

/-- The function `credentials::create_directory`. -/
def create_directory (the_path : Str) (the_uid the_gid : Nat) : M Unit := do
  let d ← ask (.opendir the_path) (σ.opendir · the_path)
  let d_info ← (match d with
    | .error _ => do
      let r ← ask (.mkdir the_path 0o755) (σ.mkdir · the_path 0o755)
      if r.val ≠ 0 then
        raise (.system_error r.errno .system ("mkdir(".toList ++ the_path ++ ", 0755) failed".toList))
      let (r, info) ← ask (.stat the_path) (σ.stat · the_path)
      if r.val ≠ 0 then
        raise (.system_error r.errno .system ("stat(".toList ++ the_path ++ ", ...) failed".toList))
      pure info
    | .ok _ => do
      let (r, info) ← ask (.fstat the_path) (σ.fstat · the_path)
      sys .closedir
      if r.val ≠ 0 then
        raise (.system_error r.errno .system ("fstat(".toList ++ the_path ++ ", ...) failed".toList))
      pure info)
  -- Change ownership
  if d_info.st_uid ≠ the_uid ∨ d_info.st_gid ≠ the_gid then
    let r ← ask (.chown the_path the_uid the_gid) (σ.chown · the_path the_uid the_gid)
    if r.val ≠ 0 then
      raise (.system_error r.errno .system
        ("chown(".toList ++ the_path ++ [','] ++ to_string the_uid ++ [','] ++ to_string the_gid
          ++ ") failed".toList))

end credentials

/-! ## `runner.cpp`: helpers -/

/-- Syslog priority `LOG_ALERT`. -/
def LOG_ALERT : Nat := 1
/-- Syslog priority `LOG_ERR`. -/
def LOG_ERR : Nat := 3
/-- Syslog priority `LOG_WARNING`. -/
def LOG_WARNING : Nat := 4
/-- Syslog priority `LOG_INFO`. -/
def LOG_INFO : Nat := 6
/-- Syslog priority `LOG_DEBUG`. -/
def LOG_DEBUG : Nat := 7
/-- Flag `O_RDONLY` of `open`. -/
def O_RDONLY : Nat := 0
/-- Flag `O_WRONLY` of `open`. -/
def O_WRONLY : Nat := 1
/-- Flag `O_CLOEXEC` of `open` (Linux). -/
def O_CLOEXEC : Nat := 0o2000000
/-- Selector `CAPNG_EFFECTIVE`. -/
def CAPNG_EFFECTIVE : Nat := 1
/-- Selector `CAPNG_PERMITTED`. -/
def CAPNG_PERMITTED : Nat := 2

/-- The statement `if (__f_req_syslog && __f_trace) ::syslog(priority, format, ...)`. -/
def log_trace (priority : Nat) (format : String) : M Unit := do
  let p ← this
  if p.__f_req_syslog && p.__f_trace then
    sys (.syslog priority format.toList)

/-- The statement `if (__f_req_syslog) ::syslog(priority, format, ...)`. -/
def log_sys (priority : Nat) (format : String) : M Unit := do
  let p ← this
  if p.__f_req_syslog then
    sys (.syslog priority format.toList)

/-- The function `std::stol` on a string, base 10. -/
def stol (s : Str) : Except Exception Int :=
  let sc := scan_long s
  if sc.digits.isEmpty then .error (.invalid_argument "stol".toList)
  else if sc.value < LONG_MIN ∨ LONG_MAX < sc.value then .error (.out_of_range "stol".toList)
  else .ok sc.value

/-- At most `k` bytes of a stream, stopping after the first newline. -/
def take_line : Nat → Str → Str
  | 0, _ => []
  | _ + 1, [] => []
  | k + 1, c :: cs => if c = '\n' then [c] else c :: take_line k cs

/-- The bytes `fgets(buffer, size, stream)` stores before the terminating zero
byte; `none` is the `NULL` it returns at end of file. -/
def fgets (size : Nat) (stream : Str) : Option Str :=
  let line := take_line (size - 1) stream
  if line.isEmpty then none else some line

/-- The buffer `txt` of `__is_service_up` after `memset` and `read`: the bytes
read, then zero bytes up to `Size`. -/
def txt_buffer (Size : Nat) (count : Int) (data : Str) : Str :=
  let got := data.take (min count.toNat Size)
  got ++ List.replicate (Size - got.length) NUL

/-- The path `/proc/<d_name>/cmdline` that `process::exists` opens for an entry. -/
def proc_path (d_name : Str) : Str := "/proc/".toList ++ d_name ++ "/cmdline".toList

/-- The test of `process::exists` on an opened `cmdline`: `fgets` into the
512-byte buffer succeeds and the C string in the buffer contains `name`. -/
def cmdline_has (name : Str) (stream : Str) : Bool :=
  match fgets 512 stream with
  | some __buffer => (find (c_str __buffer) name).isSome
  | none => false

namespace process

variable (σ : Sys)

/-- A call of one of the pure virtual hooks. -/
def hook (h : Hook) : M Unit := fun w =>
  let w1 := { w with trace := w.trace ++ [.hook h w.self.__f_switch_complete] }
  match σ.hook w.trace h with
  | none => (.ok (), w1)
  | some e => (.raised e, w1)

/-- Assignment to the data members of the object. -/
def assign (f : process → process) : M Unit := fun w =>
  (.ok (), { w with self := f w.self })

/-- The constructor `process::process(const std::string&)`. -/
def construct (the_name : Str) : M Unit := do
  let uid ← ask .getuid σ.getuid
  let uid1 ← ask .getuid σ.getuid
  let user ← credentials.user_id_to_name σ uid1
  let gid ← ask .getgid σ.getgid
  let gid1 ← ask .getgid σ.getgid
  let group ← credentials.group_id_to_name σ gid1
  -- Purify _name
  let st := match find_last_of the_name '/' with
    | none => 0
    | some st => st + 1
  assign (fun _ =>
    { __f_trace := false, __f_is_daemon := false, __f_req_user_change := false,
      __f_req_group_change := false, __f_req_cwd_change := false,
      __f_req_pid_file := false, __f_req_syslog := false, __f_req_cgroup := false,
      __f_switch_complete := false,
      _name := substr the_name st none,
      _description := "Default process".toList,
      _uid := uid, _user := user, _gid := gid, _group := group,
      _syslog_label := "DMN".toList,
      _working_directory := [], _pid_path := [] })

/-- The member `process::is_final_instance()`. -/
def is_final_instance (p : process) : Bool := p.__f_switch_complete

/-- The body of the loop of the single-result `process::exists`: `entries` are
the names `readdir` still has to return. -/
def exists_loop (name : Str) (self_pid : Int) : Int → Bool → List Str → M Int
  | result, _, [] => do
    sys .readdir
    return result
  | result, __is_matched, d_name :: rest => do
    sys .readdir
    match stol d_name with
    | .error _ => exists_loop name self_pid result __is_matched rest
    | .ok __pid =>
      if __pid = self_pid then
        exists_loop name self_pid result __is_matched rest
      else
        let __path := proc_path d_name
        let __file ← ask (.fopen __path "r".toList) (σ.fopen · __path "r".toList)
        let found : Bool := match __file with
          | .ok stream => cmdline_has name stream
          | .error _ => false
        let __is_matched := found || __is_matched
        let result := if found then wrap32 __pid else result
        match __file with
        | .error _ => fault .fclose_null
        | .ok _ => sys .fclose
        if __is_matched then
          return result
        exists_loop name self_pid result __is_matched rest

/-- The single-result `process::exists(const std::string)`. -/
def exists_pid (name : Str) : M Int := do
  match ← ask (.opendir "/proc".toList) (σ.opendir · "/proc".toList) with
  | .error e => raise (.system_error e .system "Failed to open /proc".toList)
  | .ok entries =>
    let self_pid ← ask .getpid σ.getpid
    let result ← exists_loop σ name self_pid (-1) false entries
    sys .closedir
    return result

/-- The first block of `process::__is_service_up()`: the check of the PID file. -/
def pid_file_check : M Unit := do
  let p ← this
  if p.__f_req_pid_file then
    let fd ← ask (.open_ p._pid_path (O_RDONLY ||| O_CLOEXEC))
      (σ.open_ · p._pid_path (O_RDONLY ||| O_CLOEXEC))
    -- If pid file exists
    if fd.val ≥ 0 then
      let Size := 64
      let (count, data) ← ask (.read fd.val Size) (σ.read · fd.val Size)
      -- Not readable. No credentials?
      if count.val < 0 then
        log_trace LOG_ERR "read(%d, %s, %ld): %s, %d"
        raise (.system_error count.errno .system "Pid file ".toList)
      let txt := c_str (txt_buffer Size count.val data)
      -- Check if process exists
      if (scan_long txt).consumed ≥ Size then
        fault .buffer_overrun
      let __pid := wrap32 (strtol txt)
      log_trace LOG_DEBUG "Querying PID %d ..."
      let r ← ask (.kill __pid 0) (σ.kill · __pid 0)
      if r.val ≠ 0 then
        if r.errno ≠ ESRCH then
          log_sys LOG_ERR "kill(%d, 0): %s, %d"
          raise (.system_error r.errno .generic "Process check".toList)
      else
        if txt.length ≥ Size then
          fault .buffer_overrun
        let msg := "Process ".toList ++ txt ++ " exists".toList
        log_sys LOG_ALERT "%s"
        raise (errc_device_or_resource_busy msg)

/-- The second block of `process::__is_service_up()`: the check by name. -/
def name_probe : M Unit := do
  let p ← this
  -- Process check based on non pid
  log_trace LOG_DEBUG "Check if the process with the name %s does exist"
  let __existsing_process ← exists_pid σ p._name
  if __existsing_process ≠ -1 then
    let msg := msg_num "Identical process " __existsing_process
      ++ " exists. Please, stop it first".toList
    log_sys LOG_ALERT "%s"
    raise (errc_device_or_resource_busy msg)

/-- The member `process::__is_service_up()`: its two blocks in sequence. -/
def __is_service_up : M Unit := do
  pid_file_check σ
  name_probe σ

/-- The member `process::__set_capabilities()`. -/
def __set_capabilities : M Unit := do
  log_trace LOG_DEBUG "Seting up capabilities ..."
  try_catch_system_error
    (do
      let r ← ask .capng_get_caps_process σ.capng_get_caps_process
      if r ≠ 0 then
        raise (errc_invalid_argument "Unable to get capabilities".toList)
      sys .capng_clear
      let r ← ask (.capng_updatev CAPNG_EFFECTIVE) (σ.capng_updatev · CAPNG_EFFECTIVE)
      if r.val < 0 then
        raise (.system_error r.errno .system "capng_updatev(.., CAPNG_EFFECTIVE)".toList)
      let r ← ask (.capng_updatev CAPNG_PERMITTED) (σ.capng_updatev · CAPNG_PERMITTED)
      if r.val < 0 then
        raise (.system_error r.errno .system "capng_updatev(.., CAPNG_PERMITTED)".toList)
      let r ← ask .capng_apply σ.capng_apply
      if r.val < 0 then
        raise (.system_error r.errno .system "capng_apply(CAPNG_SELECT_BOTH)".toList))
    (fun _ => do
      log_sys LOG_ERR "%s"
      sys .capng_clear)
  log_trace LOG_DEBUG "Capabilities set."

/-- The block of `__set_credentials` that sets `USER`, `LOGNAME` and `HOME`. -/
def set_up_environment : M Unit := do
  let p ← this
  let pw ← (if σ.HAVE_PWUID_R then do
      let (r, pw) ← ask (.getpwuid p._uid) (σ.getpwuid_r · p._uid)
      if r.val ≠ 0 then
        raise (.system_error r.errno .system "getpwuid_r()".toList)
      pure pw
    else do
      let (r, pw) ← ask (.getpwuid p._uid) (σ.getpwuid · p._uid)
      if pw.isNone then
        raise (.system_error r.errno .system "getpwuid()".toList)
      pure pw)
  sys (.setenv "USER".toList p._user)
  sys (.setenv "LOGNAME".toList p._user)
  match pw with
  | none => fault .null_dereference
  | some pw => sys (.setenv "HOME".toList pw.pw_dir)

/-- The member `process::__set_credentials()`. -/
def __set_credentials : M Unit := do
  let p ← this
  -- No user change required
  if !p.__f_req_user_change then
    log_sys LOG_INFO "User switch disabled!"
    return
  let euid ← ask .geteuid σ.geteuid
  let _euser ← credentials.user_id_to_name σ euid
  let egid ← ask .getegid σ.getegid
  let _egroup ← credentials.group_id_to_name σ egid
  log_trace LOG_DEBUG "Switch user EUID: %s(%d), UID: %s(%d), EGID: %s(%d), GID: %s(%d)."
  -- Same uid
  if p._uid = euid then
    log_sys LOG_INFO "Trying to switch to the same user. Credentials are kept as is."
    return
  -- No enough credentials
  if (← ask .getuid σ.getuid) ≠ 0 then
    if !(← ask .capng_have_capability σ.capng_have_capability) then
      log_sys LOG_INFO "Not enough credentials to switch to user \"%s\" and group \"%s\""
      return
  -- Retain privilleges over the uid/gid switch using Linux capabilities
  if (← ask .capng_have_capability σ.capng_have_capability) then
    try_catch_system_error
      (do
        sys .capng_clear
        let r ← ask (.capng_updatev CAPNG_EFFECTIVE) (σ.capng_updatev · CAPNG_EFFECTIVE)
        if r.val ≠ 0 then
          raise (.system_error r.errno .system "capng_updatev(.., CAPNG_EFFECTIVE)".toList)
        let r ← ask (.capng_updatev CAPNG_PERMITTED) (σ.capng_updatev · CAPNG_PERMITTED)
        if r.val < 0 then
          raise (.system_error r.errno .system "capng_updatev(.., CAPNG_PERMITTED)".toList)
        let r ← ask (.capng_change_id p._uid p._gid) (σ.capng_change_id · p._uid p._gid)
        if r.val ≠ 0 then
          raise (.system_error r.errno .system "capng_change_id(.., CAPNG_DROP_SUPP_GRP)".toList))
      (fun ec => do
        log_trace LOG_ERR "%s"
        sys .capng_clear
        raise ec)
    if σ.HAVE_INITGROUPS then
      let r ← ask (.initgroups p._user p._gid) (σ.initgroups · p._user p._gid)
      if r.val < 0 then
        raise (.system_error r.errno .system "initgroups()".toList)
      log_trace LOG_INFO "Initializing all groups for the user %s"
    log_trace LOG_INFO
      "User/ID: %s (%d), effective user/UID: %s (%d), group/ID: %s (%d), effective group/ID: %s (%d)"
  -- Traditional setup
  else
    -- Setting group and affective group
    if (← ask .getgid σ.getgid) = 0 then
      let r ← ask (.setgid p._gid) (σ.setgid · p._gid)
      if 0 > r.val then
        raise (.system_error r.errno .system "setgid()".toList)
      log_trace LOG_INFO "Setting up group/ID: %s (%d)"
      if σ.HAVE_INITGROUPS then
        let r ← ask (.initgroups p._user p._gid) (σ.initgroups · p._user p._gid)
        if 0 > r.val then
          raise (.system_error r.errno .system "initgroups()".toList)
        log_trace LOG_INFO "Initializing all groups for the user %s"
      let r ← ask (.setegid p._gid) (σ.setegid · p._gid)
      if 0 > r.val then
        raise (.system_error r.errno .system "setegid()".toList)
      log_trace LOG_INFO "Setting up effective group/ID: %s (%d)"
    -- Setting user and effective user
    if (← ask .getuid σ.getuid) = 0 then
      let r ← ask (.setuid p._uid) (σ.setuid · p._uid)
      if 0 > r.val then
        raise (.system_error r.errno .system "setuid()".toList)
      log_trace LOG_INFO "Setting up user/ID: %s (%d)"
      let r ← ask (.seteuid p._uid) (σ.seteuid · p._uid)
      if 0 > r.val then
        raise (.system_error r.errno .system "seteuid()".toList)
      log_sys LOG_INFO "Setting up effective user/ID: %s (%d)"
  -- Set up environment
  set_up_environment σ
  -- Done
  log_trace LOG_DEBUG "Successfully retaining privilleges over UID switch"

/-- The member `process::__cwd()`. -/
def __cwd : M Unit := do
  let p ← this
  if !p.__f_req_cwd_change then
    return
  if (← ask (.chdir p._working_directory) (σ.chdir · p._working_directory)).val ≠ 0 then
    let r ← ask (.chdir "/".toList) (σ.chdir · "/".toList)
    if r.val ≠ 0 then
      raise (.system_error r.errno .system
        ("Both chdir(\"/\") and chdir(\"".toList ++ p._working_directory ++ "\") failed".toList))

/-- The object `new helper::child()`: a handler for `SIGCHLD` with `SA_RESTART`,
the default policy and empty `process` bodies. -/
def child : M signal.handler := fun w =>
  (.ok ⟨σ.SIGCHLD, SA_RESTART, .continue_process, σ.fresh_action w.trace, 0⟩, w)

/-- The statements `_signal.disable(SIGCHLD); _signal.release();` of `__fork`. -/
def restore_signals : M Unit := do
  signal.controller.disable σ σ.SIGCHLD
  signal.controller.release σ

/-- The member `process::__fork()`. -/
def __fork : M Bool := do
  -- Lock everything
  signal.controller.lock σ
  -- Install child signal
  signal.controller.enable σ (some (← child σ))
  -- Enable child signal
  signal.controller.release_id σ σ.SIGCHLD
  let pid ← ask .fork σ.fork
  -- Failed
  if pid.val < 0 then
    restore_signals σ
    raise (.system_error pid.errno .system "fork() failed".toList)
  -- Parent
  else if pid.val ≠ 0 then
    let r ← ask (.waitpid pid.val) (σ.waitpid · pid.val)
    -- Wait failed
    if r.val < 0 then
      restore_signals σ
      raise (.system_error r.errno .system "waitpid() failed".toList)
    -- Restore
    restore_signals σ
    return true
  -- Restore
  restore_signals σ
  return false

/-- The lambda `null_open` of `__detach_terminal`. The test `0 > dup2(..) < 0`
compares the truth value of `0 > dup2(..)` with zero. -/
def null_open (the_attributes : Nat) (the_fd : Int) : M Unit := do
  -- Open
  let the_null_fd ← ask (.open_ "/dev/null".toList the_attributes)
    (σ.open_ · "/dev/null".toList the_attributes)
  if the_null_fd.val < 0 then
    raise (.system_error the_null_fd.errno .system "Failed to open \"/dev/null\"".toList)
  -- Duplicate
  let r ← ask (.dup2 the_null_fd.val the_fd) (σ.dup2 · the_null_fd.val the_fd)
  if (if 0 > r.val then (1 : Int) else 0) < 0 then
    raise (.system_error r.errno .system (msg_num "Failed to duplicate descriptor " the_fd))
  -- Close
  sys (.close the_null_fd.val)

/-- The loop `for (int i = 3; i < descriptor_count; ++i) ::close(i);`, by the
number of descriptors left to close. -/
def close_from : Nat → Int → M Unit
  | 0, _ => pure ()
  | n + 1, i => do
    sys (.close i)
    close_from n (i + 1)

/-- The member `process::__detach_terminal()`. -/
def __detach_terminal : M Unit := do
  -- Rebind descriptors
  null_open σ O_RDONLY 0
  null_open σ O_WRONLY 1
  null_open σ O_WRONLY 2
  -- Close all open file descriptors other than stdin, stdout, stderr
  let descriptor_count ← ask .getdtablesize σ.getdtablesize
  close_from (descriptor_count - 3).toNat 3

/-- The member `process::__in_between()`. -/
def __in_between : M Unit := do
  -- Setting mask
  log_trace LOG_INFO "Setting mask 0077"
  sys (.umask 0o077)
  -- Make sure we have a relatively sane environment
  if (← ask (.getenv "IFS".toList) (σ.getenv · "IFS".toList)).isNone then
    sys (.setenv "IFS".toList " \t\n".toList)
  if (← ask (.getenv "PATH".toList) (σ.getenv · "PATH".toList)).isNone then
    sys (.setenv "PATH".toList "/usr/local/sbin:/sbin:/bin:/usr/sbin:/usr/bin".toList)

/-- The member `process::__write_pid()`. -/
def __write_pid : M Unit := do
  let p ← this
  if !p.__f_req_pid_file || p._pid_path.isEmpty then
    log_sys LOG_WARNING "PID file not set. Bypassing ..."
    return
  log_trace LOG_INFO "Writing PID to %s ..."
  -- Writing
  match ← ask (.fopen p._pid_path "w".toList) (σ.fopen · p._pid_path "w".toList) with
  | .error e =>
    log_sys LOG_ERR "%s: %s, %d"
    raise (.system_error e .system ("fopen(".toList ++ p._pid_path ++ ", w) failed".toList))
  | .ok _ =>
    -- Write PID
    let pid ← ask .getpid σ.getpid
    let r ← ask (.fprintf (to_string pid)) (σ.fprintf · (to_string pid))
    if 0 > r.val then
      log_sys LOG_ERR "%s: %s, %d"
      raise (.system_error r.errno .system "fprintf() failed".toList)
    -- Done
    sys .fclose

/-- The member `process::__remove_pid()`. -/
def __remove_pid : M Unit := do
  let p ← this
  sys (.remove p._pid_path)

/-- The first block of `process::execute()`: open syslog. -/
def open_syslog : M Unit := do
  if (← this).__f_req_syslog then
    sys (.openlog (← this)._syslog_label)
    if (← this).__f_trace then
      sys (.syslog LOG_INFO "Start logging ...".toList)

/-- The member `process::execute()`. Each call of a helper is marked in the
trace before the helper runs, and so is the value `__fork()` returns. -/
def execute : M Unit := do
  -- Open syslog
  open_syslog
  -- Check if service is up
  emit (.call .__is_service_up)
  __is_service_up σ
  -- Build directories
  if (← this).__f_req_pid_file then
    let p ← this
    let __path := substr p._pid_path 0 (find_last_of p._pid_path '/')
    log_trace LOG_DEBUG "Create directory \"%s\" if required ..."
    emit (.call .create_directory)
    credentials.create_directory σ __path p._uid p._gid
  -- Call before
  hook σ .before
  -- Configure capabilities
  emit (.call .__set_capabilities)
  __set_capabilities σ
  -- Set credentials
  emit (.call .__set_credentials)
  __set_credentials σ
  -- Change working directory
  emit (.call .__cwd)
  __cwd σ
  -- First fork
  if (← this).__f_is_daemon then
    emit (.call .__fork)
    let parent ← __fork σ
    emit (.forked parent)
    if parent then
      return
    emit (.call .__detach_terminal)
    __detach_terminal σ
    log_trace LOG_INFO "Starting new session ..."
    let r ← ask .setsid σ.setsid
    if r.val < 0 then
      raise (.system_error r.errno .system "setsid() failed".toList)
  -- Complete environment preset
  emit (.call .__in_between)
  __in_between σ
  -- Between
  hook σ .between
  -- Second fork
  if (← this).__f_is_daemon then
    emit (.call .__fork)
    let parent ← __fork σ
    emit (.forked parent)
    if parent then
      return
  -- Write PID file
  emit (.call .__write_pid)
  __write_pid σ
  -- Last call
  hook σ .after
  -- Complete
  log_trace LOG_INFO "Initialization complete!"
  -- Done
  assign (fun p => { p with __f_switch_complete := true })
  -- Main cycle
  log_trace LOG_INFO "Starting main cycle ..."
  hook σ .run
  log_trace LOG_INFO "Main cycle complete!"
  -- Remove pid
  emit (.call .__remove_pid)
  __remove_pid

end process

/-! ## Vocabulary of the statements -/

/-- Events that are not marks of `execute()`: calls into the system and deletions. -/
def Event.calm : Event → Bool
  | .hook _ _ => false
  | .call _ => false
  | .forked _ => false
  | _ => true

/-- Calm events other than a call of `fork()`. -/
def Event.quiet : Event → Bool
  | .hook _ _ => false
  | .call _ => false
  | .forked _ => false
  | .sys .fork => false
  | _ => true

/-- The marks of a trace: hook invocations, helper calls, returns of `__fork()`. -/
def marks (t : List Event) : List Event := t.filter (fun e => !e.calm)

/-- The calls of `fork()` in a trace. -/
def forks (t : List Event) : List Event := t.filter (fun e => e == .sys .fork)

/-- The marks that a computation added when it led from `w` to `w1`. -/
def new_marks (w w1 : World) : List Event := (marks w1.trace).drop (marks w.trace).length

/-- A hook invocation that observes `is_final_instance()` as it should be on a
fresh object: true in `run()`, false in the other hooks. Other events pass. -/
def Event.flag_ok : Event → Bool
  | .hook .run f => f
  | .hook _ f => !f
  | _ => true

/-- The hooks invoked in a trace, in order. -/
def hooks : List Event → List Hook
  | [] => []
  | .hook h _ :: t => h :: hooks t
  | _ :: t => hooks t

/-- The computation `m` leaves the `process` object alone and only appends
events that satisfy `P`. -/
structure Keeps {α : Type} (P : Event → Bool) (m : M α) : Prop where
  keeps : ∀ w, (m w).2.self = w.self ∧ ∃ t, (m w).2.trace = w.trace ++ t ∧ t.all P = true

/-- A property of the world left by a computation that ends normally. -/
def Ends {α : Type} (Q : World → Prop) (r : Outcome α × World) : Prop :=
  ∀ a, r.1 = .ok a → Q r.2

/-- The object after the statement `__f_switch_complete = 1`. -/
def process.completed (p : process) : process := { p with __f_switch_complete := true }

/-- The marks up to and including the call of `__cwd()`. -/
def identity_marks (p : process) : List Event :=
  [.call .__is_service_up] ++
  (if p.__f_req_pid_file then [.call .create_directory] else []) ++
  [.hook .before p.__f_switch_complete, .call .__set_capabilities,
   .call .__set_credentials, .call .__cwd]

/-- The marks from the call of `__in_between()` to the hook `between()`. -/
def between_marks (p : process) : List Event :=
  [.call .__in_between, .hook .between p.__f_switch_complete]

/-- The marks of a run of `execute()` that reaches its last statement. -/
def full_marks (p : process) : List Event :=
  identity_marks p ++
  (if p.__f_is_daemon then [.call .__fork, .forked false, .call .__detach_terminal] else []) ++
  between_marks p ++
  (if p.__f_is_daemon then [.call .__fork, .forked false] else []) ++
  [.call .__write_pid, .hook .after p.__f_switch_complete, .hook .run true, .call .__remove_pid]

/-- The marks of a run that returns as the parent of the first fork. -/
def parent1_marks (p : process) : List Event :=
  identity_marks p ++ [.call .__fork, .forked true]

/-- The marks of a run that returns as the parent of the second fork. -/
def parent2_marks (p : process) : List Event :=
  identity_marks p ++ [.call .__fork, .forked false, .call .__detach_terminal] ++
  between_marks p ++ [.call .__fork, .forked true]

/-- What is known at a point of a run of `execute()` started in `w0`: the object
is `p`, the marks added so far are `ms`, and no `fork()` was called unless
`__fork()` was. -/
structure View (w0 : World) (p : process) (ms : List Event) (w : World) : Prop where
  self_eq : w.self = p
  marks_eq : marks w.trace = marks w0.trace ++ ms
  forks_eq : Event.call .__fork ∉ ms → forks w.trace = forks w0.trace

/-- The marks and the object with which `execute()` may end by an exception or
a fault: the run stopped somewhere on the way, and the flag is set exactly when
`run()` was reached. -/
def Stop (p0 p : process) (ms : List Event) : Prop :=
  ms <+: full_marks p0 ∧
  p = if Event.hook .run true ∈ ms then p0.completed else p0

/-- The ways a run of `execute()` on the object `p` can end: outcome `o`, final
object `q`, marks `ms`. -/
def Shape (p : process) (o : Outcome Unit) (q : process) (ms : List Event) : Prop :=
  match o with
  | .ok _ =>
    (ms = full_marks p ∧ q = p.completed) ∨
    (p.__f_is_daemon = true ∧ (ms = parent1_marks p ∨ ms = parent2_marks p) ∧ q = p)
  | _ => Stop p q ms

/-- The statement about a whole run of `execute()` from `w0` ending in `r`. -/
def Master (w0 : World) (r : Outcome Unit × World) : Prop :=
  ∃ ms, marks r.2.trace = marks w0.trace ++ ms ∧
    (Event.call .__fork ∉ ms → forks r.2.trace = forks w0.trace) ∧
    Shape w0.self r.1 r.2.self ms

/-- The world in which `execute()` calls `__is_service_up()`, when started in `w`. -/
def preflight_world (w : World) : World :=
  ((process.open_syslog >>= fun _ => emit (.call .__is_service_up)) w).2

/-- The result of `open` on the PID file in `pid_file_check`. -/
def pid_fd (σ : Sys) (w : World) : Ret :=
  σ.open_ w.trace w.self._pid_path (O_RDONLY ||| O_CLOEXEC)

/-- The trace when `pid_file_check` calls `read`. -/
def read_history (w : World) : List Event :=
  w.trace ++ [.sys (.open_ w.self._pid_path (O_RDONLY ||| O_CLOEXEC))]

/-- The result of `read` on the PID file in `pid_file_check`. -/
def pid_read (σ : Sys) (w : World) : Ret × Str :=
  σ.read (read_history w) (pid_fd σ w).val 64

/-- The trace when `pid_file_check` calls `kill`. -/
def kill_history (σ : Sys) (w : World) : List Event :=
  read_history w ++ [.sys (.read (pid_fd σ w).val 64)] ++
    (if w.self.__f_req_syslog && w.self.__f_trace then
      [.sys (.syslog LOG_DEBUG "Querying PID %d ...".toList)] else [])

/-- The result of `kill(pid, 0)` in `pid_file_check`. -/
def pid_kill (σ : Sys) (w : World) (pid : Int) : Ret :=
  σ.kill (kill_history σ w) pid 0

/-- The message of the collision found through the PID file. -/
def process_exists (txt : Str) : Str := "Process ".toList ++ txt ++ " exists".toList

/-- The message of the collision found by name. -/
def identical_process (pid : Int) : Str :=
  msg_num "Identical process " pid ++ " exists. Please, stop it first".toList

/-- An entry of `/proc` that `process::exists` reports: its name parses as a
number other than the caller, and its command line passes the test of the code.
`files` gives the bytes of the `cmdline` of an entry. -/
def is_hit (name : Str) (self_pid : Int) (files : Str → Str) (d_name : Str) : Bool :=
  match stol d_name with
  | .ok pid => pid != self_pid && cmdline_has name (files d_name)
  | .error _ => false

/-- The number an entry name stands for (`-1` when it is not a number). -/
def entry_pid (d_name : Str) : Int :=
  match stol d_name with
  | .ok pid => pid
  | .error _ => -1

/-- The pid of the first entry in enumeration order that is a hit, and `-1`
when there is none. -/
def exists_first (name : Str) (self_pid : Int) (files : Str → Str) (entries : List Str) : Int :=
  match entries.find? (is_hit name self_pid files) with
  | some d => entry_pid d
  | none => -1

/-- The test as the claim words it: the bytes read into the 512-byte buffer
contain `name` anywhere. -/
def buffer_has (name : Str) (stream : Str) : Bool :=
  match fgets 512 stream with
  | some __buffer => (find __buffer name).isSome
  | none => false

/-- The result of `exists(name)` as the claim words it: the pid of the first
entry, other than the caller, whose command line as read into the buffer contains
`name` anywhere, and `-1` when there is none. -/
def exists_claimed (name : Str) (self_pid : Int) (files : Str → Str) (entries : List Str) : Int :=
  match entries.find? (fun d => match stol d with
      | .ok pid => pid != self_pid && buffer_has name (files d)
      | .error _ => false) with
  | some d => entry_pid d
  | none => -1

/-- Every entry of a listing that parses as a number is a positive `pid_t`. -/
def pids_fit (entries : List Str) : Prop :=
  ∀ d ∈ entries, ∀ pid, stol d = .ok pid → 0 < pid ∧ pid < 2 ^ 31

/-- In the environment `σ` the `cmdline` of every numbered entry other than the
caller opens, whenever asked, with the bytes `files` gives. -/
def cmdlines_open (σ : Sys) (self_pid : Int) (files : Str → Str) (entries : List Str) : Prop :=
  ∀ d ∈ entries, ∀ pid, stol d = .ok pid → pid ≠ self_pid →
    ∀ h, σ.fopen h (proc_path d) "r".toList = .ok (files d)

/-! ## Example environments -/


/-- A return value reporting success. -/
def Ret.success : Ret := ⟨0, 0⟩

/-- The default disposition. -/
def SigAction.default : SigAction := ⟨.SIG_DFL, 0, 0⟩

/-- An environment in which every call succeeds: Linux constants, no PID file,
an empty `/proc`, the caller is root with pid 100, `fork` returns in the child. -/
def calm : Sys where
  NSIG := 65
  SIGCHLD := 17
  HAVE_INITGROUPS := true
  HAVE_PWUID_R := false
  HAVE_GRGID_R := false
  hook := fun _ _ => none
  getpid := fun _ => 100
  open_ := fun _ path _ => if path = "/dev/null".toList then ⟨3, 0⟩ else ⟨-1, 2⟩
  read := fun _ _ _ => (⟨0, 0⟩, [])
  kill := fun _ _ _ => ⟨-1, ESRCH⟩
  opendir := fun _ _ => .ok []
  fopen := fun _ _ _ => .ok []
  fprintf := fun _ t => ⟨t.length, 0⟩
  mkdir := fun _ _ _ => Ret.success
  stat := fun _ _ => (Ret.success, ⟨0, 0⟩)
  fstat := fun _ _ => (Ret.success, ⟨0, 0⟩)
  chown := fun _ _ _ _ => Ret.success
  sysconf := fun _ => 1024
  getpwuid_r := fun _ u => (Ret.success, some ⟨"root".toList, u, "/root".toList⟩)
  getpwuid := fun _ u => (Ret.success, some ⟨"root".toList, u, "/root".toList⟩)
  getgrgid_r := fun _ g => (Ret.success, some ⟨"root".toList, g⟩)
  getgrgid := fun _ g => (Ret.success, some ⟨"root".toList, g⟩)
  capng_get_caps_process := fun _ => 0
  capng_updatev := fun _ _ => Ret.success
  capng_apply := fun _ => Ret.success
  capng_have_capability := fun _ => false
  capng_change_id := fun _ _ _ => Ret.success
  geteuid := fun _ => 0
  getegid := fun _ => 0
  getuid := fun _ => 0
  getgid := fun _ => 0
  setgid := fun _ _ => Ret.success
  initgroups := fun _ _ _ => Ret.success
  setegid := fun _ _ => Ret.success
  setuid := fun _ _ => Ret.success
  seteuid := fun _ _ => Ret.success
  getenv := fun _ _ => none
  chdir := fun _ _ => Ret.success
  fork := fun _ => Ret.success
  waitpid := fun _ _ => Ret.success
  sigfillset := fun _ => (Ret.success, 2 ^ 65 - 2)
  sigprocmask := fun _ _ _ => (Ret.success, 0)
  sigaddset_errno := fun s => if 1 ≤ s ∧ s < 65 then none else some EINVAL
  sigaction := fun _ s _ => if 1 ≤ s ∧ s < 65 ∧ s ≠ 9 ∧ s ≠ 19 then (Ret.success, SigAction.default) else (⟨-1, EINVAL⟩, SigAction.default)
  dup2 := fun _ _ n => ⟨n, 0⟩
  getdtablesize := fun _ => 5
  setsid := fun _ => ⟨101, 0⟩
  fresh_action := fun _ => SigAction.default
  HAVE_PWNAM_R := false
  HAVE_GRNAM_R := false
  getpwnam_r := fun _ n =>
    if n = "root".toList then (Ret.success, some ⟨n, 0, "/root".toList⟩) else (Ret.success, none)
  getpwnam := fun _ n =>
    if n = "root".toList then (Ret.success, some ⟨n, 0, "/root".toList⟩) else (Ret.success, none)
  getgrnam_r := fun _ n => if n = "root".toList then (Ret.success, some ⟨n, 0⟩) else (Ret.success, none)
  getgrnam := fun _ n => if n = "root".toList then (Ret.success, some ⟨n, 0⟩) else (Ret.success, none)
  getcwd := fun _ size => if 1 < size then .ok "/".toList else .error ERANGE

/-- The environment `calm` where `fork` returns in the parent with child 200. -/
def calm_parent : Sys := { calm with fork := fun _ => ⟨200, 0⟩ }

/-- The path of the PID file in the examples. -/
def pid_path : Str := "/run/eggd.pid".toList

/-- The environment `calm` with a stale PID file holding `4242` (no such
process) and a process 300 whose command line is `eggd`. -/
def stale : Sys :=
  { calm with
    open_ := fun _ path _ => if path = pid_path then ⟨3, 0⟩ else ⟨-1, 2⟩
    read := fun _ _ _ => (⟨4, 0⟩, "4242".toList)
    opendir := fun _ _ => .ok ["self".toList, "300".toList]
    fopen := fun _ _ _ => .ok "eggd".toList }

/-- The environment `calm` with a PID file that exists but that `open` refuses
with `EACCES`. -/
def denied : Sys :=
  { calm with open_ := fun _ path _ => if path = pid_path then ⟨-1, EACCES⟩ else ⟨-1, 2⟩ }

/-- The bytes of a `cmdline` file: `argv[0] = "sleep"`, `argv[1] = "eggd"`. -/
def sleep_eggd : Str := "sleep".toList ++ [NUL] ++ "eggd".toList ++ [NUL]

/-- The environment `calm` with a process 300 whose command line is `sleep eggd`. -/
def argv_env : Sys :=
  { calm with
    opendir := fun _ _ => .ok ["300".toList]
    fopen := fun _ _ _ => .ok sleep_eggd }

/-- The environment `calm` whose `/proc` lists the caller (pid 100) only. -/
def alone : Sys :=
  { calm with
    opendir := fun _ _ => .ok ["100".toList, "self".toList]
    fopen := fun _ _ _ => .ok "eggd".toList }

/-- A handler object for the signal number `-1`. -/
def stray : signal.handler := ⟨-1, 0, .continue_process, SigAction.default, 7⟩

/-- A `process` object as the constructor leaves it for `argv[0] = "/usr/bin/eggd"`
run by root. -/
def fresh : process where
  __f_trace := false
  __f_is_daemon := false
  __f_req_user_change := false
  __f_req_group_change := false
  __f_req_cwd_change := false
  __f_req_pid_file := false
  __f_req_syslog := false
  __f_req_cgroup := false
  __f_switch_complete := false
  _name := "eggd".toList
  _description := "Default process".toList
  _uid := 0
  _user := "root".toList
  _gid := 0
  _group := "root".toList
  _syslog_label := "DMN".toList
  _working_directory := []
  _pid_path := []

/-- The world right after the controller singleton and the object are built. -/
def World.start (p : process) : World := ⟨p, fun _ => none, fun _ => ⟨0, 0⟩, []⟩

/-- The object `fresh` with the PID file enabled at `pid_path`. -/
def fresh_pid : process := { fresh with __f_req_pid_file := true, _pid_path := pid_path }

/-- The object `fresh` with the daemon flag enabled. -/
def fresh_daemon : process := { fresh with __f_is_daemon := true }

/-- The world that a first run of `execute()` leaves, in the environment `calm`
on the object `fresh`. -/
def after_first_run : World := (process.execute calm (World.start fresh)).2

/-! ## Further definitions: properties, databases, kernel and filesystem models -/

/-- The disposition of signal `s` that the kernel holds after the events `h`,
when it held `d0` before them and every `sigaction` on `s` among them succeeded:
the action of the last one. -/
def disposition (d0 : SigAction) (s : Int) (h : List Event) : SigAction :=
  h.foldl (fun d e => match e with
    | .sys (.sigaction t act) => if t = s then act else d
    | _ => d) d0

/-- How often the events `h` delete the handler object `o`. -/
def deletions (o : Nat) (h : List Event) : Nat :=
  h.countP (fun e => match e with
    | .deleted x => x.object == o
    | _ => false)

/-- The events of `w1` that follow those of `w`. -/
def new_events (w w1 : World) : List Event := w1.trace.drop w.trace.length

/-- The action `enable` hands to `sigaction` for the handler `h` with the mask `m`. -/
def trampoline (h : signal.handler) (m : Sigset) : SigAction :=
  ⟨.__signal_callback, m, SA_SIGINFO ||| h._flags⟩

/-- The events of deleting what a slot holds. -/
def disposal : Option signal.handler → List Event
  | some x => [.deleted x]
  | none => []

/-- An environment whose `sigaction` always succeeds and reports the disposition
in force, the default one at the start. -/
def kernel : Sys :=
  { calm with sigaction := fun h s _ => (Ret.success, disposition SigAction.default s h) }

/-- The first handler object for `SIGUSR1`. -/
def first_usr1 : signal.handler := ⟨10, 0, .continue_process, SigAction.default, 1⟩

/-- The second handler object for `SIGUSR1`. -/
def second_usr1 : signal.handler := ⟨10, SA_RESTART, .continue_process, SigAction.default, 2⟩

/-- The trampoline run `n` times for signal `s`, one delivery after another. -/
def deliver (σ : Sys) (s : Int) : Nat → M Unit
  | 0 => pure ()
  | n + 1 => do
    signal.controller.__signal_callback σ s
    deliver σ s n

/-- The `how` argument `SIG_SETMASK`. -/
def SIG_SETMASK : Int := 2

/-- The mask a successful `sigprocmask(how, set, ..)` leaves, from the mask `m`;
a null `set` changes nothing. The signals the kernel never blocks are not told
apart. -/
def sigmask_apply (m : Sigset) (how : Int) (set : Option Sigset) : Sigset :=
  match set with
  | none => m
  | some x =>
    if how = SIG_BLOCK then m ||| x
    else if how = SIG_UNBLOCK then m ^^^ (m &&& x)
    else if how = SIG_SETMASK then x
    else m

/-- The signal mask of the process after the events `h`, when it was `m0` before
them and every `sigprocmask` among them succeeded. -/
def sigmask (m0 : Sigset) (h : List Event) : Sigset :=
  h.foldl (fun m e => match e with
    | .sys (.sigprocmask how set) => sigmask_apply m how set
    | _ => m) m0

/-- An environment whose `sigprocmask` always succeeds and reports the mask in
force, `m0` at the start. -/
def masked (m0 : Sigset) : Sys :=
  { calm with sigprocmask := fun h _ _ => (Ret.success, sigmask m0 h) }

/-- The events before the call of `fork()`. -/
def before_fork (h : List Event) : List Event :=
  h.takeWhile (fun e => e != .sys .fork)

namespace credentials

variable (σ : Sys)

/-- The function `credentials::name_to_user_id`. -/
def name_to_user_id (the_name : Str) : M Nat := do
  if σ.HAVE_PWNAM_R then
    let the_size ← ask .sysconf σ.sysconf
    if the_size = -1 then
      raise (.system_error ERANGE .generic "Failed call to sysconf(_SC_GETPW_R_SIZE_MAX)".toList)
    let (r, _password) ← ask (.getpwnam (c_str the_name)) (σ.getpwnam_r · (c_str the_name))
    if r.val ≠ 0 then
      raise (.system_error r.errno .system "Failed call to getpwnam_r()".toList)
    match _password with
    | none =>
      raise (errc_invalid_argument ("User \"".toList ++ the_name ++ "\" not found".toList))
    | some pw => return pw.pw_uid
  else
    let (_, _password) ← ask (.getpwnam (c_str the_name)) (σ.getpwnam · (c_str the_name))
    match _password with
    | none =>
      raise (errc_invalid_argument ("User \"".toList ++ the_name ++ "\" not found".toList))
    | some pw => return pw.pw_uid

/-- The function `credentials::name_to_group_id`. -/
def name_to_group_id (the_name : Str) : M Nat := do
  if σ.HAVE_GRNAM_R then
    let the_size ← ask .sysconf σ.sysconf
    if the_size = -1 then
      raise (.system_error ERANGE .generic "Failed call to sysconf(_SC_GETPW_R_SIZE_MAX)".toList)
    let (r, _group) ← ask (.getgrnam (c_str the_name)) (σ.getgrnam_r · (c_str the_name))
    if r.val ≠ 0 then
      raise (.system_error r.errno .system "Failed call to getgrnam_r()".toList)
    match _group with
    | none =>
      raise (errc_invalid_argument ("Group \"".toList ++ the_name ++ "\" not found".toList))
    | some gr => return gr.gr_gid
  else
    let (_, _group) ← ask (.getgrnam (c_str the_name)) (σ.getgrnam · (c_str the_name))
    match _group with
    | none =>
      raise (errc_invalid_argument ("Group \"".toList ++ the_name ++ "\" not found".toList))
    | some gr => return gr.gr_gid

end credentials

namespace process

variable (σ : Sys)

/-- The member `process::set(property, const egg::variable&)`; `the_value` is the
string `the_value.as_string()` returns. -/
def set (the_property : property) (the_value : Str) : M Unit := do
  if the_property = .description then
    assign (fun p => { p with _description := the_value })
    log_trace LOG_DEBUG "Set name to \"%s\""
  else if the_property = .user then
    let uid ← credentials.name_to_user_id σ the_value
    assign (fun p => { p with _uid := uid })
    assign (fun p => { p with _user := the_value })
    log_trace LOG_DEBUG "Set user name to \"%s\" (id: %u)"
  else if the_property = .group then
    let gid ← credentials.name_to_group_id σ the_value
    assign (fun p => { p with _gid := gid })
    assign (fun p => { p with _group := the_value })
    log_trace LOG_DEBUG "Set group name to \"%s\" (id: %u)"
  else if the_property = .working_directory then
    assign (fun p => { p with _working_directory := the_value })
    log_trace LOG_DEBUG "Set working directory to \"%s\""
  else if the_property = .pid_file then
    assign (fun p => { p with _pid_path := the_value })
    log_trace LOG_DEBUG "Set PID file name to \"%s\""
  else if the_property = .syslog then
    assign (fun p => { p with _syslog_label := the_value })
    log_trace LOG_DEBUG "Change label to \"%s\""

/-- The member `process::get(property) const`; `none` is the empty
`egg::variable`. -/
def get (p : process) (the_property : property) : Option Str :=
  if the_property = .description then some p._description
  else if the_property = .user then some p._user
  else if the_property = .group then some p._group
  else if the_property = .working_directory then some p._working_directory
  else if the_property = .pid_file then some p._pid_path
  else if the_property = .syslog then some p._syslog_label
  else none

end process

/-- What the user database answers `name_to_user_id` for a name at the world `w`. -/
def lookup_user (σ : Sys) (w : World) (n : Str) : Option Passwd :=
  if σ.HAVE_PWNAM_R then (σ.getpwnam_r (w.trace ++ [.sys .sysconf]) (c_str n)).2
  else (σ.getpwnam w.trace (c_str n)).2

/-- What the group database answers `name_to_group_id` for a name at the world `w`. -/
def lookup_group (σ : Sys) (w : World) (n : Str) : Option Group :=
  if σ.HAVE_GRNAM_R then (σ.getgrnam_r (w.trace ++ [.sys .sysconf]) (c_str n)).2
  else (σ.getgrnam w.trace (c_str n)).2

/-- The databases do not change: a lookup ends the same way whenever it is made. -/
def steady (σ : Sys) : Prop :=
  ∀ n w w1, (credentials.name_to_user_id σ n w).1 = (credentials.name_to_user_id σ n w1).1 ∧
    (credentials.name_to_group_id σ n w).1 = (credentials.name_to_group_id σ n w1).1

/-- The stored names and ids correspond: looking up the stored name gives the
stored id. -/
def corresponds (σ : Sys) (p : process) : Prop :=
  ∀ w, (credentials.name_to_user_id σ p._user w).1 = .ok p._uid ∧
    (credentials.name_to_group_id σ p._group w).1 = .ok p._gid

/-- A sequence of `set` calls, each made whether or not the one before raised. -/
def set_each (σ : Sys) : List (property × Str) → World → World
  | [], w => w
  | c :: rest, w => set_each σ rest (process.set σ c.1 c.2 w).2

/-- The texts that the `fprintf` calls among the events write, in order. -/
def written (h : List Event) : List Str :=
  h.filterMap (fun e => match e with
    | .sys (.fprintf t) => some t
    | _ => none)

/-- No such file or directory. -/
def ENOENT : Nat := 2
/-- File exists. -/
def EEXIST : Nat := 17

/-- A directory of the filesystem model: the mode handed to the `mkdir` that
created it, its owner and its group. -/
structure Dir where
  mode : Nat
  st_uid : Nat
  st_gid : Nat
deriving DecidableEq, Repr

/-- The directories of the filesystem model, by path. -/
abbrev Dirs := Str → Option Dir

/-- The calling process in the filesystem model: its effective ids, which own
what it creates, where it may create a directory, and whether it may change
owners. -/
structure Caller where
  euid : Nat
  egid : Nat
  may_mkdir : Str → Bool
  may_chown : Bool

/-- The effect of one event on the directories: `mkdir` creates a directory that
is not there, `chown` changes the owner of one that is, when the caller may. -/
def Caller.step (k : Caller) (dirs : Dirs) : Event → Dirs
  | .sys (.mkdir p mode) =>
    if (dirs p).isNone && k.may_mkdir p then
      Function.update dirs p (some ⟨mode, k.euid, k.egid⟩)
    else dirs
  | .sys (.chown p u g) =>
    match dirs p with
    | some x => if k.may_chown then Function.update dirs p (some { x with st_uid := u, st_gid := g })
      else dirs
    | none => dirs
  | _ => dirs

/-- The directories after the events `h`, from the directories `d0`. -/
def Caller.after (k : Caller) (d0 : Dirs) (h : List Event) : Dirs :=
  h.foldl k.step d0

/-- What `stat` and `fstat` answer in the filesystem model. -/
def stat_of : Option Dir → Ret × StatBuf
  | some x => (Ret.success, ⟨x.st_uid, x.st_gid⟩)
  | none => (⟨-1, ENOENT⟩, ⟨0, 0⟩)

/-- The environment `calm` over the filesystem model: every call on directories
answers from the directories the events so far have left. -/
def on_disk (k : Caller) (d0 : Dirs) : Sys :=
  { calm with
    opendir := fun h p => if (k.after d0 h p).isSome then .ok [] else .error ENOENT
    mkdir := fun h p _ =>
      if (k.after d0 h p).isSome then ⟨-1, EEXIST⟩
      else if k.may_mkdir p then Ret.success else ⟨-1, EACCES⟩
    stat := fun h p => stat_of (k.after d0 h p)
    fstat := fun h p => stat_of (k.after d0 h p)
    chown := fun h p _ _ =>
      match k.after d0 h p with
      | some _ => if k.may_chown then Ret.success else ⟨-1, EPERM⟩
      | none => ⟨-1, ENOENT⟩ }

/-- The events of `create_directory` on a directory that exists with the owner
and group `x`: it opens it, reads its owner, and changes the owner when that or
the group differs. -/
def reconcile (p : Str) (uid gid : Nat) (x : Dir) : List Event :=
  [.sys (.opendir p), .sys (.fstat p), .sys .closedir] ++
    (if x.st_uid ≠ uid ∨ x.st_gid ≠ gid then [.sys (.chown p uid gid)] else [])

/-- The caller root, who may do everything. -/
def root_caller : Caller := ⟨0, 0, fun _ => true, true⟩

/-- A filesystem without directories. -/
def no_dirs : Dirs := fun _ => none

namespace credentials

variable (σ : Sys)

/-- The function `credentials::working_directory`. When `getcwd` fails with
`ERANGE` the body of the loop doubles `size`, releases the array with
`delete [] buffer` and binds the new array to a second variable `buffer`, declared
inside the block; the condition of the loop is then evaluated on the first
`buffer`, the released array. -/
def working_directory : M Str := do
  let size := 1024
  -- char* buffer = new char[size]
  match ← ask (.getcwd size) (σ.getcwd · size) with
  | .ok path =>
    -- std::string result(buffer)
    return c_str path
  | .error e =>
    if e = ERANGE then
      -- size *= 2; delete [] buffer; char* buffer = new char[size];
      -- while (getcwd(buffer, size) == NULL)
      fault .use_after_free
    else
      -- delete [] buffer
      raise (.system_error e .system "getcwd() failed".toList)

end credentials

/-- A working directory whose path has 1024 bytes. -/
def long_path : Str := '/' :: List.replicate 1023 'a'

/-- The environment `calm` in the working directory `long_path`: `getcwd` stores
the path when the buffer holds it and its zero byte, and fails with `ERANGE`
otherwise. -/
def deep : Sys :=
  { calm with getcwd := fun _ size => if long_path.length < size then .ok long_path
      else .error ERANGE }

namespace process

/-- The member `process::enable(property)`. -/
def enable (the_property : property) : M Unit := do
  if the_property = .trace then
    assign (fun p => { p with __f_trace := true })
  else if the_property = .daemon then
    assign (fun p => { p with __f_is_daemon := true })
  else if the_property = .user then
    assign (fun p => { p with __f_req_user_change := true })
  else if the_property = .group then
    assign (fun p => { p with __f_req_group_change := true })
  else if the_property = .working_directory then
    assign (fun p => { p with __f_req_cwd_change := true })
  else if the_property = .pid_file then
    assign (fun p => { p with __f_req_pid_file := true })
  else if the_property = .syslog then
    assign (fun p => { p with __f_req_syslog := true })
    -- Open syslog
    let p ← this
    if p.__f_req_syslog then
      sys (.openlog p._syslog_label)
      if p.__f_trace then
        sys (.syslog LOG_INFO "Start logging ...".toList)
  else if the_property = .cgroup then
    assign (fun p => { p with __f_req_cgroup := true })

/-- The member `process::disable(property)`. -/
def disable (the_property : property) : M Unit := do
  if the_property = .trace then
    assign (fun p => { p with __f_trace := false })
  else if the_property = .daemon then
    assign (fun p => { p with __f_is_daemon := false })
  else if the_property = .user then
    assign (fun p => { p with __f_req_user_change := false })
  else if the_property = .group then
    assign (fun p => { p with __f_req_group_change := false })
  else if the_property = .working_directory then
    assign (fun p => { p with __f_req_cwd_change := false })
  else if the_property = .pid_file then
    assign (fun p => { p with __f_req_pid_file := false })
  else if the_property = .syslog then
    assign (fun p => { p with __f_req_syslog := false })
    sys .closelog
  else if the_property = .cgroup then
    assign (fun p => { p with __f_req_cgroup := false })

/-- The inline member `process::toggle(property, bool)` of `runner.hpp`. -/
def toggle (p : property) (the_value : Bool) : M Unit :=
  if the_value then enable p else disable p

/-- The member `process::status(property) const`. -/
def status (p : process) (the_property : property) : Bool :=
  if the_property = .trace then p.__f_trace
  else if the_property = .daemon then p.__f_is_daemon
  else if the_property = .user then p.__f_req_user_change
  else if the_property = .group then p.__f_req_group_change
  else if the_property = .working_directory then p.__f_req_cwd_change
  else if the_property = .pid_file then p.__f_req_pid_file
  else if the_property = .syslog then p.__f_req_syslog
  else if the_property = .cgroup then p.__f_req_cgroup
  else false

/-- The destructor `process::~process()`. -/
def destruct : M Unit := do
  let p ← this
  if p.__f_req_syslog then
    sys .closelog

end process

/-- The calls on a `process` object of which the syslog discipline speaks. -/
inductive Op where
  | enable_syslog
  | disable_syslog
  | execute
  | destroy
deriving DecidableEq, Repr

/-- One of the calls on the object. -/
def perform (σ : Sys) : Op → M Unit
  | .enable_syslog => process.enable .syslog
  | .disable_syslog => process.disable .syslog
  | .execute => process.execute σ
  | .destroy => process.destruct

/-- The world after a sequence of calls, each made however the one before ended. -/
def perform_all (σ : Sys) : List Op → World → World
  | [], w => w
  | o :: rest, w => perform_all σ rest (perform σ o w).2

/-- The number of `openlog()` calls not yet closed after the events, `n` being
outstanding before them. -/
def outstanding : Nat → List Event → Nat
  | n, [] => n
  | n, .sys (.openlog _) :: t => outstanding (n + 1) t
  | n, .sys .closelog :: t => outstanding (n - 1) t
  | n, _ :: t => outstanding n t

/-- The discipline as the claim words it, `n` opens being outstanding: every
`closelog()` finds an `openlog()` that is not yet closed, and at the end every
`openlog()` has been closed. -/
def paired : Nat → List Event → Bool
  | n, [] => n == 0
  | n, .sys (.openlog _) :: t => paired (n + 1) t
  | 0, .sys .closelog :: _ => false
  | n + 1, .sys .closelog :: t => paired n t
  | n, _ :: t => paired n t

/-- The events of the block that opens syslog, in `enable` and in `execute()`. -/
def opening (p : process) : List Event :=
  [.sys (.openlog p._syslog_label)] ++
    (if p.__f_trace then [.sys (.syslog LOG_INFO "Start logging ...".toList)] else [])

/-! ## Further definitions: identity calls, paths, handlers and file modes -/

/-- The entries the loop of `process::exists` visits: those up to and including
the first hit. -/
def scanned (name : Str) (self_pid : Int) (files : Str → Str) : List Str → List Str
  | [] => []
  | d :: rest =>
    if is_hit name self_pid files d then [d] else d :: scanned name self_pid files rest

/-- The environment `calm` whose `/proc` lists the caller (pid 100), with the
command line `eggd`, and a process 200 whose `cmdline` does not open. -/
def gone : Sys :=
  { calm with
    opendir := fun _ _ => .ok ["100".toList, "200".toList]
    fopen := fun _ path _ =>
      if path = proc_path "100".toList then .ok "eggd".toList else .error ENOENT }

/-- The environment `calm` whose `/proc` lists a process 200 whose `cmdline` does
not open, then a process 300 with the command line `eggd`. -/
def gone_first : Sys :=
  { calm with
    opendir := fun _ _ => .ok ["200".toList, "300".toList]
    fopen := fun _ path _ =>
      if path = proc_path "300".toList then .ok "eggd".toList else .error ENOENT }

/-- The environment `calm` whose `/proc` lists a process 300 with the command line
`eggd`, then a process 200 whose `cmdline` does not open. -/
def gone_last : Sys :=
  { calm with
    opendir := fun _ _ => .ok ["300".toList, "200".toList]
    fopen := fun _ path _ =>
      if path = proc_path "300".toList then .ok "eggd".toList else .error ENOENT }

/-- The bytes read from the `cmdline` of the entries of `gone_first` and
`gone_last`: `eggd` for process 300, nothing for process 200. -/
def only_300 (d : Str) : Str := if d = "300".toList then "eggd".toList else []

/-- The calls that change the identity of the process. -/
def Event.identity : Event → Bool
  | .sys (.capng_change_id _ _) => true
  | .sys (.setgid _) => true
  | .sys (.initgroups _ _) => true
  | .sys (.setegid _) => true
  | .sys (.setuid _) => true
  | .sys (.seteuid _) => true
  | _ => false

/-- The calls that write `USER`, `LOGNAME` or `HOME`. -/
def Event.env_write : Event → Bool
  | .sys (.setenv key _) =>
    key == "USER".toList || key == "LOGNAME".toList || key == "HOME".toList
  | _ => false

/-- Events that neither change the identity nor write `USER`, `LOGNAME`, `HOME`. -/
def Event.plain (e : Event) : Bool := !e.identity && !e.env_write

/-- The identity-changing calls among the events, in order. -/
def identity_calls (h : List Event) : List Event := h.filter Event.identity

/-- The writes of `USER`, `LOGNAME` and `HOME` among the events, in order. -/
def env_writes (h : List Event) : List Event := h.filter Event.env_write

/-- The object `fresh` of root with the user switch enabled. -/
def fresh_switch : process := { fresh with __f_req_user_change := true }

/-- The identity-changing calls of the traditional path for the object `p`, in
the order of the source; `initgroups` is there when the build has it. -/
def traditional_calls (σ : Sys) (p : process) : List Event :=
  [.sys (.setgid p._gid)] ++
  (if σ.HAVE_INITGROUPS then [.sys (.initgroups p._user p._gid)] else []) ++
  [.sys (.setegid p._gid), .sys (.setuid p._uid), .sys (.seteuid p._uid)]

/-- The writes of `USER`, `LOGNAME` and `HOME` for the object `p` and the home
directory `dir`. -/
def environment_calls (p : process) (dir : Str) : List Event :=
  [.sys (.setenv "USER".toList p._user), .sys (.setenv "LOGNAME".toList p._user),
   .sys (.setenv "HOME".toList dir)]

/-- What the environment answers to an identity call of the traditional path made
after the history `h`, with the name the source gives the call in its error. -/
def identity_result (σ : Sys) (h : List Event) : Event → Option (Ret × Str)
  | .sys (.setgid g) => some (σ.setgid h g, "setgid()".toList)
  | .sys (.initgroups u g) => some (σ.initgroups h u g, "initgroups()".toList)
  | .sys (.setegid g) => some (σ.setegid h g, "setegid()".toList)
  | .sys (.setuid u) => some (σ.setuid h u, "setuid()".toList)
  | .sys (.seteuid u) => some (σ.seteuid h u, "seteuid()".toList)
  | _ => none

/-- Every identity call among the events, made after `h` and the events before
it, that fails is the last event, and `o` is its error. -/
def stops_at_failure (σ : Sys) (o : Outcome Unit) : List Event → List Event → Prop
  | _, [] => True
  | h, e :: rest =>
    (∀ r name, identity_result σ h e = some (r, name) → r.val < 0 →
      rest = [] ∧ o = .raised (.system_error r.errno .system name)) ∧
    stops_at_failure σ o (h ++ [e]) rest

/-- No identity call follows a write of `USER`, `LOGNAME` or `HOME`. -/
def settled : List Event → Bool
  | [] => true
  | e :: rest => (!e.env_write || (identity_calls rest).isEmpty) && settled rest

/-- What the statements on the traditional path say of the outcome `o` and the
events `tr` of a call of `__set_credentials()` in the world `w`. -/
def Switched (σ : Sys) (w : World) (o : Outcome Unit) (tr : List Event) : Prop :=
  identity_calls tr <+: traditional_calls σ w.self ∧
  (o = .ok () → identity_calls tr = traditional_calls σ w.self ∧
    ∃ dir, env_writes tr = environment_calls w.self dir) ∧
  stops_at_failure σ o w.trace tr ∧
  settled tr = true ∧
  (env_writes tr ≠ [] → identity_calls tr = traditional_calls σ w.self) ∧
  ∃ dir, env_writes tr <+: environment_calls w.self dir

/-- The events of the statement `log_trace priority format` on the object `p`. -/
def trace_note (p : process) (priority : Nat) (format : String) : List Event :=
  if p.__f_req_syslog && p.__f_trace then [.sys (.syslog priority format.toList)] else []

/-- The events of the statement `log_sys priority format` on the object `p`. -/
def sys_note (p : process) (priority : Nat) (format : String) : List Event :=
  if p.__f_req_syslog then [.sys (.syslog priority format.toList)] else []

/-- The object `fresh_switch` with the target user 1000 of the group 1000. -/
def fresh_other : process :=
  { fresh_switch with _uid := 1000, _user := "egg".toList, _gid := 1000, _group := "egg".toList }

/-- The directory `execute()` derives from the PID path:
`_pid_path.substr(0, _pid_path.find_last_of('/'))`. -/
def pid_directory (p : Str) : Str := substr p 0 (find_last_of p '/')

/-- The path of the `opendir` that follows the mark of `create_directory`: the
directory `execute()` passed to it. -/
def passed_directory : List Event → Option Str
  | [] => none
  | .call .create_directory :: .sys (.opendir d) :: _ => some d
  | _ :: t => passed_directory t

/-- The object `fresh` with the PID file enabled at the relative path `eggd.pid`. -/
def fresh_relative : process :=
  { fresh with __f_req_pid_file := true, _pid_path := "eggd.pid".toList }

/-- A handler object for the signal number `0`. -/
def null_signal : signal.handler := ⟨0, 0, .continue_process, SigAction.default, 3⟩

/-- A handler object for `SIGKILL`. -/
def for_kill : signal.handler := ⟨9, 0, .continue_process, SigAction.default, 4⟩

/-- A handler object for `SIGCHLD` that the user installs. -/
def user_chld : signal.handler := ⟨17, 0, .continue_process, SigAction.default, 5⟩

/-- The world in which `first_usr1` is installed for `SIGUSR1`. -/
def usr1_installed : World :=
  { World.start fresh with _s_handler := fun i => if i = 10 then some first_usr1 else none }

/-- The environment `calm` in which every `sigaction` fails. -/
def refusing : Sys :=
  { calm with sigaction := fun _ _ _ => (⟨-1, EINVAL⟩, SigAction.default) }

/-- The world after the user installed `user_chld`, in the environment `kernel`. -/
def chld_installed : World :=
  (signal.controller.enable kernel (some user_chld) (World.start fresh)).2

/-- The object `fresh` with a PID path stored and the PID file not enabled. -/
def fresh_stored : process := { fresh with _pid_path := "/run/other.pid".toList }

/-- Bad file descriptor. -/
def EBADF : Nat := 9

/-- The environment `calm` in which every `dup2` fails. -/
def no_dup : Sys := { calm with dup2 := fun _ _ _ => ⟨-1, EBADF⟩ }

/-- The environment `calm` with a PID file of the given content, where `kill`
succeeds on a process group (`pid ≤ 0`) and finds no process with a positive pid. -/
def pid_file_with (content : Str) : Sys :=
  { calm with
    open_ := fun _ path _ => if path = pid_path then ⟨3, 0⟩ else ⟨-1, 2⟩
    read := fun _ _ _ => (⟨content.length, 0⟩, content)
    kill := fun _ pid _ => if pid ≤ 0 then Ret.success else ⟨-1, ESRCH⟩ }

/-- The pids `kill` is called on among the events. -/
def probed (h : List Event) : List Int :=
  h.filterMap (fun e => match e with
    | .sys (.kill pid _) => some pid
    | _ => none)

/-- The paths `remove` is called on among the events. -/
def removed (h : List Event) : List Str :=
  h.filterMap (fun e => match e with
    | .sys (.remove path) => some path
    | _ => none)

/-- The enumeration `egg::type` of `filesystem.hpp`. -/
inductive type where
  | is_unknown
  | is_regular
  | is_directory
  | is_char_device
  | is_block_device
  | is_fifo
  | is_link
  | is_socket
deriving DecidableEq, Repr

/-- The bit fields of `struct permission`. -/
structure permission where
  read : Bool
  write : Bool
  execute : Bool
deriving DecidableEq, Repr

/-- The members of `struct mode`. -/
structure mode where
  set_user_id : Bool
  set_group_id : Bool
  sticky_bit : Bool
  user : permission
  group : permission
  other : permission
deriving DecidableEq, Repr

/-- The members of `struct timestamp`, in seconds and nanoseconds. -/
structure timestamp where
  sec : Int
  nsec : Int
deriving DecidableEq, Repr

/-- The fields of `struct stat` that `file::__stat` reads. -/
structure struct_stat where
  st_ino : Int
  st_mode : Nat
  st_nlink : Int
  st_uid : Int
  st_gid : Int
  st_dev : Int
  st_rdev : Int
  st_size : Int
  st_blksize : Int
  st_blocks : Int
  st_atim : timestamp
  st_mtim : timestamp
  st_ctim : timestamp
deriving DecidableEq, Repr

/-- The data members of `egg::file`. -/
structure file where
  _name : Str
  _inode : Int
  _type : type
  _mode : mode
  _link_count : Int
  _uid : Int
  _gid : Int
  _dev : Int
  _rdev : Int
  _size : Int
  _block_size : Int
  _block_count : Int
  _access : timestamp
  _modification : timestamp
  _status_change : timestamp
deriving DecidableEq, Repr

/-- Mask `S_IFMT` of the file type bits (Linux). -/
def S_IFMT : Nat := 0o170000
/-- Type bits of a socket. -/
def S_IFSOCK : Nat := 0o140000
/-- Type bits of a symbolic link. -/
def S_IFLNK : Nat := 0o120000
/-- Type bits of a regular file. -/
def S_IFREG : Nat := 0o100000
/-- Type bits of a block device. -/
def S_IFBLK : Nat := 0o060000
/-- Type bits of a directory. -/
def S_IFDIR : Nat := 0o040000
/-- Type bits of a character device. -/
def S_IFCHR : Nat := 0o020000
/-- Type bits of a FIFO. -/
def S_IFIFO : Nat := 0o010000
/-- Set-user-id bit. -/
def S_ISUID : Nat := 0o4000
/-- Set-group-id bit. -/
def S_ISGID : Nat := 0o2000
/-- Sticky bit. -/
def S_ISVTX : Nat := 0o1000
/-- Read by owner. -/
def S_IRUSR : Nat := 0o400
/-- Write by owner. -/
def S_IWUSR : Nat := 0o200
/-- Execute by owner. -/
def S_IXUSR : Nat := 0o100
/-- Read by group. -/
def S_IRGRP : Nat := 0o040
/-- Write by group. -/
def S_IWGRP : Nat := 0o020
/-- Execute by group. -/
def S_IXGRP : Nat := 0o010
/-- Read by others. -/
def S_IROTH : Nat := 0o004
/-- Write by others. -/
def S_IWOTH : Nat := 0o002
/-- Execute by others. -/
def S_IXOTH : Nat := 0o001

/-- The test `st_mode & bit` of C. -/
def has_bit (st_mode bit : Nat) : Bool := st_mode &&& bit != 0

namespace file

/-- The default constructor `file::file()`; the members of `_mode` and the
timestamps are zeroed by their own constructors. -/
def construct : file where
  _name := []
  _inode := -1
  _type := .is_unknown
  _mode := ⟨false, false, false, ⟨false, false, false⟩, ⟨false, false, false⟩,
    ⟨false, false, false⟩⟩
  _link_count := 0
  _uid := -1
  _gid := -1
  _dev := -1
  _rdev := -1
  _size := 0
  _block_size := 0
  _block_count := 0
  _access := ⟨0, 0⟩
  _modification := ⟨0, 0⟩
  _status_change := ⟨0, 0⟩

/-- A statement `if (buffer.st_mode & bit) _mode.member = 1;` of `__stat`: the
member is assigned when the bit is set and left as it is otherwise. -/
def raise_bit (st_mode bit : Nat) (assign : mode → mode) (f : file) : file :=
  if has_bit st_mode bit then { f with _mode := assign f._mode } else f

/-- The member `file::__stat()`; `stat` answers `::stat` for a path with its
return value, `errno` and the buffer it fills. The object is left as it is when the
exception is thrown. -/
def __stat (stat : Str → Ret × struct_stat) (f : file) : Outcome Unit × file :=
  let (r, buffer) := stat (c_str f._name)
  if r.val < 0 then (.raised (.system_error r.errno .system []), f)
  else
    -- iNode
    let f := { f with _inode := buffer.st_ino }
    -- Type
    let f := { f with _type :=
      if buffer.st_mode &&& S_IFMT = S_IFREG then .is_regular
      else if buffer.st_mode &&& S_IFMT = S_IFDIR then .is_directory
      else if buffer.st_mode &&& S_IFMT = S_IFCHR then .is_char_device
      else if buffer.st_mode &&& S_IFMT = S_IFBLK then .is_block_device
      else if buffer.st_mode &&& S_IFMT = S_IFIFO then .is_fifo
      else if buffer.st_mode &&& S_IFMT = S_IFLNK then .is_link
      else if buffer.st_mode &&& S_IFMT = S_IFSOCK then .is_socket
      else .is_unknown }
    -- Mode
    let f := raise_bit buffer.st_mode S_ISUID (fun m => { m with set_user_id := true }) f
    let f := raise_bit buffer.st_mode S_ISGID (fun m => { m with set_group_id := true }) f
    let f := raise_bit buffer.st_mode S_ISVTX (fun m => { m with sticky_bit := true }) f
    let f := raise_bit buffer.st_mode S_IRUSR
      (fun m => { m with user := { m.user with read := true } }) f
    let f := raise_bit buffer.st_mode S_IWUSR
      (fun m => { m with user := { m.user with write := true } }) f
    let f := raise_bit buffer.st_mode S_IXUSR
      (fun m => { m with user := { m.user with execute := true } }) f
    let f := raise_bit buffer.st_mode S_IRGRP
      (fun m => { m with group := { m.group with read := true } }) f
    let f := raise_bit buffer.st_mode S_IWGRP
      (fun m => { m with group := { m.group with write := true } }) f
    let f := raise_bit buffer.st_mode S_IXGRP
      (fun m => { m with group := { m.group with execute := true } }) f
    let f := raise_bit buffer.st_mode S_IROTH
      (fun m => { m with other := { m.other with read := true } }) f
    let f := raise_bit buffer.st_mode S_IWOTH
      (fun m => { m with other := { m.other with write := true } }) f
    let f := raise_bit buffer.st_mode S_IXOTH
      (fun m => { m with other := { m.other with execute := true } }) f
    (.ok (), { f with
      _link_count := buffer.st_nlink
      _uid := buffer.st_uid
      _gid := buffer.st_gid
      _dev := buffer.st_dev
      _rdev := buffer.st_rdev
      _size := buffer.st_size
      _block_size := buffer.st_blksize
      _block_count := buffer.st_blocks
      _access := buffer.st_atim
      _modification := buffer.st_mtim
      _status_change := buffer.st_ctim })

/-- The member `file::load(const std::string&)`. -/
def load (stat : Str → Ret × struct_stat) (the_file_name : Str) (f : file) :
    Outcome Unit × file :=
  __stat stat { f with _name := the_file_name }

/-- The member `file::get_mode() const`. -/
def get_mode (f : file) : mode := f._mode

end file

/-- The mode the claim expects `get_mode()` to return for an `st_mode`. -/
def mode_of (st_mode : Nat) : mode :=
  ⟨has_bit st_mode S_ISUID, has_bit st_mode S_ISGID, has_bit st_mode S_ISVTX,
    ⟨has_bit st_mode S_IRUSR, has_bit st_mode S_IWUSR, has_bit st_mode S_IXUSR⟩,
    ⟨has_bit st_mode S_IRGRP, has_bit st_mode S_IWGRP, has_bit st_mode S_IXGRP⟩,
    ⟨has_bit st_mode S_IROTH, has_bit st_mode S_IWOTH, has_bit st_mode S_IXOTH⟩⟩

/-- The union of two modes, bit by bit. -/
def mode.or (a b : mode) : mode :=
  ⟨a.set_user_id || b.set_user_id, a.set_group_id || b.set_group_id,
    a.sticky_bit || b.sticky_bit,
    ⟨a.user.read || b.user.read, a.user.write || b.user.write, a.user.execute || b.user.execute⟩,
    ⟨a.group.read || b.group.read, a.group.write || b.group.write,
      a.group.execute || b.group.execute⟩,
    ⟨a.other.read || b.other.read, a.other.write || b.other.write,
      a.other.execute || b.other.execute⟩⟩

/-- A `struct stat` with the given `st_mode` and nothing else of interest. -/
def stat_with (st_mode : Nat) : struct_stat :=
  ⟨1, st_mode, 1, 0, 0, 0, 0, 0, 4096, 0, ⟨0, 0⟩, ⟨0, 0⟩, ⟨0, 0⟩⟩

/-- A filesystem with the program `/bin/tool` (mode `0755`) and the private file
`/etc/secret` (mode `0600`). -/
def two_files (path : Str) : Ret × struct_stat :=
  if path = "/bin/tool".toList then (Ret.success, stat_with 0o100755)
  else if path = "/etc/secret".toList then (Ret.success, stat_with 0o100600)
  else (⟨-1, 2⟩, stat_with 0)

/-! ## Sequencing -/

theorem bind_apply {α β : Type} (m : M α) (f : α → M β) (w : World) :
    (m >>= f) w =
      match m w with
      | (.ok a, w1) => f a w1
      | (.raised e, w1) => (.raised e, w1)
      | (.undefined u, w1) => (.undefined u, w1) := rfl

theorem pure_apply {α : Type} (a : α) (w : World) : (pure a : M α) w = (.ok a, w) := rfl

theorem keeps_pure {α : Type} (P : Event → Bool) (a : α) : Keeps P (pure a : M α) :=
  ⟨fun w => ⟨rfl, [], by simp [pure_apply], rfl⟩⟩

theorem keeps_raise {α : Type} (P : Event → Bool) (e : Exception) : Keeps P (raise e : M α) :=
  ⟨fun w => ⟨rfl, [], by simp [raise], rfl⟩⟩

theorem keeps_fault {α : Type} (P : Event → Bool) (u : Fault) : Keeps P (fault u : M α) :=
  ⟨fun w => ⟨rfl, [], by simp [fault], rfl⟩⟩

theorem keeps_this (P : Event → Bool) : Keeps P this :=
  ⟨fun w => ⟨rfl, [], by simp [this], rfl⟩⟩

theorem keeps_bind {α β : Type} {P : Event → Bool} {m : M α} {f : α → M β}
    (hm : Keeps P m) (hf : ∀ a, Keeps P (f a)) : Keeps P (m >>= f) := by
  constructor
  intro w
  rw [bind_apply]
  obtain ⟨h1, t1, h2, h3⟩ := hm.keeps w
  rcases hmw : m w with ⟨o, w1⟩
  rw [hmw] at h1 h2
  cases o with
  | ok a =>
    obtain ⟨k1, t2, k2, k3⟩ := (hf a).keeps w1
    refine ⟨k1.trans h1, t1 ++ t2, ?_, ?_⟩
    · simp only at h2 ⊢
      rw [k2, h2, List.append_assoc]
    · simp [List.all_append, h3, k3]
  | raised e => exact ⟨h1, t1, h2, h3⟩
  | undefined u => exact ⟨h1, t1, h2, h3⟩

theorem keeps_raise_bind {α β : Type} (P : Event → Bool) (e : Exception) (f : α → M β) :
    Keeps P ((raise e : M α) >>= f) :=
  ⟨fun w => ⟨rfl, [], by simp [bind_apply, raise], rfl⟩⟩

theorem keeps_fault_bind {α β : Type} (P : Event → Bool) (u : Fault) (f : α → M β) :
    Keeps P ((fault u : M α) >>= f) :=
  ⟨fun w => ⟨rfl, [], by simp [bind_apply, fault], rfl⟩⟩

theorem keeps_emit {P : Event → Bool} (e : Event) (h : P e = true) : Keeps P (emit e) :=
  ⟨fun w => ⟨rfl, [e], rfl, by simp [h]⟩⟩

theorem keeps_sys {P : Event → Bool} (c : Syscall) (h : P (.sys c) = true) : Keeps P (sys c) :=
  keeps_emit _ h

theorem keeps_ask {α : Type} {P : Event → Bool} (c : Syscall) (f : List Event → α)
    (h : P (.sys c) = true) : Keeps P (ask c f) :=
  ⟨fun w => ⟨rfl, [.sys c], rfl, by simp [h]⟩⟩

theorem keeps_ite {α : Type} {P : Event → Bool} {c : Prop} [Decidable c] {a b : M α}
    (ha : Keeps P a) (hb : Keeps P b) : Keeps P (if c then a else b) := by
  split <;> assumption

theorem keeps_try_catch_system_error {α : Type} {P : Event → Bool} {m : M α}
    {h : Exception → M α} (hm : Keeps P m) (hh : ∀ e, Keeps P (h e)) :
    Keeps P (try_catch_system_error m h) := by
  constructor
  intro w
  simp only [try_catch_system_error]
  obtain ⟨h1, t1, h2, h3⟩ := hm.keeps w
  rcases hmw : m w with ⟨o, w1⟩
  rw [hmw] at h1 h2
  cases o with
  | ok a => exact ⟨h1, t1, h2, h3⟩
  | raised e =>
    cases e with
    | system_error c k msg =>
      obtain ⟨k1, t2, k2, k3⟩ := (hh (.system_error c k msg)).keeps w1
      refine ⟨k1.trans h1, t1 ++ t2, ?_, ?_⟩
      · simp only at h2 ⊢
        rw [k2, h2, List.append_assoc]
      · simp [List.all_append, h3, k3]
    | _ => exact ⟨h1, t1, h2, h3⟩
  | undefined u => exact ⟨h1, t1, h2, h3⟩

theorem keeps_mono {α : Type} {P Q : Event → Bool} {m : M α} (h : ∀ e, P e = true → Q e = true)
    (hm : Keeps P m) : Keeps Q m := by
  constructor
  intro w
  obtain ⟨h1, t, h2, h3⟩ := hm.keeps w
  refine ⟨h1, t, h2, ?_⟩
  rw [List.all_eq_true] at h3 ⊢
  exact fun e he => h e (h3 e he)

theorem keeps_log_trace (P : Event → Bool) (n : Nat) (s : String)
    (h : ∀ c, P (.sys (.syslog n c)) = true) : Keeps P (log_trace n s) := by
  unfold log_trace
  refine keeps_bind (keeps_this P) fun p => ?_
  split
  · exact keeps_sys _ (h _)
  · exact keeps_pure _ _

theorem keeps_log_sys (P : Event → Bool) (n : Nat) (s : String)
    (h : ∀ c, P (.sys (.syslog n c)) = true) : Keeps P (log_sys n s) := by
  unfold log_sys
  refine keeps_bind (keeps_this P) fun p => ?_
  split
  · exact keeps_sys _ (h _)
  · exact keeps_pure _ _

theorem keeps_load (P : Event → Bool) (σ : Sys) (i : Int) : Keeps P (signal.controller.load σ i) := by
  constructor
  intro w
  unfold signal.controller.load
  split <;> exact ⟨rfl, [], by simp, rfl⟩

theorem keeps_store (P : Event → Bool) (σ : Sys) (i : Int) (v : Option signal.handler) :
    Keeps P (signal.controller.store σ i v) := by
  constructor
  intro w
  unfold signal.controller.store
  split <;> exact ⟨rfl, [], by simp, rfl⟩

theorem keeps_child (P : Event → Bool) (σ : Sys) : Keeps P (process.child σ) :=
  ⟨fun w => ⟨rfl, [], by simp [process.child], rfl⟩⟩

theorem quiet_user_id_to_name (σ : Sys) (n : Nat) :
    Keeps Event.quiet (credentials.user_id_to_name σ n) := by
  unfold credentials.user_id_to_name
  repeat' first
    | with_reducible exact keeps_raise_bind _ _ _
    | with_reducible exact keeps_fault_bind _ _ _
    | with_reducible exact keeps_pure _ _
    | with_reducible exact keeps_raise _ _
    | with_reducible exact keeps_fault _ _
    | with_reducible exact keeps_this _
    | with_reducible apply keeps_sys
    | with_reducible apply keeps_ask
    | with_reducible apply keeps_emit
    | with_reducible apply keeps_log_trace
    | with_reducible apply keeps_log_sys
    | with_reducible apply keeps_try_catch_system_error
    | with_reducible apply keeps_bind
    | with_reducible apply keeps_ite
    | intro _
    | split
    | rfl

theorem quiet_group_id_to_name (σ : Sys) (n : Nat) :
    Keeps Event.quiet (credentials.group_id_to_name σ n) := by
  unfold credentials.group_id_to_name
  repeat' first
    | with_reducible exact keeps_raise_bind _ _ _
    | with_reducible exact keeps_fault_bind _ _ _
    | with_reducible exact keeps_pure _ _
    | with_reducible exact keeps_raise _ _
    | with_reducible exact keeps_fault _ _
    | with_reducible exact keeps_this _
    | with_reducible apply keeps_sys
    | with_reducible apply keeps_ask
    | with_reducible apply keeps_emit
    | with_reducible apply keeps_log_trace
    | with_reducible apply keeps_log_sys
    | with_reducible apply keeps_try_catch_system_error
    | with_reducible apply keeps_bind
    | with_reducible apply keeps_ite
    | intro _
    | split
    | rfl

theorem quiet_create_directory (σ : Sys) (path : Str) (u g : Nat) :
    Keeps Event.quiet (credentials.create_directory σ path u g) := by
  unfold credentials.create_directory
  repeat' first
    | with_reducible exact keeps_raise_bind _ _ _
    | with_reducible exact keeps_fault_bind _ _ _
    | with_reducible exact keeps_pure _ _
    | with_reducible exact keeps_raise _ _
    | with_reducible exact keeps_fault _ _
    | with_reducible exact keeps_this _
    | with_reducible apply keeps_sys
    | with_reducible apply keeps_ask
    | with_reducible apply keeps_emit
    | with_reducible apply keeps_log_trace
    | with_reducible apply keeps_log_sys
    | with_reducible apply keeps_try_catch_system_error
    | with_reducible apply keeps_bind
    | with_reducible apply keeps_ite
    | intro _
    | split
    | rfl

theorem quiet_open_syslog :
    Keeps Event.quiet (process.open_syslog) := by
  unfold process.open_syslog
  repeat' first
    | with_reducible exact keeps_raise_bind _ _ _
    | with_reducible exact keeps_fault_bind _ _ _
    | with_reducible exact keeps_pure _ _
    | with_reducible exact keeps_raise _ _
    | with_reducible exact keeps_fault _ _
    | with_reducible exact keeps_this _
    | with_reducible apply keeps_sys
    | with_reducible apply keeps_ask
    | with_reducible apply keeps_emit
    | with_reducible apply keeps_log_trace
    | with_reducible apply keeps_log_sys
    | with_reducible apply keeps_try_catch_system_error
    | with_reducible apply keeps_bind
    | with_reducible apply keeps_ite
    | intro _
    | split
    | rfl

theorem quiet_exists_loop (σ : Sys) (name : Str) (self_pid : Int) (entries : List Str) :
    ∀ (result : Int) (m : Bool),
      Keeps Event.quiet (process.exists_loop σ name self_pid result m entries) := by
  induction entries with
  | nil =>
    intro result m
    unfold process.exists_loop
    exact keeps_bind (keeps_sys _ rfl) fun _ => keeps_pure _ _
  | cons d rest ih =>
    intro result m
    unfold process.exists_loop
    repeat' first
      | with_reducible exact keeps_raise_bind _ _ _
      | with_reducible exact keeps_fault_bind _ _ _
      | with_reducible exact keeps_pure _ _
      | with_reducible exact keeps_raise _ _
      | with_reducible exact keeps_fault _ _
      | with_reducible exact keeps_this _
      | with_reducible exact ih _ _
      | with_reducible apply keeps_sys
      | with_reducible apply keeps_ask
      | with_reducible apply keeps_emit
      | with_reducible apply keeps_log_trace
      | with_reducible apply keeps_log_sys
      | with_reducible apply keeps_try_catch_system_error
      | with_reducible apply keeps_bind
      | with_reducible apply keeps_ite
      | intro _
      | split
      | rfl

theorem quiet_exists_pid (σ : Sys) (name : Str) :
    Keeps Event.quiet (process.exists_pid σ name) := by
  unfold process.exists_pid
  repeat' first
    | with_reducible exact keeps_raise_bind _ _ _
    | with_reducible exact keeps_fault_bind _ _ _
    | with_reducible exact keeps_pure _ _
    | with_reducible exact keeps_raise _ _
    | with_reducible exact keeps_fault _ _
    | with_reducible exact keeps_this _
    | with_reducible exact quiet_exists_loop _ _ _ _ _ _
    | with_reducible apply keeps_sys
    | with_reducible apply keeps_ask
    | with_reducible apply keeps_emit
    | with_reducible apply keeps_log_trace
    | with_reducible apply keeps_log_sys
    | with_reducible apply keeps_try_catch_system_error
    | with_reducible apply keeps_bind
    | with_reducible apply keeps_ite
    | intro _
    | split
    | rfl

theorem quiet_pid_file_check (σ : Sys) :
    Keeps Event.quiet (process.pid_file_check σ) := by
  unfold process.pid_file_check
  repeat' first
    | with_reducible exact keeps_raise_bind _ _ _
    | with_reducible exact keeps_fault_bind _ _ _
    | with_reducible exact keeps_pure _ _
    | with_reducible exact keeps_raise _ _
    | with_reducible exact keeps_fault _ _
    | with_reducible exact keeps_this _
    | with_reducible apply keeps_sys
    | with_reducible apply keeps_ask
    | with_reducible apply keeps_emit
    | with_reducible apply keeps_log_trace
    | with_reducible apply keeps_log_sys
    | with_reducible apply keeps_try_catch_system_error
    | with_reducible apply keeps_bind
    | with_reducible apply keeps_ite
    | intro _
    | split
    | rfl

theorem quiet_name_probe (σ : Sys) :
    Keeps Event.quiet (process.name_probe σ) := by
  unfold process.name_probe
  repeat' first
    | with_reducible exact keeps_raise_bind _ _ _
    | with_reducible exact keeps_fault_bind _ _ _
    | with_reducible exact keeps_pure _ _
    | with_reducible exact keeps_raise _ _
    | with_reducible exact keeps_fault _ _
    | with_reducible exact keeps_this _
    | with_reducible exact quiet_exists_pid _ _
    | with_reducible apply keeps_sys
    | with_reducible apply keeps_ask
    | with_reducible apply keeps_emit
    | with_reducible apply keeps_log_trace
    | with_reducible apply keeps_log_sys
    | with_reducible apply keeps_try_catch_system_error
    | with_reducible apply keeps_bind
    | with_reducible apply keeps_ite
    | intro _
    | split
    | rfl

theorem quiet_is_service_up (σ : Sys) :
    Keeps Event.quiet (process.__is_service_up σ) := by
  unfold process.__is_service_up
  repeat' first
    | with_reducible exact keeps_raise_bind _ _ _
    | with_reducible exact keeps_fault_bind _ _ _
    | with_reducible exact keeps_pure _ _
    | with_reducible exact keeps_raise _ _
    | with_reducible exact keeps_fault _ _
    | with_reducible exact keeps_this _
    | with_reducible exact quiet_pid_file_check _
    | with_reducible exact quiet_name_probe _
    | with_reducible apply keeps_sys
    | with_reducible apply keeps_ask
    | with_reducible apply keeps_emit
    | with_reducible apply keeps_log_trace
    | with_reducible apply keeps_log_sys
    | with_reducible apply keeps_try_catch_system_error
    | with_reducible apply keeps_bind
    | with_reducible apply keeps_ite
    | intro _
    | split
    | rfl

theorem quiet_set_capabilities (σ : Sys) :
    Keeps Event.quiet (process.__set_capabilities σ) := by
  unfold process.__set_capabilities
  repeat' first
    | with_reducible exact keeps_raise_bind _ _ _
    | with_reducible exact keeps_fault_bind _ _ _
    | with_reducible exact keeps_pure _ _
    | with_reducible exact keeps_raise _ _
    | with_reducible exact keeps_fault _ _
    | with_reducible exact keeps_this _
    | with_reducible apply keeps_sys
    | with_reducible apply keeps_ask
    | with_reducible apply keeps_emit
    | with_reducible apply keeps_log_trace
    | with_reducible apply keeps_log_sys
    | with_reducible apply keeps_try_catch_system_error
    | with_reducible apply keeps_bind
    | with_reducible apply keeps_ite
    | intro _
    | split
    | rfl

theorem quiet_set_up_environment (σ : Sys) :
    Keeps Event.quiet (process.set_up_environment σ) := by
  unfold process.set_up_environment
  repeat' first
    | with_reducible exact keeps_raise_bind _ _ _
    | with_reducible exact keeps_fault_bind _ _ _
    | with_reducible exact keeps_pure _ _
    | with_reducible exact keeps_raise _ _
    | with_reducible exact keeps_fault _ _
    | with_reducible exact keeps_this _
    | with_reducible apply keeps_sys
    | with_reducible apply keeps_ask
    | with_reducible apply keeps_emit
    | with_reducible apply keeps_log_trace
    | with_reducible apply keeps_log_sys
    | with_reducible apply keeps_try_catch_system_error
    | with_reducible apply keeps_bind
    | with_reducible apply keeps_ite
    | intro _
    | split
    | rfl

theorem quiet_set_credentials (σ : Sys) :
    Keeps Event.quiet (process.__set_credentials σ) := by
  unfold process.__set_credentials
  repeat' first
    | with_reducible exact keeps_raise_bind _ _ _
    | with_reducible exact keeps_fault_bind _ _ _
    | with_reducible exact keeps_pure _ _
    | with_reducible exact keeps_raise _ _
    | with_reducible exact keeps_fault _ _
    | with_reducible exact keeps_this _
    | with_reducible exact quiet_user_id_to_name _ _
    | with_reducible exact quiet_group_id_to_name _ _
    | with_reducible exact quiet_set_up_environment _
    | with_reducible apply keeps_sys
    | with_reducible apply keeps_ask
    | with_reducible apply keeps_emit
    | with_reducible apply keeps_log_trace
    | with_reducible apply keeps_log_sys
    | with_reducible apply keeps_try_catch_system_error
    | with_reducible apply keeps_bind
    | with_reducible apply keeps_ite
    | intro _
    | split
    | rfl

theorem quiet_cwd (σ : Sys) :
    Keeps Event.quiet (process.__cwd σ) := by
  unfold process.__cwd
  repeat' first
    | with_reducible exact keeps_raise_bind _ _ _
    | with_reducible exact keeps_fault_bind _ _ _
    | with_reducible exact keeps_pure _ _
    | with_reducible exact keeps_raise _ _
    | with_reducible exact keeps_fault _ _
    | with_reducible exact keeps_this _
    | with_reducible apply keeps_sys
    | with_reducible apply keeps_ask
    | with_reducible apply keeps_emit
    | with_reducible apply keeps_log_trace
    | with_reducible apply keeps_log_sys
    | with_reducible apply keeps_try_catch_system_error
    | with_reducible apply keeps_bind
    | with_reducible apply keeps_ite
    | intro _
    | split
    | rfl

theorem quiet_null_open (σ : Sys) (a : Nat) (fd : Int) :
    Keeps Event.quiet (process.null_open σ a fd) := by
  unfold process.null_open
  repeat' first
    | with_reducible exact keeps_raise_bind _ _ _
    | with_reducible exact keeps_fault_bind _ _ _
    | with_reducible exact keeps_pure _ _
    | with_reducible exact keeps_raise _ _
    | with_reducible exact keeps_fault _ _
    | with_reducible exact keeps_this _
    | with_reducible apply keeps_sys
    | with_reducible apply keeps_ask
    | with_reducible apply keeps_emit
    | with_reducible apply keeps_log_trace
    | with_reducible apply keeps_log_sys
    | with_reducible apply keeps_try_catch_system_error
    | with_reducible apply keeps_bind
    | with_reducible apply keeps_ite
    | intro _
    | split
    | rfl

theorem quiet_close_from (n : Nat) : ∀ i : Int, Keeps Event.quiet (process.close_from n i) := by
  induction n with
  | zero =>
    intro i
    exact keeps_pure _ _
  | succ n ih =>
    intro i
    unfold process.close_from
    exact keeps_bind (keeps_sys _ rfl) fun _ => ih _

theorem quiet_detach_terminal (σ : Sys) :
    Keeps Event.quiet (process.__detach_terminal σ) := by
  unfold process.__detach_terminal
  repeat' first
    | with_reducible exact keeps_raise_bind _ _ _
    | with_reducible exact keeps_fault_bind _ _ _
    | with_reducible exact keeps_pure _ _
    | with_reducible exact keeps_raise _ _
    | with_reducible exact keeps_fault _ _
    | with_reducible exact keeps_this _
    | with_reducible exact quiet_null_open _ _ _
    | with_reducible exact quiet_close_from _ _
    | with_reducible apply keeps_sys
    | with_reducible apply keeps_ask
    | with_reducible apply keeps_emit
    | with_reducible apply keeps_log_trace
    | with_reducible apply keeps_log_sys
    | with_reducible apply keeps_try_catch_system_error
    | with_reducible apply keeps_bind
    | with_reducible apply keeps_ite
    | intro _
    | split
    | rfl

theorem quiet_in_between (σ : Sys) :
    Keeps Event.quiet (process.__in_between σ) := by
  unfold process.__in_between
  repeat' first
    | with_reducible exact keeps_raise_bind _ _ _
    | with_reducible exact keeps_fault_bind _ _ _
    | with_reducible exact keeps_pure _ _
    | with_reducible exact keeps_raise _ _
    | with_reducible exact keeps_fault _ _
    | with_reducible exact keeps_this _
    | with_reducible apply keeps_sys
    | with_reducible apply keeps_ask
    | with_reducible apply keeps_emit
    | with_reducible apply keeps_log_trace
    | with_reducible apply keeps_log_sys
    | with_reducible apply keeps_try_catch_system_error
    | with_reducible apply keeps_bind
    | with_reducible apply keeps_ite
    | intro _
    | split
    | rfl

theorem quiet_write_pid (σ : Sys) :
    Keeps Event.quiet (process.__write_pid σ) := by
  unfold process.__write_pid
  repeat' first
    | with_reducible exact keeps_raise_bind _ _ _
    | with_reducible exact keeps_fault_bind _ _ _
    | with_reducible exact keeps_pure _ _
    | with_reducible exact keeps_raise _ _
    | with_reducible exact keeps_fault _ _
    | with_reducible exact keeps_this _
    | with_reducible apply keeps_sys
    | with_reducible apply keeps_ask
    | with_reducible apply keeps_emit
    | with_reducible apply keeps_log_trace
    | with_reducible apply keeps_log_sys
    | with_reducible apply keeps_try_catch_system_error
    | with_reducible apply keeps_bind
    | with_reducible apply keeps_ite
    | intro _
    | split
    | rfl

theorem quiet_remove_pid :
    Keeps Event.quiet (process.__remove_pid) := by
  unfold process.__remove_pid
  repeat' first
    | with_reducible exact keeps_raise_bind _ _ _
    | with_reducible exact keeps_fault_bind _ _ _
    | with_reducible exact keeps_pure _ _
    | with_reducible exact keeps_raise _ _
    | with_reducible exact keeps_fault _ _
    | with_reducible exact keeps_this _
    | with_reducible apply keeps_sys
    | with_reducible apply keeps_ask
    | with_reducible apply keeps_emit
    | with_reducible apply keeps_log_trace
    | with_reducible apply keeps_log_sys
    | with_reducible apply keeps_try_catch_system_error
    | with_reducible apply keeps_bind
    | with_reducible apply keeps_ite
    | intro _
    | split
    | rfl

theorem quiet_lock (σ : Sys) (b : Bool) :
    Keeps Event.quiet (signal.controller.__lock σ b) := by
  unfold signal.controller.__lock
  repeat' first
    | with_reducible exact keeps_raise_bind _ _ _
    | with_reducible exact keeps_fault_bind _ _ _
    | with_reducible exact keeps_pure _ _
    | with_reducible exact keeps_raise _ _
    | with_reducible exact keeps_fault _ _
    | with_reducible exact keeps_this _
    | with_reducible apply keeps_sys
    | with_reducible apply keeps_ask
    | with_reducible apply keeps_emit
    | with_reducible apply keeps_log_trace
    | with_reducible apply keeps_log_sys
    | with_reducible apply keeps_try_catch_system_error
    | with_reducible apply keeps_bind
    | with_reducible apply keeps_ite
    | intro _
    | split
    | rfl

theorem quiet_lock_id (σ : Sys) (b : Bool) (id : Int) :
    Keeps Event.quiet (signal.controller.__lock_id σ b id) := by
  unfold signal.controller.__lock_id
  repeat' first
    | with_reducible exact keeps_raise_bind _ _ _
    | with_reducible exact keeps_fault_bind _ _ _
    | with_reducible exact keeps_pure _ _
    | with_reducible exact keeps_raise _ _
    | with_reducible exact keeps_fault _ _
    | with_reducible exact keeps_this _
    | with_reducible apply keeps_sys
    | with_reducible apply keeps_ask
    | with_reducible apply keeps_emit
    | with_reducible apply keeps_log_trace
    | with_reducible apply keeps_log_sys
    | with_reducible apply keeps_try_catch_system_error
    | with_reducible apply keeps_bind
    | with_reducible apply keeps_ite
    | intro _
    | split
    | rfl

theorem quiet_fill_set (σ : Sys) (l : List Nat) :
    ∀ mask : Sigset, Keeps Event.quiet (signal.controller.fill_set σ l mask) := by
  induction l with
  | nil =>
    intro mask
    exact keeps_pure _ _
  | cons i rest ih =>
    intro mask
    unfold signal.controller.fill_set
    repeat' first
      | with_reducible exact keeps_raise_bind _ _ _
      | with_reducible exact keeps_fault_bind _ _ _
      | with_reducible exact keeps_pure _ _
      | with_reducible exact keeps_raise _ _
      | with_reducible exact keeps_fault _ _
      | with_reducible exact keeps_this _
      | with_reducible exact ih _
      | with_reducible exact keeps_load _ _ _
      | with_reducible apply keeps_sys
      | with_reducible apply keeps_ask
      | with_reducible apply keeps_emit
      | with_reducible apply keeps_log_trace
      | with_reducible apply keeps_log_sys
      | with_reducible apply keeps_try_catch_system_error
      | with_reducible apply keeps_bind
      | with_reducible apply keeps_ite
      | intro _
      | split
      | rfl

theorem quiet_enable (σ : Sys) (h : Option signal.handler) :
    Keeps Event.quiet (signal.controller.enable σ h) := by
  unfold signal.controller.enable
  repeat' first
    | with_reducible exact keeps_raise_bind _ _ _
    | with_reducible exact keeps_fault_bind _ _ _
    | with_reducible exact keeps_pure _ _
    | with_reducible exact keeps_raise _ _
    | with_reducible exact keeps_fault _ _
    | with_reducible exact keeps_this _
    | with_reducible exact keeps_load _ _ _
    | with_reducible exact keeps_store _ _ _ _
    | with_reducible exact quiet_fill_set _ _ _
    | with_reducible apply keeps_sys
    | with_reducible apply keeps_ask
    | with_reducible apply keeps_emit
    | with_reducible apply keeps_log_trace
    | with_reducible apply keeps_log_sys
    | with_reducible apply keeps_try_catch_system_error
    | with_reducible apply keeps_bind
    | with_reducible apply keeps_ite
    | intro _
    | split
    | rfl

theorem quiet_disable (σ : Sys) (id : Int) :
    Keeps Event.quiet (signal.controller.disable σ id) := by
  unfold signal.controller.disable
  repeat' first
    | with_reducible exact keeps_raise_bind _ _ _
    | with_reducible exact keeps_fault_bind _ _ _
    | with_reducible exact keeps_pure _ _
    | with_reducible exact keeps_raise _ _
    | with_reducible exact keeps_fault _ _
    | with_reducible exact keeps_this _
    | with_reducible exact keeps_load _ _ _
    | with_reducible exact keeps_store _ _ _ _
    | with_reducible apply keeps_sys
    | with_reducible apply keeps_ask
    | with_reducible apply keeps_emit
    | with_reducible apply keeps_log_trace
    | with_reducible apply keeps_log_sys
    | with_reducible apply keeps_try_catch_system_error
    | with_reducible apply keeps_bind
    | with_reducible apply keeps_ite
    | intro _
    | split
    | rfl

theorem quiet_restore_signals (σ : Sys) :
    Keeps Event.quiet (process.restore_signals σ) := by
  unfold process.restore_signals signal.controller.release
  repeat' first
    | with_reducible exact keeps_raise_bind _ _ _
    | with_reducible exact keeps_fault_bind _ _ _
    | with_reducible exact keeps_pure _ _
    | with_reducible exact keeps_raise _ _
    | with_reducible exact keeps_fault _ _
    | with_reducible exact keeps_this _
    | with_reducible exact quiet_disable _ _
    | with_reducible exact quiet_lock _ _
    | with_reducible apply keeps_sys
    | with_reducible apply keeps_ask
    | with_reducible apply keeps_emit
    | with_reducible apply keeps_log_trace
    | with_reducible apply keeps_log_sys
    | with_reducible apply keeps_try_catch_system_error
    | with_reducible apply keeps_bind
    | with_reducible apply keeps_ite
    | intro _
    | split
    | rfl

theorem quiet_imp_calm (e : Event) (h : e.quiet = true) : e.calm = true := by
  cases e with
  | sys c => rfl
  | deleted h => rfl
  | dispatched h s => rfl
  | hook h f => exact h
  | call s => exact h
  | forked b => exact h

theorem calm_fork (σ : Sys) : Keeps Event.calm (process.__fork σ) := by
  unfold process.__fork signal.controller.lock signal.controller.release_id
  repeat' first
    | with_reducible exact keeps_raise_bind _ _ _
    | with_reducible exact keeps_pure _ _
    | with_reducible exact keeps_raise _ _
    | with_reducible exact keeps_child _ _
    | with_reducible exact keeps_mono quiet_imp_calm (quiet_lock _ _)
    | with_reducible exact keeps_mono quiet_imp_calm (quiet_lock_id _ _ _)
    | with_reducible exact keeps_mono quiet_imp_calm (quiet_enable _ _)
    | with_reducible exact keeps_mono quiet_imp_calm (quiet_restore_signals _)
    | with_reducible apply keeps_ask
    | with_reducible apply keeps_bind
    | with_reducible apply keeps_ite
    | intro _
    | split
    | rfl

/-! ### Marks of a trace -/

theorem marks_append (a b : List Event) : marks (a ++ b) = marks a ++ marks b := by
  simp [marks]

theorem forks_append (a b : List Event) : forks (a ++ b) = forks a ++ forks b := by
  simp [forks]

theorem marks_of_calm (t : List Event) (h : t.all Event.calm = true) : marks t = [] := by
  rw [List.all_eq_true] at h
  simp only [marks, List.filter_eq_nil_iff]
  intro e he
  simp [h e he]

theorem forks_of_quiet (t : List Event) (h : t.all Event.quiet = true) : forks t = [] := by
  rw [List.all_eq_true] at h
  simp only [forks, List.filter_eq_nil_iff]
  intro e he
  have := h e he
  intro hc
  rw [beq_iff_eq] at hc
  subst hc
  exact absurd this (by decide)

theorem calm_of_quiet (t : List Event) (h : t.all Event.quiet = true) :
    t.all Event.calm = true := by
  rw [List.all_eq_true] at h ⊢
  exact fun e he => quiet_imp_calm e (h e he)

/-! ### Steps of a run of `execute()` -/

theorem view_start (w0 : World) : View w0 w0.self [] w0 :=
  ⟨rfl, by simp, fun _ => rfl⟩

theorem view_quiet {α : Type} {m : M α} (hm : Keeps Event.quiet m) {w0 w : World}
    {p : process} {ms : List Event} (hv : View w0 p ms w) : View w0 p ms (m w).2 := by
  obtain ⟨h1, t, h2, h3⟩ := hm.keeps w
  refine ⟨h1.trans hv.self_eq, ?_, ?_⟩
  · rw [h2, marks_append, marks_of_calm t (calm_of_quiet t h3), List.append_nil, hv.marks_eq]
  · intro hn
    rw [h2, forks_append, forks_of_quiet t h3, List.append_nil, hv.forks_eq hn]

theorem view_calm {α : Type} {m : M α} (hm : Keeps Event.calm m) {w0 w : World}
    {p : process} {ms : List Event} (hv : View w0 p ms w) (hf : Event.call .__fork ∈ ms) :
    View w0 p ms (m w).2 := by
  obtain ⟨h1, t, h2, h3⟩ := hm.keeps w
  refine ⟨h1.trans hv.self_eq, ?_, fun hn => absurd hf hn⟩
  rw [h2, marks_append, marks_of_calm t h3, List.append_nil, hv.marks_eq]

theorem view_mark {w0 w : World} {p : process} {ms : List Event} (hv : View w0 p ms w)
    (e : Event) (he : e.calm = false) :
    View w0 p (ms ++ [e]) { w with trace := w.trace ++ [e] } := by
  refine ⟨hv.self_eq, ?_, ?_⟩
  · simp only [marks_append, hv.marks_eq, List.append_assoc]
    simp [marks, he]
  · intro hn
    have hn1 : Event.call .__fork ∉ ms := fun h => hn (List.mem_append_left _ h)
    have hne : e ≠ .sys .fork := by
      intro h
      subst h
      simp [Event.calm] at he
    simp only [forks_append, hv.forks_eq hn1]
    simp [forks, hne]

theorem master_stop {w0 w : World} {p : process} {ms : List Event} (hv : View w0 p ms w)
    (hs : Stop w0.self p ms) (o : Outcome Unit) (ho : ∀ a, o ≠ .ok a) : Master w0 (o, w) := by
  refine ⟨ms, hv.marks_eq, hv.forks_eq, ?_⟩
  cases o with
  | ok a => exact absurd rfl (ho a)
  | raised e => simpa [Shape, hv.self_eq] using hs
  | undefined u => simpa [Shape, hv.self_eq] using hs

theorem master_bind_quiet {α : Type} {m : M α} {f : α → M Unit} (hm : Keeps Event.quiet m)
    {w0 w : World} {p : process} {ms : List Event} (hv : View w0 p ms w)
    (hs : Stop w0.self p ms)
    (hok : ∀ a w1, View w0 p ms w1 → Master w0 (f a w1)) : Master w0 ((m >>= f) w) := by
  have hv1 := view_quiet hm hv
  rw [bind_apply]
  rcases hmw : m w with ⟨o, w1⟩
  rw [hmw] at hv1
  cases o with
  | ok a => exact hok a w1 hv1
  | raised e => exact master_stop hv1 hs _ (fun _ h => by cases h)
  | undefined u => exact master_stop hv1 hs _ (fun _ h => by cases h)

theorem master_bind_calm {α : Type} {m : M α} {f : α → M Unit} (hm : Keeps Event.calm m)
    {w0 w : World} {p : process} {ms : List Event} (hv : View w0 p ms w)
    (hf : Event.call .__fork ∈ ms) (hs : Stop w0.self p ms)
    (hok : ∀ a w1, View w0 p ms w1 → Master w0 (f a w1)) : Master w0 ((m >>= f) w) := by
  have hv1 := view_calm hm hv hf
  rw [bind_apply]
  rcases hmw : m w with ⟨o, w1⟩
  rw [hmw] at hv1
  cases o with
  | ok a => exact hok a w1 hv1
  | raised e => exact master_stop hv1 hs _ (fun _ h => by cases h)
  | undefined u => exact master_stop hv1 hs _ (fun _ h => by cases h)

theorem master_bind_mark {f : Unit → M Unit} {w0 w : World} {p : process} {ms : List Event}
    (e : Event) (he : e.calm = false) (hv : View w0 p ms w)
    (hok : ∀ w1, View w0 p (ms ++ [e]) w1 → Master w0 (f () w1)) :
    Master w0 ((emit e >>= f) w) :=
  hok _ (view_mark hv e he)

theorem master_bind_hook (σ : Sys) {f : Unit → M Unit} {w0 w : World} {p : process}
    {ms : List Event} (h : Hook) (hv : View w0 p ms w)
    (hs : Stop w0.self p (ms ++ [.hook h p.__f_switch_complete]))
    (hok : ∀ w1, View w0 p (ms ++ [.hook h p.__f_switch_complete]) w1 → Master w0 (f () w1)) :
    Master w0 ((process.hook σ h >>= f) w) := by
  have hp := hv.self_eq
  subst hp
  have hv1 := view_mark hv (.hook h w.self.__f_switch_complete) rfl
  rw [bind_apply]
  simp only [process.hook]
  rcases hh : σ.hook w.trace h with _ | e
  · exact hok _ hv1
  · exact master_stop hv1 hs _ (fun _ h => by cases h)

theorem master_bind_this {f : process → M Unit} {w0 w : World} {p : process}
    {ms : List Event} (hv : View w0 p ms w) (hok : Master w0 (f p w)) :
    Master w0 ((this >>= f) w) := by
  rw [bind_apply]
  simpa [this, hv.self_eq] using hok

theorem master_bind_assign {f : Unit → M Unit} {w0 w : World} {p : process}
    {ms : List Event} (g : process → process) (hv : View w0 p ms w)
    (hok : ∀ w1, View w0 (g p) ms w1 → Master w0 (f () w1)) :
    Master w0 ((process.assign g >>= f) w) :=
  hok _ ⟨by simp [hv.self_eq], hv.marks_eq, hv.forks_eq⟩

theorem master_done {w0 w : World} {p : process} {ms : List Event} (hv : View w0 p ms w)
    (h : Shape w0.self (.ok ()) p ms) : Master w0 (.ok (), w) :=
  ⟨ms, hv.marks_eq, hv.forks_eq, by simpa [hv.self_eq] using h⟩

theorem log_trace_ok (n : Nat) (s : String) (w : World) : (log_trace n s w).1 = .ok () := by
  unfold log_trace
  rw [bind_apply]
  simp only [this]
  split <;> rfl

theorem open_syslog_ok (w : World) : (process.open_syslog w).1 = .ok () := by
  rcases h1 : w.self.__f_req_syslog with _ | _ <;> rcases h2 : w.self.__f_trace with _ | _ <;>
    simp [process.open_syslog, bind_apply, this, sys, emit, pure_apply, h1, h2]

theorem remove_pid_ok (w : World) : (process.__remove_pid w).1 = .ok () := rfl

theorem master_bind_sure {m : M Unit} {f : Unit → M Unit} (hm : Keeps Event.quiet m)
    (hsure : ∀ w, (m w).1 = .ok ())
    {w0 w : World} {p : process} {ms : List Event} (hv : View w0 p ms w)
    (hok : ∀ w1, View w0 p ms w1 → Master w0 (f () w1)) : Master w0 ((m >>= f) w) := by
  have hv1 := view_quiet hm hv
  have h1 := hsure w
  rw [bind_apply]
  rcases hmw : m w with ⟨o, w1⟩
  rw [hmw] at hv1 h1
  simp only at h1
  subst h1
  exact hok w1 hv1

theorem master_last {m : M Unit} (hm : Keeps Event.quiet m) (hsure : ∀ w, (m w).1 = .ok ())
    {w0 w : World} {p : process} {ms : List Event} (hv : View w0 p ms w)
    (h : Shape w0.self (.ok ()) p ms) : Master w0 (m w) := by
  have hv1 := view_quiet hm hv
  have h1 := hsure w
  rcases hmw : m w with ⟨o, w1⟩
  rw [hmw] at hv1 h1
  simp only at h1
  subst h1
  exact master_done hv1 h

theorem master_raise_bind {α : Type} {f : α → M Unit} {w0 w : World} {p : process}
    {ms : List Event} (e : Exception) (hv : View w0 p ms w) (hs : Stop w0.self p ms) :
    Master w0 (((raise e : M α) >>= f) w) :=
  master_stop hv hs _ (fun _ h => by cases h)

/-! ### The shapes of a run of `execute()` -/

theorem pure_bind_eq {α β : Type} (a : α) (f : α → M β) : (pure a >>= f) = f a := rfl

/-- Every run of `execute()` has one of the shapes of `Shape`. -/
theorem execute_master (σ : Sys) (w0 : World) : Master w0 (process.execute σ w0) := by
  have hv := view_start w0
  rcases hpid : w0.self.__f_req_pid_file with _ | _ <;>
    rcases hd : w0.self.__f_is_daemon with _ | _
  · unfold process.execute
    refine master_bind_sure (quiet_open_syslog) (open_syslog_ok) hv fun w hv => ?_
    refine master_bind_mark _ rfl hv fun w hv => ?_
    refine master_bind_quiet (quiet_is_service_up σ) hv ?_ fun _ w hv => ?_
    · simp [Stop, Shape, full_marks, identity_marks, between_marks, parent1_marks, parent2_marks, hpid, hd, process.completed]
    refine master_bind_this hv ?_
    simp only [hpid, hd, Bool.false_eq_true, if_false, if_true, pure_bind_eq]
    refine master_bind_hook σ .before hv ?_ fun w hv => ?_
    · simp [Stop, Shape, full_marks, identity_marks, between_marks, parent1_marks, parent2_marks, hpid, hd, process.completed]
    refine master_bind_mark _ rfl hv fun w hv => ?_
    refine master_bind_quiet (quiet_set_capabilities σ) hv ?_ fun _ w hv => ?_
    · simp [Stop, Shape, full_marks, identity_marks, between_marks, parent1_marks, parent2_marks, hpid, hd, process.completed]
    refine master_bind_mark _ rfl hv fun w hv => ?_
    refine master_bind_quiet (quiet_set_credentials σ) hv ?_ fun _ w hv => ?_
    · simp [Stop, Shape, full_marks, identity_marks, between_marks, parent1_marks, parent2_marks, hpid, hd, process.completed]
    refine master_bind_mark _ rfl hv fun w hv => ?_
    refine master_bind_quiet (quiet_cwd σ) hv ?_ fun _ w hv => ?_
    · simp [Stop, Shape, full_marks, identity_marks, between_marks, parent1_marks, parent2_marks, hpid, hd, process.completed]
    refine master_bind_this hv ?_
    simp only [hpid, hd, Bool.false_eq_true, if_false, if_true, pure_bind_eq]
    refine master_bind_mark _ rfl hv fun w hv => ?_
    refine master_bind_quiet (quiet_in_between σ) hv ?_ fun _ w hv => ?_
    · simp [Stop, Shape, full_marks, identity_marks, between_marks, parent1_marks, parent2_marks, hpid, hd, process.completed]
    refine master_bind_hook σ .between hv ?_ fun w hv => ?_
    · simp [Stop, Shape, full_marks, identity_marks, between_marks, parent1_marks, parent2_marks, hpid, hd, process.completed]
    refine master_bind_this hv ?_
    simp only [hpid, hd, Bool.false_eq_true, if_false, if_true, pure_bind_eq]
    refine master_bind_mark _ rfl hv fun w hv => ?_
    refine master_bind_quiet (quiet_write_pid σ) hv ?_ fun _ w hv => ?_
    · simp [Stop, Shape, full_marks, identity_marks, between_marks, parent1_marks, parent2_marks, hpid, hd, process.completed]
    refine master_bind_hook σ .after hv ?_ fun w hv => ?_
    · simp [Stop, Shape, full_marks, identity_marks, between_marks, parent1_marks, parent2_marks, hpid, hd, process.completed]
    refine master_bind_sure (keeps_log_trace _ _ _ fun _ => rfl) (log_trace_ok _ _) hv fun w hv => ?_
    refine master_bind_assign _ hv fun w hv => ?_
    refine master_bind_sure (keeps_log_trace _ _ _ fun _ => rfl) (log_trace_ok _ _) hv fun w hv => ?_
    refine master_bind_hook σ .run hv ?_ fun w hv => ?_
    · simp [Stop, Shape, full_marks, identity_marks, between_marks, parent1_marks, parent2_marks, hpid, hd, process.completed]
    refine master_bind_sure (keeps_log_trace _ _ _ fun _ => rfl) (log_trace_ok _ _) hv fun w hv => ?_
    refine master_bind_mark _ rfl hv fun w hv => ?_
    refine master_last quiet_remove_pid remove_pid_ok hv ?_
    simp [Stop, Shape, full_marks, identity_marks, between_marks, parent1_marks, parent2_marks, hpid, hd, process.completed]
  · unfold process.execute
    refine master_bind_sure (quiet_open_syslog) (open_syslog_ok) hv fun w hv => ?_
    refine master_bind_mark _ rfl hv fun w hv => ?_
    refine master_bind_quiet (quiet_is_service_up σ) hv ?_ fun _ w hv => ?_
    · simp [Stop, Shape, full_marks, identity_marks, between_marks, parent1_marks, parent2_marks, hpid, hd, process.completed]
    refine master_bind_this hv ?_
    simp only [hpid, hd, Bool.false_eq_true, if_false, if_true, pure_bind_eq]
    refine master_bind_hook σ .before hv ?_ fun w hv => ?_
    · simp [Stop, Shape, full_marks, identity_marks, between_marks, parent1_marks, parent2_marks, hpid, hd, process.completed]
    refine master_bind_mark _ rfl hv fun w hv => ?_
    refine master_bind_quiet (quiet_set_capabilities σ) hv ?_ fun _ w hv => ?_
    · simp [Stop, Shape, full_marks, identity_marks, between_marks, parent1_marks, parent2_marks, hpid, hd, process.completed]
    refine master_bind_mark _ rfl hv fun w hv => ?_
    refine master_bind_quiet (quiet_set_credentials σ) hv ?_ fun _ w hv => ?_
    · simp [Stop, Shape, full_marks, identity_marks, between_marks, parent1_marks, parent2_marks, hpid, hd, process.completed]
    refine master_bind_mark _ rfl hv fun w hv => ?_
    refine master_bind_quiet (quiet_cwd σ) hv ?_ fun _ w hv => ?_
    · simp [Stop, Shape, full_marks, identity_marks, between_marks, parent1_marks, parent2_marks, hpid, hd, process.completed]
    refine master_bind_this hv ?_
    simp only [hpid, hd, Bool.false_eq_true, if_false, if_true, pure_bind_eq]
    refine master_bind_mark _ rfl hv fun w hv => ?_
    refine master_bind_calm (calm_fork σ) hv (by simp) ?_ fun parent w hv => ?_
    · simp [Stop, Shape, full_marks, identity_marks, between_marks, parent1_marks, parent2_marks, hpid, hd, process.completed]
    refine master_bind_mark _ rfl hv fun w hv => ?_
    cases parent with
    | true =>
      simp only [if_true]
      exact master_done hv (by simp [Stop, Shape, full_marks, identity_marks, between_marks, parent1_marks, parent2_marks, hpid, hd, process.completed])
    | false =>
      simp only [Bool.false_eq_true, if_false, pure_bind_eq]
      refine master_bind_mark _ rfl hv fun w hv => ?_
      refine master_bind_quiet (quiet_detach_terminal σ) hv ?_ fun _ w hv => ?_
      · simp [Stop, Shape, full_marks, identity_marks, between_marks, parent1_marks, parent2_marks, hpid, hd, process.completed]
      refine master_bind_sure (keeps_log_trace _ _ _ fun _ => rfl) (log_trace_ok _ _) hv fun w hv => ?_
      refine master_bind_quiet (keeps_ask .setsid _ rfl) hv ?_ fun r w hv => ?_
      · simp [Stop, Shape, full_marks, identity_marks, between_marks, parent1_marks, parent2_marks, hpid, hd, process.completed]
      split
      · exact master_raise_bind _ hv (by simp [Stop, Shape, full_marks, identity_marks, between_marks, parent1_marks, parent2_marks, hpid, hd, process.completed])
      refine master_bind_mark _ rfl hv fun w hv => ?_
      refine master_bind_quiet (quiet_in_between σ) hv ?_ fun _ w hv => ?_
      · simp [Stop, Shape, full_marks, identity_marks, between_marks, parent1_marks, parent2_marks, hpid, hd, process.completed]
      refine master_bind_hook σ .between hv ?_ fun w hv => ?_
      · simp [Stop, Shape, full_marks, identity_marks, between_marks, parent1_marks, parent2_marks, hpid, hd, process.completed]
      refine master_bind_this hv ?_
      simp only [hpid, hd, Bool.false_eq_true, if_false, if_true, pure_bind_eq]
      refine master_bind_mark _ rfl hv fun w hv => ?_
      refine master_bind_calm (calm_fork σ) hv (by simp) ?_ fun parent w hv => ?_
      · simp [Stop, Shape, full_marks, identity_marks, between_marks, parent1_marks, parent2_marks, hpid, hd, process.completed]
      refine master_bind_mark _ rfl hv fun w hv => ?_
      cases parent with
      | true =>
        simp only [if_true]
        exact master_done hv (by simp [Stop, Shape, full_marks, identity_marks, between_marks, parent1_marks, parent2_marks, hpid, hd, process.completed])
      | false =>
        simp only [Bool.false_eq_true, if_false, pure_bind_eq]
        refine master_bind_mark _ rfl hv fun w hv => ?_
        refine master_bind_quiet (quiet_write_pid σ) hv ?_ fun _ w hv => ?_
        · simp [Stop, Shape, full_marks, identity_marks, between_marks, parent1_marks, parent2_marks, hpid, hd, process.completed]
        refine master_bind_hook σ .after hv ?_ fun w hv => ?_
        · simp [Stop, Shape, full_marks, identity_marks, between_marks, parent1_marks, parent2_marks, hpid, hd, process.completed]
        refine master_bind_sure (keeps_log_trace _ _ _ fun _ => rfl) (log_trace_ok _ _) hv fun w hv => ?_
        refine master_bind_assign _ hv fun w hv => ?_
        refine master_bind_sure (keeps_log_trace _ _ _ fun _ => rfl) (log_trace_ok _ _) hv fun w hv => ?_
        refine master_bind_hook σ .run hv ?_ fun w hv => ?_
        · simp [Stop, Shape, full_marks, identity_marks, between_marks, parent1_marks, parent2_marks, hpid, hd, process.completed]
        refine master_bind_sure (keeps_log_trace _ _ _ fun _ => rfl) (log_trace_ok _ _) hv fun w hv => ?_
        refine master_bind_mark _ rfl hv fun w hv => ?_
        refine master_last quiet_remove_pid remove_pid_ok hv ?_
        simp [Stop, Shape, full_marks, identity_marks, between_marks, parent1_marks, parent2_marks, hpid, hd, process.completed]
  · unfold process.execute
    refine master_bind_sure (quiet_open_syslog) (open_syslog_ok) hv fun w hv => ?_
    refine master_bind_mark _ rfl hv fun w hv => ?_
    refine master_bind_quiet (quiet_is_service_up σ) hv ?_ fun _ w hv => ?_
    · simp [Stop, Shape, full_marks, identity_marks, between_marks, parent1_marks, parent2_marks, hpid, hd, process.completed]
    refine master_bind_this hv ?_
    simp only [hpid, hd, Bool.false_eq_true, if_false, if_true, pure_bind_eq]
    refine master_bind_this hv ?_
    refine master_bind_sure (keeps_log_trace _ _ _ fun _ => rfl) (log_trace_ok _ _) hv fun w hv => ?_
    refine master_bind_mark _ rfl hv fun w hv => ?_
    refine master_bind_quiet (quiet_create_directory σ _ _ _) hv ?_ fun _ w hv => ?_
    · simp [Stop, Shape, full_marks, identity_marks, between_marks, parent1_marks, parent2_marks, hpid, hd, process.completed]
    refine master_bind_hook σ .before hv ?_ fun w hv => ?_
    · simp [Stop, Shape, full_marks, identity_marks, between_marks, parent1_marks, parent2_marks, hpid, hd, process.completed]
    refine master_bind_mark _ rfl hv fun w hv => ?_
    refine master_bind_quiet (quiet_set_capabilities σ) hv ?_ fun _ w hv => ?_
    · simp [Stop, Shape, full_marks, identity_marks, between_marks, parent1_marks, parent2_marks, hpid, hd, process.completed]
    refine master_bind_mark _ rfl hv fun w hv => ?_
    refine master_bind_quiet (quiet_set_credentials σ) hv ?_ fun _ w hv => ?_
    · simp [Stop, Shape, full_marks, identity_marks, between_marks, parent1_marks, parent2_marks, hpid, hd, process.completed]
    refine master_bind_mark _ rfl hv fun w hv => ?_
    refine master_bind_quiet (quiet_cwd σ) hv ?_ fun _ w hv => ?_
    · simp [Stop, Shape, full_marks, identity_marks, between_marks, parent1_marks, parent2_marks, hpid, hd, process.completed]
    refine master_bind_this hv ?_
    simp only [hpid, hd, Bool.false_eq_true, if_false, if_true, pure_bind_eq]
    refine master_bind_mark _ rfl hv fun w hv => ?_
    refine master_bind_quiet (quiet_in_between σ) hv ?_ fun _ w hv => ?_
    · simp [Stop, Shape, full_marks, identity_marks, between_marks, parent1_marks, parent2_marks, hpid, hd, process.completed]
    refine master_bind_hook σ .between hv ?_ fun w hv => ?_
    · simp [Stop, Shape, full_marks, identity_marks, between_marks, parent1_marks, parent2_marks, hpid, hd, process.completed]
    refine master_bind_this hv ?_
    simp only [hpid, hd, Bool.false_eq_true, if_false, if_true, pure_bind_eq]
    refine master_bind_mark _ rfl hv fun w hv => ?_
    refine master_bind_quiet (quiet_write_pid σ) hv ?_ fun _ w hv => ?_
    · simp [Stop, Shape, full_marks, identity_marks, between_marks, parent1_marks, parent2_marks, hpid, hd, process.completed]
    refine master_bind_hook σ .after hv ?_ fun w hv => ?_
    · simp [Stop, Shape, full_marks, identity_marks, between_marks, parent1_marks, parent2_marks, hpid, hd, process.completed]
    refine master_bind_sure (keeps_log_trace _ _ _ fun _ => rfl) (log_trace_ok _ _) hv fun w hv => ?_
    refine master_bind_assign _ hv fun w hv => ?_
    refine master_bind_sure (keeps_log_trace _ _ _ fun _ => rfl) (log_trace_ok _ _) hv fun w hv => ?_
    refine master_bind_hook σ .run hv ?_ fun w hv => ?_
    · simp [Stop, Shape, full_marks, identity_marks, between_marks, parent1_marks, parent2_marks, hpid, hd, process.completed]
    refine master_bind_sure (keeps_log_trace _ _ _ fun _ => rfl) (log_trace_ok _ _) hv fun w hv => ?_
    refine master_bind_mark _ rfl hv fun w hv => ?_
    refine master_last quiet_remove_pid remove_pid_ok hv ?_
    simp [Stop, Shape, full_marks, identity_marks, between_marks, parent1_marks, parent2_marks, hpid, hd, process.completed]
  · unfold process.execute
    refine master_bind_sure (quiet_open_syslog) (open_syslog_ok) hv fun w hv => ?_
    refine master_bind_mark _ rfl hv fun w hv => ?_
    refine master_bind_quiet (quiet_is_service_up σ) hv ?_ fun _ w hv => ?_
    · simp [Stop, Shape, full_marks, identity_marks, between_marks, parent1_marks, parent2_marks, hpid, hd, process.completed]
    refine master_bind_this hv ?_
    simp only [hpid, hd, Bool.false_eq_true, if_false, if_true, pure_bind_eq]
    refine master_bind_this hv ?_
    refine master_bind_sure (keeps_log_trace _ _ _ fun _ => rfl) (log_trace_ok _ _) hv fun w hv => ?_
    refine master_bind_mark _ rfl hv fun w hv => ?_
    refine master_bind_quiet (quiet_create_directory σ _ _ _) hv ?_ fun _ w hv => ?_
    · simp [Stop, Shape, full_marks, identity_marks, between_marks, parent1_marks, parent2_marks, hpid, hd, process.completed]
    refine master_bind_hook σ .before hv ?_ fun w hv => ?_
    · simp [Stop, Shape, full_marks, identity_marks, between_marks, parent1_marks, parent2_marks, hpid, hd, process.completed]
    refine master_bind_mark _ rfl hv fun w hv => ?_
    refine master_bind_quiet (quiet_set_capabilities σ) hv ?_ fun _ w hv => ?_
    · simp [Stop, Shape, full_marks, identity_marks, between_marks, parent1_marks, parent2_marks, hpid, hd, process.completed]
    refine master_bind_mark _ rfl hv fun w hv => ?_
    refine master_bind_quiet (quiet_set_credentials σ) hv ?_ fun _ w hv => ?_
    · simp [Stop, Shape, full_marks, identity_marks, between_marks, parent1_marks, parent2_marks, hpid, hd, process.completed]
    refine master_bind_mark _ rfl hv fun w hv => ?_
    refine master_bind_quiet (quiet_cwd σ) hv ?_ fun _ w hv => ?_
    · simp [Stop, Shape, full_marks, identity_marks, between_marks, parent1_marks, parent2_marks, hpid, hd, process.completed]
    refine master_bind_this hv ?_
    simp only [hpid, hd, Bool.false_eq_true, if_false, if_true, pure_bind_eq]
    refine master_bind_mark _ rfl hv fun w hv => ?_
    refine master_bind_calm (calm_fork σ) hv (by simp) ?_ fun parent w hv => ?_
    · simp [Stop, Shape, full_marks, identity_marks, between_marks, parent1_marks, parent2_marks, hpid, hd, process.completed]
    refine master_bind_mark _ rfl hv fun w hv => ?_
    cases parent with
    | true =>
      simp only [if_true]
      exact master_done hv (by simp [Stop, Shape, full_marks, identity_marks, between_marks, parent1_marks, parent2_marks, hpid, hd, process.completed])
    | false =>
      simp only [Bool.false_eq_true, if_false, pure_bind_eq]
      refine master_bind_mark _ rfl hv fun w hv => ?_
      refine master_bind_quiet (quiet_detach_terminal σ) hv ?_ fun _ w hv => ?_
      · simp [Stop, Shape, full_marks, identity_marks, between_marks, parent1_marks, parent2_marks, hpid, hd, process.completed]
      refine master_bind_sure (keeps_log_trace _ _ _ fun _ => rfl) (log_trace_ok _ _) hv fun w hv => ?_
      refine master_bind_quiet (keeps_ask .setsid _ rfl) hv ?_ fun r w hv => ?_
      · simp [Stop, Shape, full_marks, identity_marks, between_marks, parent1_marks, parent2_marks, hpid, hd, process.completed]
      split
      · exact master_raise_bind _ hv (by simp [Stop, Shape, full_marks, identity_marks, between_marks, parent1_marks, parent2_marks, hpid, hd, process.completed])
      refine master_bind_mark _ rfl hv fun w hv => ?_
      refine master_bind_quiet (quiet_in_between σ) hv ?_ fun _ w hv => ?_
      · simp [Stop, Shape, full_marks, identity_marks, between_marks, parent1_marks, parent2_marks, hpid, hd, process.completed]
      refine master_bind_hook σ .between hv ?_ fun w hv => ?_
      · simp [Stop, Shape, full_marks, identity_marks, between_marks, parent1_marks, parent2_marks, hpid, hd, process.completed]
      refine master_bind_this hv ?_
      simp only [hpid, hd, Bool.false_eq_true, if_false, if_true, pure_bind_eq]
      refine master_bind_mark _ rfl hv fun w hv => ?_
      refine master_bind_calm (calm_fork σ) hv (by simp) ?_ fun parent w hv => ?_
      · simp [Stop, Shape, full_marks, identity_marks, between_marks, parent1_marks, parent2_marks, hpid, hd, process.completed]
      refine master_bind_mark _ rfl hv fun w hv => ?_
      cases parent with
      | true =>
        simp only [if_true]
        exact master_done hv (by simp [Stop, Shape, full_marks, identity_marks, between_marks, parent1_marks, parent2_marks, hpid, hd, process.completed])
      | false =>
        simp only [Bool.false_eq_true, if_false, pure_bind_eq]
        refine master_bind_mark _ rfl hv fun w hv => ?_
        refine master_bind_quiet (quiet_write_pid σ) hv ?_ fun _ w hv => ?_
        · simp [Stop, Shape, full_marks, identity_marks, between_marks, parent1_marks, parent2_marks, hpid, hd, process.completed]
        refine master_bind_hook σ .after hv ?_ fun w hv => ?_
        · simp [Stop, Shape, full_marks, identity_marks, between_marks, parent1_marks, parent2_marks, hpid, hd, process.completed]
        refine master_bind_sure (keeps_log_trace _ _ _ fun _ => rfl) (log_trace_ok _ _) hv fun w hv => ?_
        refine master_bind_assign _ hv fun w hv => ?_
        refine master_bind_sure (keeps_log_trace _ _ _ fun _ => rfl) (log_trace_ok _ _) hv fun w hv => ?_
        refine master_bind_hook σ .run hv ?_ fun w hv => ?_
        · simp [Stop, Shape, full_marks, identity_marks, between_marks, parent1_marks, parent2_marks, hpid, hd, process.completed]
        refine master_bind_sure (keeps_log_trace _ _ _ fun _ => rfl) (log_trace_ok _ _) hv fun w hv => ?_
        refine master_bind_mark _ rfl hv fun w hv => ?_
        refine master_last quiet_remove_pid remove_pid_ok hv ?_
        simp [Stop, Shape, full_marks, identity_marks, between_marks, parent1_marks, parent2_marks, hpid, hd, process.completed]

/-! ## Decimal text -/

theorem digit_facts (d : Nat) (h : d < 10) :
    isdigit (digit d) = true ∧ isspace (digit d) = false ∧ (digit d).toNat - 48 = d ∧
    digit d ≠ NUL ∧ digit d ≠ '-' ∧ digit d ≠ '+' := by
  interval_cases d <;> decide

theorem decimal_fuel_spec (fuel : Nat) : ∀ n, n < fuel →
    (∀ c ∈ decimal_fuel fuel n, isdigit c = true ∧ c ≠ NUL) ∧
    digits_value (decimal_fuel fuel n) = n ∧
    (∃ c cs, decimal_fuel fuel n = c :: cs ∧ isspace c = false ∧ c ≠ '-' ∧ c ≠ '+') := by
  induction fuel with
  | zero => intro n h; omega
  | succ fuel ih =>
    intro n h
    unfold decimal_fuel
    by_cases hn : n < 10
    · simp only [hn, if_true]
      obtain ⟨h1, h2, h3, h4, h5, h6⟩ := digit_facts n hn
      refine ⟨?_, ?_, ⟨_, _, rfl, h2, h5, h6⟩⟩
      · intro c hc
        rw [List.mem_singleton] at hc
        subst hc
        exact ⟨h1, h4⟩
      · simp [digits_value, h3]
    · simp only [hn, if_false]
      have hlt : n / 10 < fuel := by omega
      obtain ⟨i1, i2, c, cs, i3, i4, i5, i6⟩ := ih (n / 10) hlt
      obtain ⟨h1, h2, h3, h4, h5, h6⟩ := digit_facts (n % 10) (Nat.mod_lt _ (by decide))
      refine ⟨?_, ?_, ⟨c, cs ++ [digit (n % 10)], by rw [i3]; rfl, i4, i5, i6⟩⟩
      · intro x hx
        rw [List.mem_append, List.mem_singleton] at hx
        rcases hx with hx | hx
        · exact i1 x hx
        · subst hx
          exact ⟨h1, h4⟩
      · have := i2
        unfold digits_value at this ⊢
        rw [List.foldl_append, this]
        simp only [List.foldl_cons, List.foldl_nil, h3]
        omega

theorem decimal_length (k : Nat) : ∀ fuel n, n < 10 ^ (k + 1) →
    (decimal_fuel fuel n).length ≤ k + 1 := by
  induction k with
  | zero =>
    intro fuel n h
    cases fuel with
    | zero => simp [decimal_fuel]
    | succ fuel =>
      have : n < 10 := by simpa using h
      simp [decimal_fuel, this]
  | succ k ih =>
    intro fuel n h
    cases fuel with
    | zero => simp [decimal_fuel]
    | succ fuel =>
      unfold decimal_fuel
      by_cases hn : n < 10
      · simp [hn]
      · simp only [hn, if_false, List.length_append, List.length_singleton]
        have : n / 10 < 10 ^ (k + 1) := by
          rw [Nat.div_lt_iff_lt_mul (by decide)]
          rw [pow_succ] at h
          exact h
        have := ih fuel (n / 10) this
        omega

theorem takeWhile_all {α : Type} (P : α → Bool) (l : List α) (h : ∀ x ∈ l, P x = true) :
    l.takeWhile P = l := by
  induction l with
  | nil => rfl
  | cons a t ih =>
    have ha := h a (List.mem_cons_self _ _)
    simp only [List.takeWhile, ha]
    rw [ih fun x hx => h x (List.mem_cons_of_mem _ hx)]

/-- The function `strtol` reads back the decimal text of a number that fits a `long`. -/
theorem strtol_decimal (n : Nat) (h : (n : Int) ≤ LONG_MAX) :
    strtol (decimal n) = n ∧ (scan_long (decimal n)).consumed = (decimal n).length := by
  obtain ⟨h1, h2, c, cs, h3, h4, h5, h6⟩ := decimal_fuel_spec (n + 1) n (Nat.lt_succ_self n)
  change (∀ x ∈ decimal n, _) at h1
  change digits_value (decimal n) = n at h2
  change decimal n = c :: cs at h3
  have hd : (c :: cs).takeWhile isdigit = c :: cs :=
    takeWhile_all _ _ fun x hx => (h1 x (h3 ▸ hx)).1
  have hscan : scan_long (decimal n) = ⟨false, decimal n, (decimal n).length⟩ := by
    rw [h3]
    unfold scan_long
    simp only [List.takeWhile, List.dropWhile, h4]
    split
    · rename_i heq
      simp only [List.cons.injEq] at heq
      exact absurd heq.1 h5
    · rename_i heq
      simp only [List.cons.injEq] at heq
      exact absurd heq.1 h6
    · simp only [List.takeWhile] at hd
      simp [hd]
  refine ⟨?_, by rw [hscan]⟩
  unfold strtol
  rw [hscan]
  simp only [Scan.value, h2, Bool.false_eq_true, if_false]
  have : ¬ ((n : Int) < LONG_MIN) := by
    unfold LONG_MIN
    omega
  simp only [this, if_false]
  have : ¬ (LONG_MAX < (n : Int)) := by omega
  simp only [this, if_false]

theorem c_str_txt_buffer (s : Str) (hlen : s.length < 64) (hnul : ∀ c ∈ s, c ≠ NUL) :
    c_str (txt_buffer 64 s.length s) = s := by
  unfold txt_buffer c_str
  have h1 : min (s.length : Int).toNat 64 = s.length := by
    simp only [Int.toNat_ofNat]
    omega
  simp only [h1, List.take_length]
  have h2 : 64 - s.length = (64 - s.length - 1) + 1 := by omega
  rw [h2, List.replicate_succ, List.takeWhile_append_of_pos]
  · simp [List.takeWhile, NUL]
  · intro c hc
    simpa using hnul c hc

theorem wrap32_id (x : Int) (h0 : 0 ≤ x) (h1 : x < 2 ^ 31) : wrap32 x = x := by
  unfold wrap32
  omega


/-! ## The ritual of `execute()` (C1 to C4) -/

theorem forked_true_not_full (p : process) : Event.forked true ∉ full_marks p := by
  rcases hpid : p.__f_req_pid_file with _ | _ <;> rcases hd : p.__f_is_daemon with _ | _ <;>
    simp [full_marks, identity_marks, between_marks, hpid, hd]

theorem hooks_full (p : process) : hooks (full_marks p) = [.before, .between, .after, .run] := by
  rcases hpid : p.__f_req_pid_file with _ | _ <;> rcases hd : p.__f_is_daemon with _ | _ <;>
    simp [full_marks, identity_marks, between_marks, hpid, hd, hooks]

theorem hooks_parent1 (p : process) : hooks (parent1_marks p) = [.before] := by
  rcases hpid : p.__f_req_pid_file with _ | _ <;>
    simp [parent1_marks, identity_marks, hpid, hooks]

theorem hooks_parent2 (p : process) : hooks (parent2_marks p) = [.before, .between] := by
  rcases hpid : p.__f_req_pid_file with _ | _ <;>
    simp [parent2_marks, identity_marks, between_marks, hpid, hooks]

/-- Every run of `execute()` only adds marks, and the marks added have one of
the shapes of `Shape`. -/
theorem execute_shape (σ : Sys) (w : World) :
    marks (process.execute σ w).2.trace
      = marks w.trace ++ new_marks w (process.execute σ w).2 ∧
    (Event.call .__fork ∉ new_marks w (process.execute σ w).2 →
      forks (process.execute σ w).2.trace = forks w.trace) ∧
    Shape w.self (process.execute σ w).1 (process.execute σ w).2.self
      (new_marks w (process.execute σ w).2) := by
  obtain ⟨ms, h1, h2, h3⟩ := execute_master σ w
  have h : new_marks w (process.execute σ w).2 = ms := by
    simp [new_marks, h1]
  rw [h]
  exact ⟨h1, h2, h3⟩

/-- C1: with the daemon flag disabled, a run of `execute()` in which every step
succeeds invokes the hooks exactly once each in the order before, between, after,
run, calls no `fork()`, calls `before()` ahead of `__set_capabilities` and
`__set_credentials`, and calls `after()` after `__write_pid`. -/
theorem execute_foreground_order (σ : Sys) (w : World)
    (hd : w.self.__f_is_daemon = false)
    (hok : (process.execute σ w).1 = .ok ()) :
    new_marks w (process.execute σ w).2 =
      [.call .__is_service_up] ++
        (if w.self.__f_req_pid_file then [.call .create_directory] else []) ++
        [.hook .before w.self.__f_switch_complete, .call .__set_capabilities,
         .call .__set_credentials, .call .__cwd, .call .__in_between,
         .hook .between w.self.__f_switch_complete, .call .__write_pid,
         .hook .after w.self.__f_switch_complete, .hook .run true, .call .__remove_pid] ∧
    hooks (new_marks w (process.execute σ w).2) = [.before, .between, .after, .run] ∧
    forks (process.execute σ w).2.trace = forks w.trace := by
  obtain ⟨-, h2, h3⟩ := execute_shape σ w
  rw [hok] at h3
  simp only [Shape, hd, Bool.false_eq_true, false_and, or_false] at h3
  obtain ⟨h4, -⟩ := h3
  refine ⟨?_, ?_, ?_⟩
  · rw [h4]
    simp [full_marks, identity_marks, between_marks, hd]
  · rw [h4]
    exact hooks_full _
  · apply h2
    rw [h4]
    rcases hpid : w.self.__f_req_pid_file with _ | _ <;>
      simp [full_marks, identity_marks, between_marks, hpid, hd]

/-- Witness of C1: the environment `calm` and the object `fresh`. -/
theorem execute_foreground_order_witness :
    (World.start fresh).self.__f_is_daemon = false ∧
    (process.execute calm (World.start fresh)).1 = .ok () ∧
    hooks (new_marks (World.start fresh) (process.execute calm (World.start fresh)).2)
      = [.before, .between, .after, .run] ∧
    forks (process.execute calm (World.start fresh)).2.trace = forks (World.start fresh).trace :=
  ⟨rfl, by decide, (execute_foreground_order calm (World.start fresh) rfl (by decide)).2⟩

/-- C2: on an object whose flag is still clear, in a process in which `__fork()`
returned true the daemon flag is enabled and `execute()` returns normally with
`is_final_instance()` false; it is the parent of the first fork and has called
only `before()`, or the parent of the second fork and has called `before()` and
`between()`; `after()`, `run()`, `__write_pid` and `__remove_pid` were not called. -/
theorem execute_parent_returns (σ : Sys) (w : World)
    (hfresh : w.self.__f_switch_complete = false)
    (hp : Event.forked true ∈ new_marks w (process.execute σ w).2) :
    w.self.__f_is_daemon = true ∧
    (process.execute σ w).1 = .ok () ∧
    process.is_final_instance (process.execute σ w).2.self = false ∧
    ((new_marks w (process.execute σ w).2 = parent1_marks w.self ∧
        hooks (new_marks w (process.execute σ w).2) = [.before]) ∨
     (new_marks w (process.execute σ w).2 = parent2_marks w.self ∧
        hooks (new_marks w (process.execute σ w).2) = [.before, .between])) ∧
    Hook.after ∉ hooks (new_marks w (process.execute σ w).2) ∧
    Hook.run ∉ hooks (new_marks w (process.execute σ w).2) ∧
    Event.call .__write_pid ∉ new_marks w (process.execute σ w).2 ∧
    Event.call .__remove_pid ∉ new_marks w (process.execute σ w).2 := by
  obtain ⟨-, -, h3⟩ := execute_shape σ w
  generalize new_marks w (process.execute σ w).2 = ms at h3 hp ⊢
  have key : w.self.__f_is_daemon = true ∧ (process.execute σ w).1 = .ok () ∧
      (process.execute σ w).2.self = w.self ∧
      (ms = parent1_marks w.self ∨ ms = parent2_marks w.self) := by
    rcases ho : (process.execute σ w).1 with a | e | u
    · rw [ho] at h3
      simp only [Shape] at h3
      rcases h3 with ⟨h4, -⟩ | ⟨h6, h4, h5⟩
      · exact absurd (h4 ▸ hp) (forked_true_not_full _)
      · exact ⟨h6, rfl, h5, h4⟩
    · rw [ho] at h3
      exact absurd (h3.1.subset hp) (forked_true_not_full _)
    · rw [ho] at h3
      exact absurd (h3.1.subset hp) (forked_true_not_full _)
  obtain ⟨k0, k1, k2, k3⟩ := key
  refine ⟨k0, k1, by simp [process.is_final_instance, k2, hfresh], ?_⟩
  rcases hpid : w.self.__f_req_pid_file with _ | _ <;> rcases k3 with k3 | k3 <;> subst k3 <;>
    simp [parent1_marks, parent2_marks, identity_marks, between_marks, hpid, hooks]

/-- Witness of C2: the environment `calm_parent`, where `fork` returns in the
parent. -/
theorem execute_parent_returns_witness :
    (World.start fresh_daemon).self.__f_switch_complete = false ∧
    Event.forked true ∈
      new_marks (World.start fresh_daemon)
        (process.execute calm_parent (World.start fresh_daemon)).2 ∧
    (process.execute calm_parent (World.start fresh_daemon)).1 = .ok () ∧
    process.is_final_instance
      (process.execute calm_parent (World.start fresh_daemon)).2.self = false :=
  ⟨rfl, by decide!,
    (execute_parent_returns calm_parent (World.start fresh_daemon) rfl (by decide!)).2.1,
    (execute_parent_returns calm_parent (World.start fresh_daemon) rfl (by decide!)).2.2.1⟩

theorem flag_ok_full (p : process) (h : p.__f_switch_complete = false) :
    (full_marks p).all Event.flag_ok = true := by
  rcases hpid : p.__f_req_pid_file with _ | _ <;> rcases hd : p.__f_is_daemon with _ | _ <;>
    simp [full_marks, identity_marks, between_marks, hpid, hd, h, Event.flag_ok]

theorem flag_ok_parent1 (p : process) (h : p.__f_switch_complete = false) :
    (parent1_marks p).all Event.flag_ok = true := by
  rcases hpid : p.__f_req_pid_file with _ | _ <;>
    simp [parent1_marks, identity_marks, hpid, h, Event.flag_ok]

theorem flag_ok_parent2 (p : process) (h : p.__f_switch_complete = false) :
    (parent2_marks p).all Event.flag_ok = true := by
  rcases hpid : p.__f_req_pid_file with _ | _ <;>
    simp [parent2_marks, identity_marks, between_marks, hpid, h, Event.flag_ok]

theorem all_of_initial {α : Type} {P : α → Bool} {a b : List α} (h : a <+: b)
    (hb : b.all P = true) : a.all P = true := by
  rw [List.all_eq_true] at hb ⊢
  exact fun x hx => hb x (h.subset hx)

theorem run_not_parent (p : process) :
    Event.hook .run true ∉ parent1_marks p ∧ Event.hook .run true ∉ parent2_marks p := by
  rcases hpid : p.__f_req_pid_file with _ | _ <;>
    simp [parent1_marks, parent2_marks, identity_marks, between_marks, hpid]

/-- A prefix of the full marks that contains the invocation of `run()` contains
the call of `__write_pid`, the invocation of `after()` and that of `run()`, next
to each other. -/
theorem run_in_prefix (p : process) (h : p.__f_switch_complete = false) (ms : List Event)
    (hpre : ms <+: full_marks p) (hrun : Event.hook .run true ∈ ms) :
    [Event.call .__write_pid, .hook .after false, .hook .run true] <:+: ms := by
  rw [← List.mem_inits] at hpre
  rcases hpid : p.__f_req_pid_file with _ | _ <;> rcases hd : p.__f_is_daemon with _ | _ <;>
    simp only [full_marks, identity_marks, between_marks, hpid, hd, h, Bool.false_eq_true,
      if_false, if_true, List.append_nil, List.cons_append, List.nil_append, List.inits,
      List.map] at hpre <;>
    simp only [List.mem_cons, List.mem_singleton, List.not_mem_nil, or_false] at hpre <;>
    rcases hpre with rfl | rfl | rfl | rfl | rfl | rfl | rfl | rfl | rfl | rfl | rfl | rfl | rfl |
      rfl | rfl | rfl | rfl | rfl | rfl | rfl <;>
    first | (exact absurd hrun (by decide)) | decide

theorem ends_bind {α β : Type} {m : M α} {f : α → M β} {Q : World → Prop} (w : World)
    (hf : ∀ a w1, Ends Q (f a w1)) : Ends Q ((m >>= f) w) := by
  rw [bind_apply]
  rcases hmw : m w with ⟨o, w1⟩
  cases o with
  | ok a => exact hf a w1
  | raised e => exact fun _ h => by cases h
  | undefined u => exact fun _ h => by cases h

/-- The constructor leaves `is_final_instance()` false. -/
theorem construct_flag (σ : Sys) (name : Str) (w : World) :
    Ends (fun w1 => process.is_final_instance w1.self = false) (process.construct σ name w) := by
  unfold process.construct
  refine ends_bind _ fun _ _ => ?_
  refine ends_bind _ fun _ _ => ?_
  refine ends_bind _ fun _ _ => ?_
  refine ends_bind _ fun _ _ => ?_
  refine ends_bind _ fun _ _ => ?_
  refine ends_bind _ fun _ _ => ?_
  intro _ _
  rfl

/-- C3: on a fresh object `is_final_instance()` is false in `before()`,
`between()` and `after()` and true in `run()`; after `execute()` it is true exactly
when `run()` was invoked, and then `__write_pid` was called and `after()` returned
right before `run()` was invoked. The constructor leaves the flag clear. -/
theorem final_instance_flag (σ : Sys) (w : World)
    (hfresh : w.self.__f_switch_complete = false) :
    (∀ name w0, (process.construct σ name w0).1 = .ok () →
      process.is_final_instance (process.construct σ name w0).2.self = false) ∧
    (new_marks w (process.execute σ w).2).all Event.flag_ok = true ∧
    (process.is_final_instance (process.execute σ w).2.self = true ↔
      Event.hook .run true ∈ new_marks w (process.execute σ w).2) ∧
    (process.is_final_instance (process.execute σ w).2.self = true →
      [Event.call .__write_pid, .hook .after false, .hook .run true] <:+:
        new_marks w (process.execute σ w).2) := by
  refine ⟨fun name w0 h => construct_flag σ name w0 () h, ?_⟩
  obtain ⟨-, -, h3⟩ := execute_shape σ w
  generalize new_marks w (process.execute σ w).2 = ms at h3 ⊢
  have hfull : Event.hook .run true ∈ full_marks w.self := by
    simp [full_marks]
  have key : ms <+: full_marks w.self ∧ (process.execute σ w).2.self
      = (if Event.hook .run true ∈ ms then w.self.completed else w.self) ∨
      (Event.hook .run true ∉ ms ∧ ms.all Event.flag_ok = true ∧
        (process.execute σ w).2.self = w.self) := by
    rcases ho : (process.execute σ w).1 with a | e | u
    · rw [ho] at h3
      simp only [Shape] at h3
      rcases h3 with ⟨h4, h5⟩ | ⟨-, h4, h5⟩
      · left
        subst h4
        exact ⟨List.prefix_refl _, by simp [hfull, h5]⟩
      · right
        rcases h4 with h4 | h4 <;> subst h4
        · exact ⟨(run_not_parent _).1, flag_ok_parent1 _ hfresh, h5⟩
        · exact ⟨(run_not_parent _).2, flag_ok_parent2 _ hfresh, h5⟩
    · rw [ho] at h3
      exact Or.inl h3
    · rw [ho] at h3
      exact Or.inl h3
  rcases key with ⟨k1, k2⟩ | ⟨k1, k2, k3⟩
  · refine ⟨all_of_initial k1 (flag_ok_full _ hfresh), ?_, ?_⟩
    · rw [k2]
      by_cases hr : Event.hook .run true ∈ ms <;>
        simp [hr, process.is_final_instance, process.completed, hfresh]
    · rw [k2]
      by_cases hr : Event.hook .run true ∈ ms
      · exact fun _ => run_in_prefix _ hfresh ms k1 hr
      · simp [hr, process.is_final_instance, hfresh]
  · refine ⟨k2, ?_, ?_⟩ <;> simp [k1, k3, process.is_final_instance, hfresh]

/-- Witness of C3: the object `fresh` in the environment `calm`. -/
theorem final_instance_flag_witness :
    (World.start fresh).self.__f_switch_complete = false ∧
    (new_marks (World.start fresh) (process.execute calm (World.start fresh)).2).all
      Event.flag_ok = true ∧
    (process.is_final_instance (process.execute calm (World.start fresh)).2.self = true ↔
      Event.hook .run true ∈
        new_marks (World.start fresh) (process.execute calm (World.start fresh)).2) :=
  ⟨rfl, (final_instance_flag calm (World.start fresh) rfl).2.1,
    (final_instance_flag calm (World.start fresh) rfl).2.2.1⟩

/-- Counterexample to C4: in the environment `calm` a second `execute()` on the
same object returns normally and has invoked the four hooks again. -/
theorem execute_second_run_not_rejected :
    (process.execute calm (World.start fresh)).1 = .ok () ∧
    (process.execute calm after_first_run).1 = .ok () ∧
    hooks (new_marks after_first_run (process.execute calm after_first_run).2)
      = [.before, .between, .after, .run] := by
  decide!

/-- C4 as amended: `execute()` does not reject a second invocation. With the
daemon flag disabled, when the first invocation returned normally and the second
returns normally too, the second has invoked before, between, after and run once
more, in this order and each with `is_final_instance()` already true, called no
`fork()`, and leaves the flag set. -/
theorem execute_again (σ : Sys) (w : World)
    (hd : w.self.__f_is_daemon = false)
    (h1 : (process.execute σ w).1 = .ok ())
    (h2 : (process.execute σ (process.execute σ w).2).1 = .ok ()) :
    new_marks (process.execute σ w).2 (process.execute σ (process.execute σ w).2).2 =
      [.call .__is_service_up] ++
        (if w.self.__f_req_pid_file then [.call .create_directory] else []) ++
        [.hook .before true, .call .__set_capabilities,
         .call .__set_credentials, .call .__cwd, .call .__in_between,
         .hook .between true, .call .__write_pid,
         .hook .after true, .hook .run true, .call .__remove_pid] ∧
    hooks (new_marks (process.execute σ w).2 (process.execute σ (process.execute σ w).2).2)
      = [.before, .between, .after, .run] ∧
    forks (process.execute σ (process.execute σ w).2).2.trace
      = forks (process.execute σ w).2.trace ∧
    process.is_final_instance (process.execute σ (process.execute σ w).2).2.self = true := by
  obtain ⟨-, -, h3⟩ := execute_shape σ w
  rw [h1] at h3
  simp only [Shape, hd, Bool.false_eq_true, false_and, or_false] at h3
  have hs := h3.2
  have hd1 : (process.execute σ w).2.self.__f_is_daemon = false := by
    rw [hs]
    exact hd
  obtain ⟨-, k2, k3⟩ := execute_shape σ (process.execute σ w).2
  rw [h2] at k3
  simp only [Shape, hd1, Bool.false_eq_true, false_and, or_false] at k3
  obtain ⟨k4, k5⟩ := k3
  have hf : (process.execute σ w).2.self.__f_switch_complete = true := by
    rw [hs]
    rfl
  have hpid : (process.execute σ w).2.self.__f_req_pid_file = w.self.__f_req_pid_file := by
    rw [hs]
    rfl
  refine ⟨?_, ?_, ?_, ?_⟩
  · rw [k4]
    simp [full_marks, identity_marks, between_marks, hd1, hf, hpid]
  · rw [k4]
    exact hooks_full _
  · apply k2
    rw [k4]
    rcases hp : (process.execute σ w).2.self.__f_req_pid_file with _ | _ <;>
      simp [full_marks, identity_marks, between_marks, hp, hd1]
  · rw [k5]
    rfl

/-- Witness of C4 as amended: two runs in the environment `calm`. -/
theorem execute_again_witness :
    (World.start fresh).self.__f_is_daemon = false ∧
    (process.execute calm (World.start fresh)).1 = .ok () ∧
    (process.execute calm (process.execute calm (World.start fresh)).2).1 = .ok () ∧
    hooks (new_marks (process.execute calm (World.start fresh)).2
        (process.execute calm (process.execute calm (World.start fresh)).2).2)
      = [.before, .between, .after, .run] :=
  ⟨rfl, by decide!, by decide!,
    (execute_again calm (World.start fresh) rfl (by decide!) (by decide!)).2.1⟩

/-! ## Preflight (C5 to C8) -/

/-- The outcome of the PID-file check on a readable file holding the decimal
text of `p`. -/
theorem pid_file_check_eval (σ : Sys) (w : World) (p : Nat) (e : Nat)
    (hflag : w.self.__f_req_pid_file = true)
    (hopen : 0 ≤ (pid_fd σ w).val)
    (hread : pid_read σ w = (⟨(decimal p).length, e⟩, decimal p))
    (hp : p < 2 ^ 31) :
    (process.pid_file_check σ w).1 =
      if (pid_kill σ w p).val = 0 then
        .raised (errc_device_or_resource_busy (process_exists (decimal p)))
      else if (pid_kill σ w p).errno = ESRCH then .ok ()
      else .raised (.system_error (pid_kill σ w p).errno .generic "Process check".toList) := by
  have hlen : (decimal p).length < 64 := by
    have := decimal_length 9 (p + 1) p (by omega)
    unfold decimal
    omega
  obtain ⟨h1, -, -⟩ := decimal_fuel_spec (p + 1) p (Nat.lt_succ_self p)
  have hc := c_str_txt_buffer (decimal p) hlen fun c hc => (h1 c hc).2
  obtain ⟨hs1, hs2⟩ := strtol_decimal p (by unfold LONG_MAX; omega)
  have hw := wrap32_id p (by omega) (by exact_mod_cast hp)
  have hneg : ¬ ((decimal p).length : Int) < 0 := by omega
  have h64 : ¬ 64 ≤ (decimal p).length := by omega
  simp only [pid_read, pid_fd, read_history] at hread hopen
  simp only [pid_kill, kill_history, pid_fd, read_history]
  rcases hs : w.self.__f_req_syslog with _ | _ <;> rcases ht : w.self.__f_trace with _ | _ <;>
    simp [process.pid_file_check, bind_apply, this, ask, log_trace, log_sys, sys, emit, raise,
      fault, pure_apply, hflag, hs, ht, hopen, hread, hc, hs1, hs2, hw, hlen, hneg, h64,
      errc_device_or_resource_busy, process_exists] <;>
    split_ifs <;>
    simp [bind_apply, this, emit, raise, pure_apply, hs, ht]

/-- The function `__is_service_up()` ends as its first block does when that raises. -/
theorem is_service_up_raised (σ : Sys) (w : World) (x : Exception)
    (h : (process.pid_file_check σ w).1 = .raised x) :
    (process.__is_service_up σ w).1 = .raised x := by
  unfold process.__is_service_up
  rw [bind_apply]
  rcases hc : process.pid_file_check σ w with ⟨o, w1⟩
  rw [hc] at h
  simp only at h
  subst h
  rfl

/-- The function `__is_service_up()` continues with the name probe when its
first block returns. -/
theorem is_service_up_continues (σ : Sys) (w : World)
    (h : (process.pid_file_check σ w).1 = .ok ()) :
    process.__is_service_up σ w = process.name_probe σ (process.pid_file_check σ w).2 := by
  unfold process.__is_service_up
  rw [bind_apply]
  rcases hc : process.pid_file_check σ w with ⟨o, w1⟩
  rw [hc] at h
  simp only at h
  subst h
  rfl

/-- When `__is_service_up()` raises in `execute()`, the exception leaves
`execute()` and the only mark of the run is the call of `__is_service_up()`. -/
theorem execute_preflight_raised (σ : Sys) (w : World) (x : Exception)
    (h : (process.__is_service_up σ (preflight_world w)).1 = .raised x) :
    (process.execute σ w).1 = .raised x ∧
    new_marks w (process.execute σ w).2 = [.call .__is_service_up] := by
  have hv0 := view_mark (view_quiet quiet_open_syslog (view_start w)) (.call .__is_service_up) rfl
  have hv := view_quiet (quiet_is_service_up σ) hv0
  have hrun : process.execute σ w
      = (.raised x, (process.__is_service_up σ (preflight_world w)).2) := by
    unfold process.execute
    rw [bind_apply]
    have ho := open_syslog_ok w
    rcases hc : process.open_syslog w with ⟨o, w1⟩
    rw [hc] at ho
    simp only at ho
    subst ho
    simp only [bind_apply, emit]
    have hw : preflight_world w = { w1 with trace := w1.trace ++ [.call .__is_service_up] } := by
      simp [preflight_world, bind_apply, hc, emit]
    rw [hw] at h
    rcases hi : process.__is_service_up σ { w1 with trace := w1.trace ++ [.call .__is_service_up] }
      with ⟨o2, w2⟩
    rw [hi] at h
    simp only at h
    subst h
    simp [hw, hi]
  have hpw : (process.__is_service_up σ
      { (process.open_syslog w).2 with
        trace := (process.open_syslog w).2.trace ++ [.call .__is_service_up] }).2
      = (process.__is_service_up σ (preflight_world w)).2 := by
    simp [preflight_world, bind_apply, emit]
    rcases hc : process.open_syslog w with ⟨o, w1⟩
    have ho := open_syslog_ok w
    rw [hc] at ho
    simp only at ho
    subst ho
    rfl
  rw [hpw] at hv
  refine ⟨by rw [hrun], ?_⟩
  rw [hrun]
  simp [new_marks, hv.marks_eq]

/-- C5 as amended: with the PID file enabled, opened and read as the decimal
text of `p`, the PID-file check raises the busy error "Process p exists" exactly
when `kill(p, 0)` succeeds, and `__is_service_up()` raises it then; when `kill`
fails with `ESRCH` the check raises nothing and `__is_service_up()` continues
with the name probe; when `kill` fails with another errno, `__is_service_up()`
raises an error carrying that errno. Whenever `__is_service_up()` raises, no hook
has been called. -/
theorem pid_file_decides (σ : Sys) (w0 : World) (p : Nat) (e : Nat)
    (hflag : (preflight_world w0).self.__f_req_pid_file = true)
    (hopen : 0 ≤ (pid_fd σ (preflight_world w0)).val)
    (hread : pid_read σ (preflight_world w0) = (⟨(decimal p).length, e⟩, decimal p))
    (hp : p < 2 ^ 31) :
    ((process.pid_file_check σ (preflight_world w0)).1
        = .raised (errc_device_or_resource_busy (process_exists (decimal p))) ↔
      (pid_kill σ (preflight_world w0) p).val = 0) ∧
    ((pid_kill σ (preflight_world w0) p).val = 0 →
      (process.__is_service_up σ (preflight_world w0)).1
        = .raised (errc_device_or_resource_busy (process_exists (decimal p)))) ∧
    ((pid_kill σ (preflight_world w0) p).val ≠ 0 →
      (pid_kill σ (preflight_world w0) p).errno = ESRCH →
      (process.pid_file_check σ (preflight_world w0)).1 = .ok () ∧
      process.__is_service_up σ (preflight_world w0)
        = process.name_probe σ (process.pid_file_check σ (preflight_world w0)).2) ∧
    ((pid_kill σ (preflight_world w0) p).val ≠ 0 →
      (pid_kill σ (preflight_world w0) p).errno ≠ ESRCH →
      (process.__is_service_up σ (preflight_world w0)).1
        = .raised (.system_error (pid_kill σ (preflight_world w0) p).errno .generic
            "Process check".toList)) ∧
    (∀ x, (process.__is_service_up σ (preflight_world w0)).1 = .raised x →
      (process.execute σ w0).1 = .raised x ∧
      hooks (new_marks w0 (process.execute σ w0).2) = []) := by
  have hev := pid_file_check_eval σ (preflight_world w0) p e hflag hopen hread hp
  refine ⟨?_, ?_, ?_, ?_, ?_⟩
  · rw [hev]
    constructor
    · intro h
      by_contra hk
      simp only [hk, if_false] at h
      split_ifs at h
      simp only [errc_device_or_resource_busy, process_exists, Outcome.raised.injEq,
        Exception.system_error.injEq] at h
      have hl := congrArg List.length h.2.2
      simp at hl
    · intro hk
      simp [hk]
  · intro hk
    apply is_service_up_raised
    rw [hev]
    simp [hk]
  · intro hk he
    have hc : (process.pid_file_check σ (preflight_world w0)).1 = .ok () := by
      rw [hev]
      simp [hk, he]
    exact ⟨hc, is_service_up_continues σ _ hc⟩
  · intro hk he
    apply is_service_up_raised
    rw [hev]
    simp [hk, he]
  · intro x hx
    obtain ⟨h1, h2⟩ := execute_preflight_raised σ w0 x hx
    refine ⟨h1, ?_⟩
    rw [h2]
    rfl

/-- Witness of C5 as amended: the stale PID file of the environment `stale`. -/
theorem pid_file_decides_witness :
    (preflight_world (World.start fresh_pid)).self.__f_req_pid_file = true ∧
    0 ≤ (pid_fd stale (preflight_world (World.start fresh_pid))).val ∧
    pid_read stale (preflight_world (World.start fresh_pid))
      = (⟨(decimal 4242).length, 0⟩, decimal 4242) ∧
    4242 < 2 ^ 31 ∧
    ((process.pid_file_check stale (preflight_world (World.start fresh_pid))).1
        = .raised (errc_device_or_resource_busy (process_exists (decimal 4242))) ↔
      (pid_kill stale (preflight_world (World.start fresh_pid)) 4242).val = 0) :=
  ⟨by decide!, by decide!, by decide!, by decide,
    (pid_file_decides stale (World.start fresh_pid) 4242 0 (by decide!) (by decide!)
      (by decide!) (by decide)).1⟩

/-- Counterexample to C5: in the environment `stale`, `kill` on the pid of the
PID file fails with `ESRCH`, and `__is_service_up()` raises
`device_or_resource_busy` all the same, because of the process found by name. -/
theorem busy_without_kill :
    (pid_kill stale (preflight_world (World.start fresh_pid)) 4242).val = -1 ∧
    (pid_kill stale (preflight_world (World.start fresh_pid)) 4242).errno = ESRCH ∧
    (process.__is_service_up stale (preflight_world (World.start fresh_pid))).1
      = .raised (errc_device_or_resource_busy (identical_process 300)) := by
  decide!

/-- When `open` fails on the PID file, whatever the errno, the PID-file check
returns without raising and calls nothing else. -/
theorem pid_file_check_open_failed (σ : Sys) (w : World)
    (hopen : (pid_fd σ w).val < 0) :
    process.pid_file_check σ w = (.ok (), (process.pid_file_check σ w).2) ∧
    ((process.pid_file_check σ w).2.trace = w.trace ∨
     (process.pid_file_check σ w).2.trace
       = w.trace ++ [.sys (.open_ w.self._pid_path (O_RDONLY ||| O_CLOEXEC))]) := by
  have hn : ¬ (0 ≤ (σ.open_ w.trace w.self._pid_path (O_RDONLY ||| O_CLOEXEC)).val) := by
    simp only [pid_fd] at hopen
    omega
  rcases hf : w.self.__f_req_pid_file with _ | _ <;>
    simp [process.pid_file_check, bind_apply, this, ask, pure_apply, hf, hn]

/-- When `read` fails on the PID file, the PID-file check raises an error with
the errno of `read`. -/
theorem pid_file_check_read_failed (σ : Sys) (w : World)
    (hflag : w.self.__f_req_pid_file = true)
    (hopen : 0 ≤ (pid_fd σ w).val)
    (hread : (pid_read σ w).1.val < 0) :
    (process.pid_file_check σ w).1
      = .raised (.system_error (pid_read σ w).1.errno .system "Pid file ".toList) := by
  simp only [pid_read, pid_fd, read_history] at hread hopen ⊢
  rcases hs : w.self.__f_req_syslog with _ | _ <;> rcases ht : w.self.__f_trace with _ | _ <;>
    simp [process.pid_file_check, bind_apply, this, ask, log_trace, sys, emit, raise,
      pure_apply, hflag, hs, ht, hopen, hread]

/-- C6 at the failing input: in the environment `denied` the PID file exists but
`open` fails with `EACCES`; `__is_service_up()` returns normally, having called
`open` and then gone on to the name probe. -/
theorem unreadable_pid_file_passes :
    (pid_fd denied (World.start fresh_pid)).val = -1 ∧
    (pid_fd denied (World.start fresh_pid)).errno = EACCES ∧
    (process.__is_service_up denied (World.start fresh_pid)).1 = .ok () ∧
    (process.__is_service_up denied (World.start fresh_pid)).2.trace =
      [.sys (.open_ pid_path (O_RDONLY ||| O_CLOEXEC)), .sys (.opendir "/proc".toList),
       .sys .getpid, .sys .readdir, .sys .closedir] := by
  decide!

/-- What the loop of `process::exists` returns is the value it started with or
the number of an entry other than the caller, converted to `pid_t`. -/
theorem exists_loop_result (σ : Sys) (name : Str) (self_pid : Int) (entries : List Str) :
    ∀ (result : Int) (m : Bool) (w : World) (r : Int),
      (process.exists_loop σ name self_pid result m entries w).1 = .ok r →
      r = result ∨ ∃ d ∈ entries, ∃ pid, stol d = .ok pid ∧ pid ≠ self_pid ∧ r = wrap32 pid := by
  induction entries with
  | nil =>
    intro result m w r h
    left
    simp [process.exists_loop, bind_apply, sys, emit, pure_apply] at h
    exact h.symm
  | cons d rest ih =>
    intro result m w r h
    unfold process.exists_loop at h
    simp only [bind_apply, sys, emit] at h
    rcases hs : stol d with e | pid
    · simp only [hs] at h
      rcases ih _ _ _ _ h with h1 | ⟨x, hx, q, h2, h3, h4⟩
      · exact Or.inl h1
      · exact Or.inr ⟨x, List.mem_cons_of_mem _ hx, q, h2, h3, h4⟩
    · simp only [hs] at h
      by_cases hp : pid = self_pid
      · simp only [hp, if_true] at h
        rcases ih _ _ _ _ h with h1 | ⟨x, hx, q, h2, h3, h4⟩
        · exact Or.inl h1
        · exact Or.inr ⟨x, List.mem_cons_of_mem _ hx, q, h2, h3, h4⟩
      · simp only [hp, if_false, bind_apply, ask] at h
        rcases hf : σ.fopen (w.trace ++ [Event.sys Syscall.readdir]) (proc_path d) "r".toList
          with e | stream
        · simp only [hf] at h
          simp [fault, bind_apply] at h
        · simp only [hf, sys, emit, bind_apply] at h
          rcases hc : cmdline_has name stream with _ | _
          · simp only [hc, Bool.false_or, Bool.false_eq_true, if_false] at h
            rcases hm : m with _ | _
            · simp only [hm, Bool.false_eq_true, if_false, pure_bind_eq] at h
              rcases ih _ _ _ _ h with h1 | ⟨x, hx, q, h2, h3, h4⟩
              · exact Or.inl h1
              · exact Or.inr ⟨x, List.mem_cons_of_mem _ hx, q, h2, h3, h4⟩
            · simp only [hm, if_true, pure_apply] at h
              left
              simpa using h.symm
          · simp only [hc, Bool.true_or, if_true, pure_apply] at h
            right
            refine ⟨d, List.mem_cons_self _ _, pid, hs, hp, ?_⟩
            simpa using h.symm

theorem cmdlines_open_tail {σ : Sys} {self_pid : Int} {files : Str → Str} {d : Str}
    {rest : List Str} (h : cmdlines_open σ self_pid files (d :: rest)) :
    cmdlines_open σ self_pid files rest :=
  fun x hx => h x (List.mem_cons_of_mem _ hx)

theorem scanned_subset (name : Str) (self_pid : Int) (files : Str → Str) (entries : List Str) :
    ∀ x ∈ scanned name self_pid files entries, x ∈ entries := by
  induction entries with
  | nil =>
    intro x hx
    simp [scanned] at hx
  | cons d rest ih =>
    intro x hx
    unfold scanned at hx
    split at hx
    · simp only [List.mem_singleton] at hx
      rw [hx]
      exact List.mem_cons_self _ _
    · rcases List.mem_cons.mp hx with h | h
      · rw [h]
        exact List.mem_cons_self _ _
      · exact List.mem_cons_of_mem _ (ih x h)

theorem cmdlines_open_scanned {σ : Sys} {self_pid : Int} {files : Str → Str}
    {entries : List Str} (name : Str) (h : cmdlines_open σ self_pid files entries) :
    cmdlines_open σ self_pid files (scanned name self_pid files entries) :=
  fun x hx => h x (scanned_subset name self_pid files entries x hx)

theorem scanned_miss (name : Str) (self_pid : Int) (files : Str → Str) (d : Str)
    (rest : List Str) (h : is_hit name self_pid files d = false) :
    scanned name self_pid files (d :: rest) = d :: scanned name self_pid files rest := by
  simp [scanned, h]

theorem scanned_head (name : Str) (self_pid : Int) (files : Str → Str) (d : Str)
    (rest : List Str) : d ∈ scanned name self_pid files (d :: rest) := by
  unfold scanned
  split <;> simp

/-- The value the loop of `process::exists` computes from its initial state:
the first hit, converted to `pid_t`. -/
theorem exists_loop_first (σ : Sys) (name : Str) (self_pid : Int) (files : Str → Str)
    (entries : List Str)
    (hopen : cmdlines_open σ self_pid files (scanned name self_pid files entries)) :
    ∀ w : World, (process.exists_loop σ name self_pid (-1) false entries w).1 =
      .ok (match entries.find? (is_hit name self_pid files) with
        | some d => wrap32 (entry_pid d)
        | none => -1) := by
  induction entries with
  | nil =>
    intro w
    simp [process.exists_loop, bind_apply, sys, emit, pure_apply]
  | cons d rest ih =>
    intro w
    have ih1 : is_hit name self_pid files d = false → ∀ w : World,
        (process.exists_loop σ name self_pid (-1) false rest w).1 =
          .ok (match rest.find? (is_hit name self_pid files) with
            | some d => wrap32 (entry_pid d)
            | none => -1) := by
      intro hh
      rw [scanned_miss name self_pid files d rest hh] at hopen
      exact ih (cmdlines_open_tail hopen)
    unfold process.exists_loop
    simp only [bind_apply, sys, emit]
    rcases hs : stol d with e | pid
    · have hh : is_hit name self_pid files d = false := by simp [is_hit, hs]
      simp only [List.find?, hh]
      exact ih1 hh _
    · simp only
      by_cases hp : pid = self_pid
      · have hh : is_hit name self_pid files d = false := by simp [is_hit, hs, hp]
        simp only [hp, if_true, List.find?, hh]
        exact ih1 hh _
      · have hf := hopen d (scanned_head name self_pid files d rest) pid hs hp
          (w.trace ++ [Event.sys Syscall.readdir])
        simp only [hp, if_false, bind_apply, ask, hf, sys, emit]
        by_cases hc : cmdline_has name (files d) = true
        · have hh : is_hit name self_pid files d = true := by simp [is_hit, hs, hc, hp]
          simp [List.find?, hh, hc, pure_apply, entry_pid, hs]
        · have hc1 : cmdline_has name (files d) = false := by simpa using hc
          have hh : is_hit name self_pid files d = false := by simp [is_hit, hs, hc1]
          simp only [hc1, Bool.or_self, Bool.false_eq_true, if_false, pure_bind_eq, List.find?, hh]
          exact ih1 hh _

theorem wrap32_fit (x : Int) (h : 0 < x ∧ x < 2 ^ 31) : wrap32 x = x := by
  unfold wrap32
  omega

theorem is_hit_parses {name : Str} {self_pid : Int} {files : Str → Str} {d : Str}
    (h : is_hit name self_pid files d = true) : stol d = .ok (entry_pid d) := by
  unfold is_hit at h
  unfold entry_pid
  rcases hs : stol d with e | pid
  · simp [hs] at h
  · rfl

/-- With numbers that fit `pid_t`, the loop returns `exists_first`. -/
theorem exists_loop_value (σ : Sys) (name : Str) (self_pid : Int) (files : Str → Str)
    (entries : List Str)
    (hopen : cmdlines_open σ self_pid files (scanned name self_pid files entries))
    (hfit : pids_fit entries) (w : World) :
    (process.exists_loop σ name self_pid (-1) false entries w).1 =
      .ok (exists_first name self_pid files entries) := by
  rw [exists_loop_first σ name self_pid files entries hopen w]
  unfold exists_first
  rcases hfind : entries.find? (is_hit name self_pid files) with _ | d
  · rfl
  · have hm := List.mem_of_find?_eq_some hfind
    have hh := List.find?_some hfind
    simp only
    rw [wrap32_fit _ (hfit d hm _ (is_hit_parses hh))]

/-- The single-result `exists` on a stable listing returns `exists_first`. -/
theorem exists_pid_value (σ : Sys) (name : Str) (self_pid : Int) (files : Str → Str)
    (entries : List Str)
    (hdir : ∀ h, σ.opendir h "/proc".toList = .ok entries)
    (hpid : ∀ h, σ.getpid h = self_pid)
    (hopen : cmdlines_open σ self_pid files (scanned name self_pid files entries))
    (hfit : pids_fit entries) (w : World) :
    (process.exists_pid σ name w).1 = .ok (exists_first name self_pid files entries) := by
  unfold process.exists_pid
  simp only [bind_apply, ask, hdir, hpid]
  have h := exists_loop_value σ name self_pid files entries hopen hfit
    { w with trace := w.trace ++ [Event.sys (Syscall.opendir "/proc".toList)]
        ++ [Event.sys Syscall.getpid] }
  rcases hl : process.exists_loop σ name self_pid (-1) false entries
    { w with trace := w.trace ++ [Event.sys (Syscall.opendir "/proc".toList)]
        ++ [Event.sys Syscall.getpid] } with ⟨o, w1⟩
  rw [hl] at h
  simp only at h
  subst h
  rfl

theorem exists_first_none (name : Str) (self_pid : Int) (files : Str → Str)
    (entries : List Str) (h : ∀ d ∈ entries, is_hit name self_pid files d = false) :
    exists_first name self_pid files entries = -1 := by
  unfold exists_first
  have : entries.find? (is_hit name self_pid files) = none := by
    rw [List.find?_eq_none]
    intro d hd
    simp [h d hd]
  rw [this]

theorem exists_first_split (name : Str) (self_pid : Int) (files : Str → Str)
    (pre post : List Str) (d : Str) (hpre : ∀ x ∈ pre, is_hit name self_pid files x = false)
    (hd : is_hit name self_pid files d = true) :
    exists_first name self_pid files (pre ++ d :: post) = entry_pid d := by
  unfold exists_first
  induction pre with
  | nil => simp [List.find?, hd]
  | cons a t ih =>
    have ha := hpre a (List.mem_cons_self _ _)
    simp only [List.cons_append, List.find?, ha]
    exact ih fun x hx => hpre x (List.mem_cons_of_mem _ hx)

/-- The name probe returns normally when `exists` returns `-1`. -/
theorem name_probe_clear (σ : Sys) (w : World)
    (h : ∀ w1, (process.exists_pid σ w.self._name w1).1 = .ok (-1)) :
    (process.name_probe σ w).1 = .ok () := by
  unfold process.name_probe
  simp only [bind_apply, this]
  have h0 := log_trace_ok LOG_DEBUG "Check if the process with the name %s does exist" w
  rcases hl : log_trace LOG_DEBUG "Check if the process with the name %s does exist" w
    with ⟨o, w1⟩
  rw [hl] at h0
  simp only at h0
  subst h0
  have h1 := h w1
  rcases he : process.exists_pid σ w.self._name w1 with ⟨o2, w2⟩
  rw [he] at h1
  simp only at h1
  subst h1
  simp only [he]
  simp [pure_apply]

/-- What the single-result `exists` returns is what its loop returned. -/
theorem exists_pid_result (σ : Sys) (name : Str) (self_pid : Int) (entries : List Str)
    (hdir : ∀ h, σ.opendir h "/proc".toList = .ok entries)
    (hpid : ∀ h, σ.getpid h = self_pid) (w : World) (r : Int)
    (h : (process.exists_pid σ name w).1 = .ok r) :
    r = -1 ∨ ∃ d ∈ entries, ∃ pid, stol d = .ok pid ∧ pid ≠ self_pid ∧ r = wrap32 pid := by
  unfold process.exists_pid at h
  simp only [bind_apply, ask, hdir, hpid] at h
  rcases hl : process.exists_loop σ name self_pid (-1) false entries
    { w with trace := w.trace ++ [Event.sys (Syscall.opendir "/proc".toList)]
        ++ [Event.sys Syscall.getpid] } with ⟨o, w1⟩
  rw [hl] at h
  cases o with
  | ok a =>
    simp [sys, emit, pure_apply, bind_apply] at h
    subst h
    exact exists_loop_result σ name self_pid entries (-1) false _ a (by rw [hl])
  | raised e => simp at h
  | undefined u => simp at h

theorem pid_file_check_disabled (σ : Sys) (w : World) (h : w.self.__f_req_pid_file = false) :
    process.pid_file_check σ w = (.ok (), w) := by
  simp [process.pid_file_check, bind_apply, this, h, pure_apply]

/-- On a `/proc` listing whose numbered entries are pids, the pid that the
single-result `exists(name)` returns is never the caller's own; and where the
`cmdline` of every other numbered entry opens and none of them contains the name,
`exists` returns `-1`, the name probe raises nothing and, without a PID file,
`__is_service_up()` returns normally. -/
theorem exists_skips_self (σ : Sys) (name : Str) (self_pid : Int) (entries : List Str)
    (hdir : ∀ h, σ.opendir h "/proc".toList = .ok entries)
    (hpid : ∀ h, σ.getpid h = self_pid)
    (hself : 0 < self_pid)
    (hfit : pids_fit entries) :
    (∀ w r, (process.exists_pid σ name w).1 = .ok r → r ≠ self_pid) ∧
    (∀ files, cmdlines_open σ self_pid files entries →
      (∀ d ∈ entries, is_hit name self_pid files d = false) →
      ∀ w, (process.exists_pid σ name w).1 = .ok (-1) ∧
        (w.self._name = name →
          (process.name_probe σ w).1 = .ok () ∧
          (w.self.__f_req_pid_file = false → (process.__is_service_up σ w).1 = .ok ()))) := by
  constructor
  · intro w r h
    rcases exists_pid_result σ name self_pid entries hdir hpid w r h with h1 | ⟨d, hd, pid, h2, h3, h4⟩
    · omega
    · rw [h4, wrap32_fit _ (hfit d hd pid h2)]
      exact h3
  · intro files hopen hnone
    have hval : ∀ w, (process.exists_pid σ name w).1 = .ok (-1) := by
      intro w
      rw [exists_pid_value σ name self_pid files entries hdir hpid
          (cmdlines_open_scanned name hopen) hfit w,
        exists_first_none name self_pid files entries hnone]
    intro w
    refine ⟨hval w, fun hn => ?_⟩
    have hprobe : ∀ w1 : World, w1.self._name = name → (process.name_probe σ w1).1 = .ok () := by
      intro w1 hn1
      apply name_probe_clear
      rw [hn1]
      exact hval
    refine ⟨hprobe w hn, fun hf => ?_⟩
    unfold process.__is_service_up
    rw [bind_apply, pid_file_check_disabled σ w hf]
    exact hprobe w hn

theorem pids_fit_alone : pids_fit ["100".toList, "self".toList] := by
  intro d hd pid hs
  simp only [List.mem_cons, List.mem_singleton, List.not_mem_nil, or_false] at hd
  rcases hd with rfl | rfl
  · have h : stol "100".toList = .ok 100 := rfl
    rw [h] at hs
    cases hs
    decide
  · have h : stol "self".toList = .error (.invalid_argument "stol".toList) := rfl
    rw [h] at hs
    cases hs

/-- An instance of `exists_skips_self`: the environment `alone`, whose `/proc`
lists the caller only. -/
theorem exists_skips_self_witness :
    (∀ h, alone.opendir h "/proc".toList = .ok ["100".toList, "self".toList]) ∧
    (∀ h, alone.getpid h = 100) ∧
    (0 : Int) < 100 ∧
    pids_fit ["100".toList, "self".toList] ∧
    cmdline_has "eggd".toList "eggd".toList = true ∧
    (∀ w r, (process.exists_pid alone "eggd".toList w).1 = .ok r → r ≠ 100) ∧
    (process.exists_pid alone "eggd".toList (World.start fresh)).1 = .ok (-1) ∧
    (process.__is_service_up alone (World.start fresh)).1 = .ok () :=
  have h := exists_skips_self alone "eggd".toList 100 ["100".toList, "self".toList]
    (fun _ => rfl) (fun _ => rfl) (by decide) pids_fit_alone
  have h2 := h.2 (fun _ => "eggd".toList) (fun _ _ _ _ _ _ => rfl) (by decide)
    (World.start fresh)
  ⟨fun _ => rfl, fun _ => rfl, by decide, pids_fit_alone, by decide, h.1, h2.1,
    (h2.2 rfl).2 rfl⟩

/-- C7 at the failing input: `/proc` lists the caller, whose command line is
`eggd`, and a process 200 whose `cmdline` does not open, so that no entry but the
caller's has a command line containing `eggd`. `exists("eggd")` does not return
`-1`: the code reaches `fclose` with the null pointer `fopen` returned; and
`__is_service_up()` does not return. -/
theorem exists_closes_null :
    gone.opendir [] "/proc".toList = .ok ["100".toList, "200".toList] ∧
    gone.getpid [] = 100 ∧
    gone.fopen [] (proc_path "100".toList) "r".toList = .ok "eggd".toList ∧
    gone.fopen [] (proc_path "200".toList) "r".toList = .error ENOENT ∧
    (process.exists_pid gone "eggd".toList (World.start fresh)).1 = .undefined .fclose_null ∧
    (process.__is_service_up gone (World.start fresh)).1 = .undefined .fclose_null :=
  ⟨rfl, rfl, rfl, rfl, by decide!, by decide!⟩

/-- Counterexample to C8: the command line `sleep eggd` of process 300, as read
into the buffer, contains `eggd`, so that the claim makes `exists("eggd")` return
300; the code returns `-1`. And where the `cmdline` of process 200 does not open
and process 300 after it has the command line `eggd`, the claim makes
`exists("eggd")` return 300; the code reaches `fclose` with a null pointer at
process 200 and returns nothing. -/
theorem exists_misses_later_argument :
    buffer_has "eggd".toList sleep_eggd = true ∧
    exists_claimed "eggd".toList 100 (fun _ => sleep_eggd) ["300".toList] = 300 ∧
    (process.exists_pid argv_env "eggd".toList (World.start fresh)).1 = .ok (-1) ∧
    gone_first.fopen [] (proc_path "200".toList) "r".toList = .error ENOENT ∧
    exists_claimed "eggd".toList 100 only_300 ["200".toList, "300".toList] = 300 ∧
    (process.exists_pid gone_first "eggd".toList (World.start fresh)).1
      = .undefined .fclose_null :=
  ⟨by decide!, by decide!, by decide!, rfl, by decide!, by decide!⟩

/-- C8 as amended: on a `/proc` listing whose numbered entries are pids, where
`fopen` succeeds on the `cmdline` of every numbered entry other than the caller
that the loop visits (the entries up to and including the first match),
`exists(name)` returns the pid of the first entry in enumeration order, other than
the caller, for which `fgets` into the 512-byte buffer succeeds and the C string in
the buffer (the bytes before the first zero byte) contains `name`; it returns `-1`
exactly when there is no such entry; an entry whose name `std::stol` does not parse
is never such an entry. -/
theorem exists_finds_first (σ : Sys) (name : Str) (self_pid : Int) (files : Str → Str)
    (entries : List Str)
    (hdir : ∀ h, σ.opendir h "/proc".toList = .ok entries)
    (hpid : ∀ h, σ.getpid h = self_pid)
    (hopen : cmdlines_open σ self_pid files (scanned name self_pid files entries))
    (hfit : pids_fit entries) :
    (∀ w, (process.exists_pid σ name w).1 = .ok (exists_first name self_pid files entries)) ∧
    (∀ pre d post, entries = pre ++ d :: post →
      (∀ x ∈ pre, is_hit name self_pid files x = false) →
      is_hit name self_pid files d = true →
      exists_first name self_pid files entries = entry_pid d ∧ entry_pid d ≠ self_pid) ∧
    (exists_first name self_pid files entries = -1 ↔
      ∀ d ∈ entries, is_hit name self_pid files d = false) ∧
    (∀ d, (∀ pid, stol d ≠ .ok pid) → is_hit name self_pid files d = false) := by
  refine ⟨exists_pid_value σ name self_pid files entries hdir hpid hopen hfit, ?_, ?_, ?_⟩
  · intro pre d post he hpre hd
    subst he
    refine ⟨exists_first_split name self_pid files pre post d hpre hd, ?_⟩
    have hs := is_hit_parses hd
    unfold is_hit at hd
    rw [hs] at hd
    simp only [Bool.and_eq_true, bne_iff_ne, ne_eq] at hd
    exact hd.1
  · constructor
    · intro h d hd
      by_contra hc
      have hc1 : is_hit name self_pid files d = true := by simpa using hc
      rcases hfind : entries.find? (is_hit name self_pid files) with _ | d0
      · rw [List.find?_eq_none] at hfind
        exact hfind d hd hc1
      · have hm := List.mem_of_find?_eq_some hfind
        have hh := List.find?_some hfind
        have hpos := (hfit d0 hm _ (is_hit_parses hh)).1
        simp only [exists_first, hfind] at h
        omega
    · exact exists_first_none name self_pid files entries
  · intro d hd
    unfold is_hit
    rcases hs : stol d with e | pid
    · rfl
    · exact absurd hs (hd pid)

theorem pids_fit_gone_last : pids_fit ["300".toList, "200".toList] := by
  intro d hd pid hs
  simp only [List.mem_cons, List.mem_singleton, List.not_mem_nil, or_false] at hd
  rcases hd with rfl | rfl
  · have h : stol "300".toList = .ok 300 := rfl
    rw [h] at hs
    cases hs
    decide
  · have h : stol "200".toList = .ok 200 := rfl
    rw [h] at hs
    cases hs
    decide

theorem scanned_gone_last :
    scanned "eggd".toList 100 only_300 ["300".toList, "200".toList] = ["300".toList] := by
  decide!

theorem open_gone_last : cmdlines_open gone_last 100 only_300
    (scanned "eggd".toList 100 only_300 ["300".toList, "200".toList]) := by
  rw [scanned_gone_last]
  intro d hd pid _ _ h
  simp only [List.mem_singleton] at hd
  subst hd
  rfl

/-- Witness of C8 as amended: the environment `gone_last`, where process 300 has
the command line `eggd` and the `cmdline` of process 200, listed after it, does not
open. -/
theorem exists_finds_first_witness :
    (∀ h, gone_last.opendir h "/proc".toList = .ok ["300".toList, "200".toList]) ∧
    (∀ h, gone_last.getpid h = 100) ∧
    gone_last.fopen [] (proc_path "200".toList) "r".toList = .error ENOENT ∧
    cmdlines_open gone_last 100 only_300
      (scanned "eggd".toList 100 only_300 ["300".toList, "200".toList]) ∧
    pids_fit ["300".toList, "200".toList] ∧
    (∀ w, (process.exists_pid gone_last "eggd".toList w).1
      = .ok (exists_first "eggd".toList 100 only_300 ["300".toList, "200".toList])) ∧
    exists_first "eggd".toList 100 only_300 ["300".toList, "200".toList] = 300 :=
  ⟨fun _ => rfl, fun _ => rfl, rfl, open_gone_last, pids_fit_gone_last,
    (exists_finds_first gone_last "eggd".toList 100 only_300 ["300".toList, "200".toList]
      (fun _ => rfl) (fun _ => rfl) open_gone_last pids_fit_gone_last).1,
    by decide!⟩

/-! ## The signal controller (C9, C10) -/

/-- A handler whose signal number is `count` or more is refused by `enable`
before any slot is touched. -/
theorem enable_above_range (σ : Sys) (h : signal.handler) (w : World)
    (hid : signal.controller.count σ ≤ h._id) :
    signal.controller.enable σ (some h) w
      = (.raised (errc_invalid_argument (signal.controller.wrong_signal_code σ h._id)), w) := by
  simp [signal.controller.enable, bind_apply, raise, hid]

/-- A handler whose signal number is negative passes the range check of `enable`
and reaches `_s_handler[id]` outside the table. -/
theorem enable_below_range (σ : Sys) (h : signal.handler) (w : World)
    (hid : h._id < 0) :
    signal.controller.enable σ (some h) w = (.undefined (.out_of_bounds h._id), w) := by
  have hc : ¬ signal.controller.count σ ≤ h._id := by
    simp only [signal.controller.count]
    omega
  have hn : ¬ 0 ≤ h._id := by omega
  simp [signal.controller.enable, bind_apply, raise, hc, signal.controller.load, hn, pure_apply]

/-- C9 at the failing input: for the handler `stray`, whose signal number is `-1`,
`enable` raises nothing; it evaluates `_s_handler[-1]`, an access outside the
table. -/
theorem enable_negative_id :
    stray._id = -1 ∧
    (signal.controller.enable calm (some stray) (World.start fresh)).1
      = .undefined (.out_of_bounds (-1)) ∧
    ∀ e, (signal.controller.enable calm (some stray) (World.start fresh)).1 ≠ .raised e := by
  have h := enable_below_range calm stray (World.start fresh) (by decide)
  refine ⟨rfl, ?_, ?_⟩
  · rw [h]
    rfl
  · intro e
    rw [h]
    simp

/-- C10: for a signal number `s` in `[0, NSIG)`: on an empty slot `disable(s)`
leaves the whole state as it is, so that it calls no `sigaction`; it ends normally
with the slot empty; `disable(s)` twice leaves the state of `disable(s)` once. For
no number does `disable` raise. -/
theorem disable_idempotent (σ : Sys) (w : World) (s : Int)
    (h0 : 0 ≤ s) (h1 : s < σ.NSIG) :
    (w._s_handler s.toNat = none → signal.controller.disable σ s w = (.ok (), w)) ∧
    (signal.controller.disable σ s w).1 = .ok () ∧
    (signal.controller.disable σ s w).2._s_handler s.toNat = none ∧
    (signal.controller.disable σ s >>= fun _ => signal.controller.disable σ s) w
      = signal.controller.disable σ s w ∧
    ∀ (t : Int) (w1 : World) (e : Exception), (signal.controller.disable σ t w1).1 ≠ .raised e := by
  have hr : 0 ≤ s ∧ s < signal.controller.count σ := ⟨h0, h1⟩
  have hempty : ∀ w1 : World, w1._s_handler s.toNat = none →
      signal.controller.disable σ s w1 = (.ok (), w1) := by
    intro w1 hn
    simp [signal.controller.disable, bind_apply, signal.controller.load, hr, hn, pure_apply]
  have hslot : (signal.controller.disable σ s w).1 = .ok () ∧
      (signal.controller.disable σ s w).2._s_handler s.toNat = none := by
    rcases hn : w._s_handler s.toNat with _ | h
    · rw [hempty w hn]
      exact ⟨rfl, hn⟩
    · simp [signal.controller.disable, bind_apply, signal.controller.load, hr, hn, ask, emit,
        signal.controller.store]
  refine ⟨hempty w, hslot.1, hslot.2, ?_, ?_⟩
  · rcases hd : signal.controller.disable σ s w with ⟨o, w1⟩
    rw [hd] at hslot
    obtain ⟨ho, hw⟩ := hslot
    simp only at ho hw
    subst ho
    rw [bind_apply, hd]
    exact hempty w1 hw
  · intro t w1 e
    by_cases ht : 0 ≤ t ∧ t < signal.controller.count σ
    · rcases hn : w1._s_handler t.toNat with _ | h
      · simp [signal.controller.disable, bind_apply, signal.controller.load, ht, hn, pure_apply]
      · simp [signal.controller.disable, bind_apply, signal.controller.load, ht, hn, ask, emit,
          signal.controller.store]
    · simp [signal.controller.disable, bind_apply, signal.controller.load, ht]

/-- Witness of C10: `SIGCHLD` in the environment `calm`, no handler installed. -/
theorem disable_idempotent_witness :
    (0 : Int) ≤ 17 ∧ (17 : Int) < calm.NSIG ∧
    (signal.controller.disable calm 17 (World.start fresh)).1 = .ok () ∧
    (signal.controller.disable calm 17 (World.start fresh)).2.trace = [] :=
  have h := disable_idempotent calm (World.start fresh) 17 (by decide) (by decide)
  ⟨by decide, by decide, h.2.1, by rw [h.1 rfl]; rfl⟩

/-! ## Replacing a handler (C11) -/

theorem disposition_append (d0 : SigAction) (s : Int) (h1 h2 : List Event) :
    disposition d0 s (h1 ++ h2) = disposition (disposition d0 s h1) s h2 := by
  simp [disposition, List.foldl_append]

/-- The loop of `enable` over the table reads it only; it ends normally when
`sigaddset` accepts every populated slot. -/
theorem fill_set_ok (σ : Sys) (w : World) (l : List Nat) (mask : Sigset)
    (hl : ∀ i ∈ l, i < σ.NSIG)
    (hadd : ∀ i ∈ l, w._s_handler i ≠ none → σ.sigaddset_errno i = none) :
    ∃ m, signal.controller.fill_set σ l mask w = (.ok m, w) := by
  induction l generalizing mask with
  | nil => exact ⟨mask, rfl⟩
  | cons i rest ih =>
    have hi : i < σ.NSIG := hl i (List.mem_cons_self _ _)
    have hr : (0 : Int) ≤ (i : Int) ∧ (i : Int) < signal.controller.count σ := by
      simp only [signal.controller.count]
      omega
    have ih1 := fun mask => ih mask (fun j hj => hl j (List.mem_cons_of_mem _ hj))
      (fun j hj => hadd j (List.mem_cons_of_mem _ hj))
    rcases hs : w._s_handler i with _ | x
    · obtain ⟨m, hm⟩ := ih1 mask
      refine ⟨m, ?_⟩
      simp [signal.controller.fill_set, bind_apply, signal.controller.load, hr, hs, hm]
    · have ha := hadd i (List.mem_cons_self _ _) (by simp [hs])
      obtain ⟨m, hm⟩ := ih1 (mask ||| 2 ^ i)
      refine ⟨m, ?_⟩
      simp [signal.controller.fill_set, bind_apply, signal.controller.load, hr, hs, ha, hm]

/-- What a successful `enable` does: it deletes what the slot held, stores the
handler, and `sigaction` saves the previous disposition in the stored handler. -/
theorem enable_ok (σ : Sys) (w : World) (h : signal.handler)
    (h0 : 0 ≤ h._id) (h1 : h._id < σ.NSIG)
    (hadd : ∀ i : Nat, i < σ.NSIG → (i = h._id.toNat ∨ w._s_handler i ≠ none) →
      σ.sigaddset_errno i = none)
    (hsa : ∀ t act, (σ.sigaction t h._id act).1.val = 0) :
    ∃ m, signal.controller.enable σ (some h) w = (.ok (),
      { w with
        _s_handler := Function.update w._s_handler h._id.toNat (some { h with
          _old_action := (σ.sigaction (w.trace ++ disposal (w._s_handler h._id.toNat)) h._id
            (trampoline h m)).2 })
        trace := w.trace ++ disposal (w._s_handler h._id.toNat)
          ++ [.sys (.sigaction h._id (trampoline h m))] }) := by
  have hr : 0 ≤ h._id ∧ h._id < signal.controller.count σ := ⟨h0, h1⟩
  have hc : ¬ signal.controller.count σ ≤ h._id := by
    simp only [signal.controller.count]
    omega
  have hfill : ∀ w1 : World, w1._s_handler = Function.update w._s_handler h._id.toNat (some h) →
      ∃ m, signal.controller.fill_set σ (List.range σ.NSIG) sigemptyset w1 = (.ok m, w1) := by
    intro w1 hw1
    apply fill_set_ok
    · intro i hi
      exact List.mem_range.mp hi
    · intro i hi hne
      apply hadd i (List.mem_range.mp hi)
      by_cases hi : i = h._id.toNat
      · exact Or.inl hi
      · right
        rw [hw1, Function.update_noteq hi] at hne
        exact hne
  rcases hs : w._s_handler h._id.toNat with _ | x
  · obtain ⟨m, hm⟩ := hfill { w with
      _s_handler := Function.update w._s_handler h._id.toNat (some h) } rfl
    refine ⟨m, ?_⟩
    have hz := hsa w.trace (trampoline h m)
    simp only [trampoline] at hz
    simp [signal.controller.enable, bind_apply, raise, hc, signal.controller.load, hr, hs,
      pure_apply, signal.controller.store, hm, ask, disposal, trampoline, hz]
  · obtain ⟨m, hm⟩ := hfill { w with
      _s_handler := Function.update w._s_handler h._id.toNat (some h)
      trace := w.trace ++ [.deleted x] } rfl
    refine ⟨m, ?_⟩
    have hz := hsa (w.trace ++ [.deleted x]) (trampoline h m)
    simp only [trampoline] at hz
    simp [signal.controller.enable, bind_apply, raise, hc, signal.controller.load, hr, hs,
      pure_apply, signal.controller.store, hm, ask, disposal, trampoline, hz, emit]

/-- What `disable` does on a populated slot. -/
theorem disable_populated (σ : Sys) (w : World) (s : Int) (x : signal.handler)
    (h0 : 0 ≤ s) (h1 : s < σ.NSIG) (hs : w._s_handler s.toNat = some x) :
    signal.controller.disable σ s w = (.ok (),
      { w with
        _s_handler := Function.update w._s_handler s.toNat none
        trace := w.trace ++ [.sys (.sigaction s x._old_action), .deleted x] }) := by
  have hr : 0 ≤ s ∧ s < signal.controller.count σ := ⟨h0, h1⟩
  simp [signal.controller.disable, bind_apply, signal.controller.load, hr, hs, ask, emit,
    signal.controller.store]

theorem disposition_deleted (d0 : SigAction) (s : Int) (h : List Event) (x : signal.handler) :
    disposition d0 s (h ++ [.deleted x]) = disposition d0 s h := by
  simp [disposition, List.foldl_append]

theorem disposition_set (d0 : SigAction) (s : Int) (h : List Event) (act : SigAction) :
    disposition d0 s (h ++ [.sys (.sigaction s act)]) = act := by
  simp [disposition, List.foldl_append]

theorem deletions_disposal (o : Nat) (slot : Option signal.handler)
    (h : ∀ x, slot = some x → x.object ≠ o) : deletions o (disposal slot) = 0 := by
  cases slot with
  | none => rfl
  | some x => simp [deletions, disposal, h x rfl]

/-- C11: for a signal `s` on which `sigaction` succeeds, reporting the disposition
in force: `enable(A)` then `enable(B)` with `A.id = B.id = s` end normally, slot `s`
then holds `B` with the disposition in force immediately before `enable(B)` saved in
it, and `A` has been deleted exactly once; `disable(s)` after them ends normally,
sets the disposition of `s` to that saved one, deletes `B` once and leaves slot `s`
empty. -/
theorem enable_replaces (σ : Sys) (w : World) (A B : signal.handler) (s : Int) (d0 : SigAction)
    (h0 : 0 ≤ s) (h1 : s < σ.NSIG) (hA : A._id = s) (hB : B._id = s)
    (hadd : ∀ i : Nat, i < σ.NSIG → (i = s.toNat ∨ w._s_handler i ≠ none) →
      σ.sigaddset_errno i = none)
    (hsa : ∀ t act, σ.sigaction t s act = (Ret.success, disposition d0 s t))
    (hnew : ∀ x, w._s_handler s.toNat = some x → x.object ≠ A.object) :
    let w1 := (signal.controller.enable σ (some A) w).2
    let w2 := (signal.controller.enable σ (some B) w1).2
    let w3 := (signal.controller.disable σ s w2).2
    (signal.controller.enable σ (some A) w).1 = .ok () ∧
    (signal.controller.enable σ (some B) w1).1 = .ok () ∧
    w2._s_handler s.toNat = some { B with _old_action := disposition d0 s w1.trace } ∧
    deletions A.object (new_events w w2) = 1 ∧
    (signal.controller.disable σ s w2).1 = .ok () ∧
    disposition d0 s w3.trace = disposition d0 s w1.trace ∧
    deletions B.object (new_events w2 w3) = 1 ∧
    w3._s_handler s.toNat = none := by
  intro w1 w2 w3
  subst hA
  have hsa0 : ∀ t act, (σ.sigaction t A._id act).1.val = 0 := by
    intro t act
    rw [hsa]
    rfl
  obtain ⟨mA, eA⟩ := enable_ok σ w A h0 h1 hadd hsa0
  have e1 : w1 = { w with
      _s_handler := Function.update w._s_handler A._id.toNat (some { A with
        _old_action := disposition d0 A._id (w.trace ++ disposal (w._s_handler A._id.toNat)) })
      trace := w.trace ++ disposal (w._s_handler A._id.toNat)
        ++ [.sys (.sigaction A._id (trampoline A mA))] } := by
    show (signal.controller.enable σ (some A) w).2 = _
    rw [eA]
    simp only [hsa]
  have hadd1 : ∀ i : Nat, i < σ.NSIG → (i = B._id.toNat ∨ w1._s_handler i ≠ none) →
      σ.sigaddset_errno i = none := by
    intro i hi hor
    apply hadd i hi
    rw [hB] at hor
    rcases hor with h | h
    · exact Or.inl h
    · by_cases hi : i = A._id.toNat
      · exact Or.inl hi
      · right
        rw [e1] at h
        simpa [Function.update_noteq hi] using h
  obtain ⟨mB, eB⟩ := enable_ok σ w1 B (hB ▸ h0) (hB ▸ h1) hadd1 (hB ▸ hsa0)
  have hslot1 : w1._s_handler A._id.toNat = some { A with
      _old_action := disposition d0 A._id (w.trace ++ disposal (w._s_handler A._id.toNat)) } := by
    rw [e1]
    simp
  have e2 : w2 = { w1 with
      _s_handler := Function.update w1._s_handler A._id.toNat (some { B with
        _old_action := disposition d0 A._id w1.trace })
      trace := w1.trace ++ [.deleted { A with
        _old_action := disposition d0 A._id (w.trace ++ disposal (w._s_handler A._id.toNat)) },
        .sys (.sigaction A._id (trampoline B mB))] } := by
    show (signal.controller.enable σ (some B) w1).2 = _
    rw [eB]
    simp only [hB, hslot1, disposal, hsa, disposition_deleted, List.append_assoc,
      List.singleton_append]
  have hslot2 : w2._s_handler A._id.toNat
      = some { B with _old_action := disposition d0 A._id w1.trace } := by
    rw [e2]
    simp
  have eD := disable_populated σ w2 A._id _ h0 h1 hslot2
  have e3 : w3 = { w2 with
      _s_handler := Function.update w2._s_handler A._id.toNat none
      trace := w2.trace ++ [.sys (.sigaction A._id (disposition d0 A._id w1.trace)),
        .deleted { B with _old_action := disposition d0 A._id w1.trace }] } := by
    show (signal.controller.disable σ A._id w2).2 = _
    rw [eD]
  refine ⟨by rw [eA], by rw [eB], hslot2, ?_, by rw [eD], ?_, ?_, ?_⟩
  · have hn : new_events w w2 = (disposal (w._s_handler A._id.toNat)
        ++ [.sys (.sigaction A._id (trampoline A mA))]) ++ [.deleted { A with
          _old_action := disposition d0 A._id (w.trace ++ disposal (w._s_handler A._id.toNat)) },
          .sys (.sigaction A._id (trampoline B mB))] := by
      simp only [new_events, e2, e1, List.append_assoc, List.drop_left]
    rw [hn]
    have hd := deletions_disposal A.object _ hnew
    simp only [deletions] at hd ⊢
    simp [List.countP_append, hd]
  · rw [e3]
    have : w2.trace ++ [.sys (.sigaction A._id (disposition d0 A._id w1.trace)),
        .deleted { B with _old_action := disposition d0 A._id w1.trace }]
        = (w2.trace ++ [.sys (.sigaction A._id (disposition d0 A._id w1.trace))])
          ++ [.deleted { B with _old_action := disposition d0 A._id w1.trace }] := by simp
    simp only [this, disposition_deleted, disposition_set]
  · have hn : new_events w2 w3 = [.sys (.sigaction A._id (disposition d0 A._id w1.trace)),
        .deleted { B with _old_action := disposition d0 A._id w1.trace }] := by
      simp only [new_events, e3, List.drop_left]
    rw [hn]
    simp [deletions]
  · rw [e3]
    simp

theorem kernel_accepts_usr1 : ∀ i : Nat, i < kernel.NSIG →
    (i = (10 : Int).toNat ∨ (World.start fresh)._s_handler i ≠ none) →
    kernel.sigaddset_errno i = none := by
  intro i _ h
  rcases h with rfl | h
  · rfl
  · exact absurd rfl h

/-- Witness of C11: two handlers for `SIGUSR1` on an empty table. -/
theorem enable_replaces_witness :
    (0 : Int) ≤ 10 ∧ (10 : Int) < kernel.NSIG ∧ first_usr1._id = 10 ∧ second_usr1._id = 10 ∧
    (∀ t act, kernel.sigaction t 10 act = (Ret.success, disposition SigAction.default 10 t)) ∧
    deletions first_usr1.object (new_events (World.start fresh)
      (signal.controller.enable kernel (some second_usr1)
        (signal.controller.enable kernel (some first_usr1) (World.start fresh)).2).2) = 1 :=
  ⟨by decide, by decide, rfl, rfl, fun _ _ => rfl,
    (enable_replaces kernel (World.start fresh) first_usr1 second_usr1 10 SigAction.default
      (by decide) (by decide) rfl rfl kernel_accepts_usr1 (fun _ _ => rfl)
      (fun x hx => by cases hx)).2.2.2.1⟩

/-! ## Dispatch and counters (C12) -/

/-- One run of the trampoline on a populated slot. -/
theorem callback_populated (σ : Sys) (w : World) (s : Int) (h : signal.handler)
    (h0 : 0 ≤ s) (h1 : s < σ.NSIG) (hs : w._s_handler s.toNat = some h) :
    signal.controller.__signal_callback σ s w = (.ok (),
      { w with
        _s_stat := Function.update w._s_stat s.toNat
          { w._s_stat s.toNat with call_count := ((w._s_stat s.toNat).call_count + 1) % 2 ^ 64 }
        trace := w.trace ++ [.dispatched h s] }) := by
  have hr : 0 ≤ s ∧ s < signal.controller.count σ := ⟨h0, h1⟩
  simp [signal.controller.__signal_callback, bind_apply, signal.controller.load, hr, hs, emit,
    signal.controller.get_stat, signal.controller.store_stat]

/-- One run of the trampoline on an empty slot. -/
theorem callback_empty (σ : Sys) (w : World) (s : Int)
    (h0 : 0 ≤ s) (h1 : s < σ.NSIG) (hs : w._s_handler s.toNat = none) :
    signal.controller.__signal_callback σ s w = (.ok (),
      { w with
        _s_stat := Function.update w._s_stat s.toNat
          { w._s_stat s.toNat with
            error_count := ((w._s_stat s.toNat).error_count + 1) % 2 ^ 64 } }) := by
  have hr : 0 ≤ s ∧ s < signal.controller.count σ := ⟨h0, h1⟩
  simp [signal.controller.__signal_callback, bind_apply, signal.controller.load, hr, hs,
    signal.controller.get_stat, signal.controller.store_stat]

/-- The state after `n` deliveries to a populated slot whose counter does not wrap. -/
theorem deliver_populated (σ : Sys) (s : Int) (h : signal.handler)
    (h0 : 0 ≤ s) (h1 : s < σ.NSIG) (n : Nat) (w : World)
    (hs : w._s_handler s.toNat = some h)
    (hn : (w._s_stat s.toNat).call_count + n < 2 ^ 64) :
    deliver σ s n w = (.ok (),
      { w with
        _s_stat := Function.update w._s_stat s.toNat
          { w._s_stat s.toNat with call_count := (w._s_stat s.toNat).call_count + n }
        trace := w.trace ++ List.replicate n (.dispatched h s) }) := by
  induction n generalizing w with
  | zero =>
    simp [deliver, pure_apply]
  | succ n ih =>
    have hlt : (w._s_stat s.toNat).call_count + 1 < 2 ^ 64 := by omega
    rw [deliver, bind_apply, callback_populated σ w s h h0 h1 hs]
    simp only
    have hstep := ih { w with
        _s_stat := Function.update w._s_stat s.toNat
          { w._s_stat s.toNat with call_count := ((w._s_stat s.toNat).call_count + 1) % 2 ^ 64 }
        trace := w.trace ++ [.dispatched h s] } hs
      (by simp [Nat.mod_eq_of_lt hlt]; omega)
    rw [hstep]
    simp only [Function.update_same, Function.update_idem, Nat.mod_eq_of_lt hlt,
      List.replicate_succ, List.append_assoc, List.singleton_append, Nat.add_assoc,
      Nat.add_comm 1 n]

/-- C12: for a signal `s` in `[0, NSIG)` whose counters are zero, and `n` within
the range of the counters: `n` runs of the trampoline while slot `s` holds a handler
invoke that handler `n` times and nothing else, and leave `get_stat(s)` with
`call_count = n` and `error_count = 0`; a run while slot `s` is empty invokes
nothing, adds one to `error_count` and leaves `call_count`; the counters of every
other signal and the handler table are unchanged. -/
theorem signal_counts (σ : Sys) (w : World) (s : Int) (n : Nat)
    (h0 : 0 ≤ s) (h1 : s < σ.NSIG)
    (hzero : w._s_stat s.toNat = ⟨0, 0⟩) (hn : n < 2 ^ 64) :
    (∀ h, w._s_handler s.toNat = some h →
      (deliver σ s n w).1 = .ok () ∧
      (deliver σ s n w).2.trace = w.trace ++ List.replicate n (.dispatched h s) ∧
      (signal.controller.get_stat σ s (deliver σ s n w).2).1 = .ok ⟨n, 0⟩ ∧
      (∀ t, t ≠ s.toNat → (deliver σ s n w).2._s_stat t = w._s_stat t) ∧
      (deliver σ s n w).2._s_handler = w._s_handler) ∧
    (∀ w1 : World, w1._s_handler s.toNat = none →
      (w1._s_stat s.toNat).error_count + 1 < 2 ^ 64 →
      (signal.controller.__signal_callback σ s w1).1 = .ok () ∧
      (signal.controller.__signal_callback σ s w1).2.trace = w1.trace ∧
      (signal.controller.get_stat σ s (signal.controller.__signal_callback σ s w1).2).1
        = .ok ⟨(w1._s_stat s.toNat).call_count, (w1._s_stat s.toNat).error_count + 1⟩ ∧
      (∀ t, t ≠ s.toNat →
        (signal.controller.__signal_callback σ s w1).2._s_stat t = w1._s_stat t) ∧
      (signal.controller.__signal_callback σ s w1).2._s_handler = w1._s_handler) := by
  have hr : 0 ≤ s ∧ s < signal.controller.count σ := ⟨h0, h1⟩
  constructor
  · intro h hs
    rw [deliver_populated σ s h h0 h1 n w hs (by rw [hzero]; simpa using hn)]
    refine ⟨rfl, rfl, ?_, ?_, rfl⟩
    · simp [signal.controller.get_stat, hr, hzero]
    · intro t ht
      simp [Function.update_noteq ht]
  · intro w1 hs he
    rw [callback_empty σ w1 s h0 h1 hs]
    refine ⟨rfl, rfl, ?_, ?_, rfl⟩
    · simp only [signal.controller.get_stat, hr, Nat.mod_eq_of_lt he, and_self, if_true,
        Function.update_same]
    · intro t ht
      simp [Function.update_noteq ht]

/-- Witness of C12: three deliveries of `SIGUSR1` to the handler `first_usr1`. -/
theorem signal_counts_witness :
    (0 : Int) ≤ 10 ∧ (10 : Int) < calm.NSIG ∧
    (deliver calm 10 3 { World.start fresh with
      _s_handler := fun i => if i = 10 then some first_usr1 else none }).2._s_stat 10 = ⟨3, 0⟩ := by
  have h := (signal_counts calm { World.start fresh with
      _s_handler := fun i => if i = 10 then some first_usr1 else none } 10 3
      (by decide) (by decide) rfl (by decide)).1 first_usr1 rfl
  refine ⟨by decide, by decide, ?_⟩
  have h3 := h.2.2.1
  simp only [signal.controller.get_stat] at h3
  rw [if_pos (by decide)] at h3
  exact Outcome.ok.inj h3

/-! ## Blocking and unblocking one signal (C13) -/

theorem sigmask_append (m0 : Sigset) (h1 h2 : List Event) :
    sigmask m0 (h1 ++ h2) = sigmask (sigmask m0 h1) h2 := by
  simp [sigmask, List.foldl_append]

theorem unblock_superset (m b : Nat) : m ^^^ (m &&& (m ||| b)) = 0 := by
  apply Nat.eq_of_testBit_eq
  intro i
  simp only [Nat.testBit_xor, Nat.testBit_and, Nat.testBit_or, Nat.zero_testBit]
  cases m.testBit i <;> cases b.testBit i <;> rfl

theorem or_superset (m b : Nat) : m ||| (m ||| b) = m ||| b := by
  apply Nat.eq_of_testBit_eq
  intro i
  simp only [Nat.testBit_or]
  cases m.testBit i <;> cases b.testBit i <;> rfl

/-- What the two-argument `__lock` does under a faithful `sigprocmask`, for a
signal number below `count` that `sigaddset` accepts: it reads the mask in force,
adds the signal to that set, and hands the whole set to `sigprocmask`. -/
theorem lock_id_ok (σ : Sys) (m0 : Sigset) (w : World) (b : Bool) (s : Int)
    (h1 : s < σ.NSIG) (hadd : σ.sigaddset_errno s = none)
    (hmask : ∀ h how set, σ.sigprocmask h how set = (Ret.success, sigmask m0 h)) :
    signal.controller.__lock_id σ b s w = (.ok (),
      { w with trace := w.trace
          ++ [.sys (.sigprocmask (if b then SIG_BLOCK else SIG_UNBLOCK) none),
              .sys (.sigprocmask (if b then SIG_BLOCK else SIG_UNBLOCK)
                (some (sigmask m0 w.trace ||| 2 ^ s.toNat)))] }) := by
  have hc : s < signal.controller.count σ := h1
  have hz : Ret.success.val = 0 := rfl
  cases b <;>
    simp [signal.controller.__lock_id, bind_apply, ask, hc, hmask, hadd, raise, pure_apply, hz]

/-- Under a faithful `sigprocmask`, `lock(s)` leaves the mask with `s` added. -/
theorem lock_id_mask (σ : Sys) (m0 : Sigset) (w : World) (s : Int)
    (h1 : s < σ.NSIG) (hadd : σ.sigaddset_errno s = none)
    (hmask : ∀ h how set, σ.sigprocmask h how set = (Ret.success, sigmask m0 h)) :
    (signal.controller.lock_id σ s w).1 = .ok () ∧
    sigmask m0 (signal.controller.lock_id σ s w).2.trace
      = sigmask m0 w.trace ||| 2 ^ s.toNat := by
  rw [signal.controller.lock_id, lock_id_ok σ m0 w true s h1 hadd hmask]
  refine ⟨rfl, ?_⟩
  simp only [sigmask_append]
  generalize sigmask m0 w.trace = m
  simp [sigmask, sigmask_apply, SIG_BLOCK, or_superset]

/-- Under a faithful `sigprocmask`, `release(s)` leaves the empty mask, whatever
the mask was. -/
theorem release_id_mask (σ : Sys) (m0 : Sigset) (w : World) (s : Int)
    (h1 : s < σ.NSIG) (hadd : σ.sigaddset_errno s = none)
    (hmask : ∀ h how set, σ.sigprocmask h how set = (Ret.success, sigmask m0 h)) :
    (signal.controller.release_id σ s w).1 = .ok () ∧
    sigmask m0 (signal.controller.release_id σ s w).2.trace = 0 := by
  rw [signal.controller.release_id, lock_id_ok σ m0 w false s h1 hadd hmask]
  refine ⟨rfl, ?_⟩
  simp only [sigmask_append]
  generalize sigmask m0 w.trace = m
  simp [sigmask, sigmask_apply, SIG_BLOCK, SIG_UNBLOCK, unblock_superset]

/-- For a signal number of `count` or more, `lock` and `release` raise
`invalid_argument` and call nothing. -/
theorem lock_id_above_range (σ : Sys) (w : World) (b : Bool) (s : Int)
    (h1 : (σ.NSIG : Int) ≤ s) :
    signal.controller.__lock_id σ b s w
      = (.raised (errc_invalid_argument (signal.controller.wrong_signal_code σ s)), w) := by
  have hc : ¬ s < signal.controller.count σ := by
    simp only [signal.controller.count]
    omega
  simp [signal.controller.__lock_id, bind_apply, hc, raise]

/-- C13 at the failing input: with `SIGHUP` (1) and `SIGINT` (2) blocked,
`release(2)` ends normally and leaves the empty mask: `SIGHUP` is unblocked too. -/
theorem release_unblocks_others :
    Sigset.mem 6 1 = true ∧ Sigset.mem 6 2 = true ∧
    (signal.controller.release_id (masked 6) 2 (World.start fresh)).1 = .ok () ∧
    sigmask 6 (signal.controller.release_id (masked 6) 2 (World.start fresh)).2.trace = 0 ∧
    Sigset.mem
      (sigmask 6 (signal.controller.release_id (masked 6) 2 (World.start fresh)).2.trace) 1
      = false := by
  decide!

/-! ## Names and ids (C14) -/

/-- The member `set` on `user` runs `name_to_user_id` first and assigns when it
returns. -/
theorem set_user_eval (σ : Sys) (w : World) (n : Str) :
    process.set σ .user n w =
      match credentials.name_to_user_id σ n w with
      | (.ok u, w1) => (log_trace LOG_DEBUG "Set user name to \"%s\" (id: %u)")
          { w1 with self := { w1.self with _uid := u, _user := n } }
      | (.raised e, w1) => (.raised e, w1)
      | (.undefined f, w1) => (.undefined f, w1) := by
  simp only [process.set, bind_apply]
  simp only [reduceCtorEq, if_false, if_true, bind_apply]
  rcases credentials.name_to_user_id σ n w with ⟨o, w1⟩
  cases o <;> simp [process.assign, bind_apply]

/-- The member `set` on `group` runs `name_to_group_id` first and assigns when it
returns. -/
theorem set_group_eval (σ : Sys) (w : World) (n : Str) :
    process.set σ .group n w =
      match credentials.name_to_group_id σ n w with
      | (.ok g, w1) => (log_trace LOG_DEBUG "Set group name to \"%s\" (id: %u)")
          { w1 with self := { w1.self with _gid := g, _group := n } }
      | (.raised e, w1) => (.raised e, w1)
      | (.undefined f, w1) => (.undefined f, w1) := by
  simp only [process.set, bind_apply]
  simp only [reduceCtorEq, if_false, if_true, bind_apply]
  rcases credentials.name_to_group_id σ n w with ⟨o, w1⟩
  cases o <;> simp [process.assign, bind_apply]

theorem quiet_name_to_user_id (σ : Sys) (n : Str) :
    Keeps Event.quiet (credentials.name_to_user_id σ n) := by
  unfold credentials.name_to_user_id
  repeat' first
    | with_reducible exact keeps_raise_bind _ _ _
    | with_reducible exact keeps_pure _ _
    | with_reducible exact keeps_raise _ _
    | with_reducible apply keeps_ask
    | with_reducible apply keeps_bind
    | with_reducible apply keeps_ite
    | intro _
    | split
    | rfl

theorem quiet_name_to_group_id (σ : Sys) (n : Str) :
    Keeps Event.quiet (credentials.name_to_group_id σ n) := by
  unfold credentials.name_to_group_id
  repeat' first
    | with_reducible exact keeps_raise_bind _ _ _
    | with_reducible exact keeps_pure _ _
    | with_reducible exact keeps_raise _ _
    | with_reducible apply keeps_ask
    | with_reducible apply keeps_bind
    | with_reducible apply keeps_ite
    | intro _
    | split
    | rfl

theorem log_trace_self (n : Nat) (s : String) (w : World) :
    (log_trace n s w).2.self = w.self :=
  ((keeps_log_trace (fun _ => true) n s (fun _ => rfl)).keeps w).1

/-- A name the user database does not know makes `name_to_user_id` raise. -/
theorem name_to_user_id_unknown (σ : Sys) (w : World) (n : Str)
    (h : lookup_user σ w n = none) :
    ∃ e, (credentials.name_to_user_id σ n w).1 = .raised e := by
  unfold lookup_user at h
  unfold credentials.name_to_user_id
  rcases hf : σ.HAVE_PWNAM_R with _ | _
  · simp only [hf, Bool.false_eq_true, if_false] at h ⊢
    simp [bind_apply, ask, h, raise]
  · simp only [hf, if_true] at h ⊢
    by_cases hz : σ.sysconf w.trace = -1
    · simp [bind_apply, ask, hz, raise]
    · by_cases hr : (σ.getpwnam_r (w.trace ++ [.sys .sysconf]) (c_str n)).1.val = 0
      · simp [bind_apply, ask, hz, raise, pure_apply, hr, h]
      · simp [bind_apply, ask, hz, raise, pure_apply, hr]

/-- A name the group database does not know makes `name_to_group_id` raise. -/
theorem name_to_group_id_unknown (σ : Sys) (w : World) (n : Str)
    (h : lookup_group σ w n = none) :
    ∃ e, (credentials.name_to_group_id σ n w).1 = .raised e := by
  unfold lookup_group at h
  unfold credentials.name_to_group_id
  rcases hf : σ.HAVE_GRNAM_R with _ | _
  · simp only [hf, Bool.false_eq_true, if_false] at h ⊢
    simp [bind_apply, ask, h, raise]
  · simp only [hf, if_true] at h ⊢
    by_cases hz : σ.sysconf w.trace = -1
    · simp [bind_apply, ask, hz, raise]
    · by_cases hr : (σ.getgrnam_r (w.trace ++ [.sys .sysconf]) (c_str n)).1.val = 0
      · simp [bind_apply, ask, hz, raise, pure_apply, hr, h]
      · simp [bind_apply, ask, hz, raise, pure_apply, hr]

/-- The member `set` on a property other than `user` and `group` leaves the
stored names and ids of both. -/
theorem set_other (σ : Sys) (w : World) (p : property) (v : Str)
    (hu : p ≠ .user) (hg : p ≠ .group) :
    (process.set σ p v w).2.self._user = w.self._user ∧
    (process.set σ p v w).2.self._uid = w.self._uid ∧
    (process.set σ p v w).2.self._group = w.self._group ∧
    (process.set σ p v w).2.self._gid = w.self._gid := by
  cases p <;>
    first
    | exact absurd rfl hu
    | exact absurd rfl hg
    | simp [process.set, bind_apply, process.assign, log_trace_self, pure_apply]

/-- One `set` call keeps the correspondence of names and ids. -/
theorem set_corresponds (σ : Sys) (hs : steady σ) (w : World) (p : property) (v : Str)
    (hc : corresponds σ w.self) : corresponds σ (process.set σ p v w).2.self := by
  by_cases hu : p = .user
  · subst hu
    rw [set_user_eval]
    have hk := ((quiet_name_to_user_id σ v).keeps w).1
    rcases hl : credentials.name_to_user_id σ v w with ⟨o, w1⟩
    rw [hl] at hk
    simp only at hk
    cases o with
    | ok u =>
      simp only [log_trace_self]
      intro w2
      refine ⟨?_, ?_⟩
      · rw [(hs v w2 w).1, hl]
      · rw [hk]
        exact (hc w2).2
    | raised e =>
      simp only
      rw [hk]
      exact hc
    | undefined f =>
      simp only
      rw [hk]
      exact hc
  · by_cases hg : p = .group
    · subst hg
      rw [set_group_eval]
      have hk := ((quiet_name_to_group_id σ v).keeps w).1
      rcases hl : credentials.name_to_group_id σ v w with ⟨o, w1⟩
      rw [hl] at hk
      simp only at hk
      cases o with
      | ok g =>
        simp only [log_trace_self]
        intro w2
        refine ⟨?_, ?_⟩
        · rw [hk]
          exact (hc w2).1
        · rw [(hs v w2 w).2, hl]
      | raised e =>
        simp only
        rw [hk]
        exact hc
      | undefined f =>
        simp only
        rw [hk]
        exact hc
    · obtain ⟨h1, h2, h3, h4⟩ := set_other σ w p v hu hg
      intro w2
      rw [h1, h2, h3, h4]
      exact hc w2

theorem set_each_corresponds (σ : Sys) (hs : steady σ) (calls : List (property × Str))
    (w : World) (hc : corresponds σ w.self) : corresponds σ (set_each σ calls w).self := by
  induction calls generalizing w with
  | nil => exact hc
  | cons c rest ih => exact ih _ (set_corresponds σ hs w c.1 c.2 hc)

/-- C14: when the databases do not change and the stored names and ids
correspond: `set(user, n)` raises for a name the user database does not know;
whenever it raises, the stored user name and uid are as before; when
`name_to_user_id(n)` returns `u`, it ends normally, `get(user)` is `n` and the
stored uid is `u`; the same holds for `group` with the group name and gid; and
after any sequence of `set` calls the stored names and ids correspond. -/
theorem set_keeps_names (σ : Sys) (w : World) (n : Str)
    (hs : steady σ) (hc : corresponds σ w.self) :
    (lookup_user σ w n = none → ∃ e, (process.set σ .user n w).1 = .raised e) ∧
    (∀ e, (process.set σ .user n w).1 = .raised e →
      (process.set σ .user n w).2.self = w.self) ∧
    (∀ u, (credentials.name_to_user_id σ n w).1 = .ok u →
      (process.set σ .user n w).1 = .ok () ∧
      process.get (process.set σ .user n w).2.self .user = some n ∧
      (process.set σ .user n w).2.self._uid = u) ∧
    (lookup_group σ w n = none → ∃ e, (process.set σ .group n w).1 = .raised e) ∧
    (∀ e, (process.set σ .group n w).1 = .raised e →
      (process.set σ .group n w).2.self = w.self) ∧
    (∀ g, (credentials.name_to_group_id σ n w).1 = .ok g →
      (process.set σ .group n w).1 = .ok () ∧
      process.get (process.set σ .group n w).2.self .group = some n ∧
      (process.set σ .group n w).2.self._gid = g) ∧
    (∀ calls, corresponds σ (set_each σ calls w).self) := by
  have hku := ((quiet_name_to_user_id σ n).keeps w).1
  have hkg := ((quiet_name_to_group_id σ n).keeps w).1
  refine ⟨?_, ?_, ?_, ?_, ?_, ?_, fun calls => set_each_corresponds σ hs calls w hc⟩
  · intro h
    obtain ⟨e, he⟩ := name_to_user_id_unknown σ w n h
    refine ⟨e, ?_⟩
    rw [set_user_eval]
    rcases hl : credentials.name_to_user_id σ n w with ⟨o, w1⟩
    rw [hl] at he
    simp only at he
    subst he
    rfl
  · intro e he
    rw [set_user_eval] at he ⊢
    rcases hl : credentials.name_to_user_id σ n w with ⟨o, w1⟩
    rw [hl] at he hku
    cases o with
    | ok u =>
      simp only [log_trace_ok] at he
      cases he
    | raised x => exact hku
    | undefined f => exact hku
  · intro u hu
    rw [set_user_eval]
    rcases hl : credentials.name_to_user_id σ n w with ⟨o, w1⟩
    rw [hl] at hu
    simp only at hu
    subst hu
    simp only [log_trace_ok, log_trace_self, process.get]
    simp
  · intro h
    obtain ⟨e, he⟩ := name_to_group_id_unknown σ w n h
    refine ⟨e, ?_⟩
    rw [set_group_eval]
    rcases hl : credentials.name_to_group_id σ n w with ⟨o, w1⟩
    rw [hl] at he
    simp only at he
    subst he
    rfl
  · intro e he
    rw [set_group_eval] at he ⊢
    rcases hl : credentials.name_to_group_id σ n w with ⟨o, w1⟩
    rw [hl] at he hkg
    cases o with
    | ok u =>
      simp only [log_trace_ok] at he
      cases he
    | raised x => exact hkg
    | undefined f => exact hkg
  · intro g hg
    rw [set_group_eval]
    rcases hl : credentials.name_to_group_id σ n w with ⟨o, w1⟩
    rw [hl] at hg
    simp only at hg
    subst hg
    simp only [log_trace_ok, log_trace_self, process.get]
    simp

theorem steady_calm : steady calm := by
  intro n w w1
  constructor
  · simp only [credentials.name_to_user_id, calm, Bool.false_eq_true, if_false, bind_apply, ask]
    split <;> rfl
  · simp only [credentials.name_to_group_id, calm, Bool.false_eq_true, if_false, bind_apply, ask]
    split <;> rfl

/-- Witness of C14: the object `fresh` of root in the environment `calm`, and
the unknown name `nobody`. -/
theorem set_keeps_names_witness :
    steady calm ∧ corresponds calm (World.start fresh).self ∧
    lookup_user calm (World.start fresh) "nobody".toList = none ∧
    (∃ e, (process.set calm .user "nobody".toList (World.start fresh)).1 = .raised e) ∧
    (process.set calm .user "root".toList (World.start fresh)).2.self._uid = 0 :=
  have h := set_keeps_names calm (World.start fresh) "nobody".toList steady_calm
    (fun _ => ⟨rfl, rfl⟩)
  have h2 := set_keeps_names calm (World.start fresh) "root".toList steady_calm
    (fun _ => ⟨rfl, rfl⟩)
  ⟨steady_calm, fun _ => ⟨rfl, rfl⟩, rfl, h.1 rfl, (h2.2.2.1 0 rfl).2.2⟩

/-! ## The PID file read back (C15) -/

/-- On a PID file that reads as the decimal text of `p`, the PID-file check
calls `kill(p, 0)`. -/
theorem pid_file_check_kills (σ : Sys) (w : World) (p : Nat) (e : Nat)
    (hflag : w.self.__f_req_pid_file = true)
    (hopen : 0 ≤ (pid_fd σ w).val)
    (hread : pid_read σ w = (⟨(decimal p).length, e⟩, decimal p))
    (hp : p < 2 ^ 31) :
    Event.sys (.kill p 0) ∈ (process.pid_file_check σ w).2.trace := by
  have hlen : (decimal p).length < 64 := by
    have := decimal_length 9 (p + 1) p (by omega)
    unfold decimal
    omega
  obtain ⟨h1, -, -⟩ := decimal_fuel_spec (p + 1) p (Nat.lt_succ_self p)
  have hc := c_str_txt_buffer (decimal p) hlen fun c hc => (h1 c hc).2
  obtain ⟨hs1, hs2⟩ := strtol_decimal p (by unfold LONG_MAX; omega)
  have hw := wrap32_id p (by omega) (by exact_mod_cast hp)
  have hneg : ¬ ((decimal p).length : Int) < 0 := by omega
  have h64 : ¬ 64 ≤ (decimal p).length := by omega
  simp only [pid_read, pid_fd, read_history] at hread hopen
  rcases hs : w.self.__f_req_syslog with _ | _ <;> rcases ht : w.self.__f_trace with _ | _ <;>
    simp [process.pid_file_check, bind_apply, this, ask, log_trace, log_sys, sys, emit, raise,
      fault, pure_apply, hflag, hs, ht, hopen, hread, hc, hs1, hs2, hw, hlen, hneg, h64] <;>
    split_ifs <;>
    simp [bind_apply, this, emit, raise, pure_apply, hs, ht]

theorem to_string_pos (p : Nat) : to_string (p : Int) = decimal p := by
  unfold to_string
  simp

/-- C15: for a pid `p` with `0 < p` (a `pid_t`), when `__write_pid()` writes the
PID file, the one text it writes is the decimal text of `p`; `strtol` base 10 on
the buffer `__is_service_up()` fills from that text returns `p`; and the PID-file
check of an instance that reads the text calls `kill(p, 0)`. -/
theorem write_pid_read_back (σ : Sys) (w : World) (p : Nat)
    (hflag : w.self.__f_req_pid_file = true) (hpath : w.self._pid_path ≠ [])
    (hopen : ∀ h, ∃ f, σ.fopen h w.self._pid_path "w".toList = .ok f)
    (hpid : ∀ h, σ.getpid h = p)
    (hprint : ∀ h t, 0 ≤ (σ.fprintf h t).val)
    (hp0 : 0 < p) (hp1 : p < 2 ^ 31) :
    (process.__write_pid σ w).1 = .ok () ∧
    written (new_events w (process.__write_pid σ w).2) = [decimal p] ∧
    wrap32 (strtol (c_str (txt_buffer 64 (decimal p).length (decimal p)))) = p ∧
    (∀ (σ2 : Sys) (w2 : World) (e : Nat), w2.self.__f_req_pid_file = true →
      0 ≤ (pid_fd σ2 w2).val →
      pid_read σ2 w2 = (⟨(decimal p).length, e⟩, decimal p) →
      Event.sys (.kill p 0) ∈ (process.pid_file_check σ2 w2).2.trace) := by
  have hlen : (decimal p).length < 64 := by
    have := decimal_length 9 (p + 1) p (by omega)
    unfold decimal
    omega
  obtain ⟨h1, -, -⟩ := decimal_fuel_spec (p + 1) p (Nat.lt_succ_self p)
  have hc := c_str_txt_buffer (decimal p) hlen fun c hc => (h1 c hc).2
  obtain ⟨hs1, -⟩ := strtol_decimal p (by unfold LONG_MAX; omega)
  have hw := wrap32_id p (by omega) (by exact_mod_cast hp1)
  have hopen1 : ∀ h, ∃ f, σ.fopen h w.self._pid_path ['w'] = .ok f := hopen
  have hpr : ∀ h t, ¬ (σ.fprintf h t).val < 0 := fun h t => not_lt.mpr (hprint h t)
  refine ⟨?_, ?_, by rw [hc, hs1, hw], fun σ2 w2 e hf ho hr =>
    pid_file_check_kills σ2 w2 p e hf ho hr hp1⟩
  · rcases hs : w.self.__f_req_syslog with _ | _ <;> rcases ht : w.self.__f_trace with _ | _ <;>
      [obtain ⟨f, hf⟩ := hopen1 w.trace;
       obtain ⟨f, hf⟩ := hopen1 w.trace;
       obtain ⟨f, hf⟩ := hopen1 w.trace;
       obtain ⟨f, hf⟩ := hopen1 (w.trace ++ [.sys (.syslog LOG_INFO
         ['W', 'r', 'i', 't', 'i', 'n', 'g', ' ', 'P', 'I', 'D', ' ', 't', 'o', ' ', '%', 's',
          ' ', '.', '.', '.'])])] <;>
      simp [process.__write_pid, bind_apply, this, ask, log_trace, log_sys, sys, emit, raise,
        pure_apply, hflag, hpath, hs, ht, hf, hpid, hpr]
  · rcases hs : w.self.__f_req_syslog with _ | _ <;> rcases ht : w.self.__f_trace with _ | _ <;>
      [obtain ⟨f, hf⟩ := hopen1 w.trace;
       obtain ⟨f, hf⟩ := hopen1 w.trace;
       obtain ⟨f, hf⟩ := hopen1 w.trace;
       obtain ⟨f, hf⟩ := hopen1 (w.trace ++ [.sys (.syslog LOG_INFO
         ['W', 'r', 'i', 't', 'i', 'n', 'g', ' ', 'P', 'I', 'D', ' ', 't', 'o', ' ', '%', 's',
          ' ', '.', '.', '.'])])] <;>
      simp [process.__write_pid, bind_apply, this, ask, log_trace, log_sys, sys, emit, raise,
        pure_apply, hflag, hpath, hs, ht, hf, hpid, hpr, new_events, written, to_string_pos]

/-- Witness of C15: the object `fresh_pid` in the environment `calm`, whose pid is 100. -/
theorem write_pid_read_back_witness :
    (World.start fresh_pid).self.__f_req_pid_file = true ∧
    (World.start fresh_pid).self._pid_path ≠ [] ∧
    (∀ h, ∃ f, calm.fopen h (World.start fresh_pid).self._pid_path "w".toList = .ok f) ∧
    (∀ h, calm.getpid h = ((100 : Nat) : Int)) ∧
    (∀ h t, 0 ≤ (calm.fprintf h t).val) ∧
    0 < 100 ∧ 100 < 2 ^ 31 ∧
    written (new_events (World.start fresh_pid)
      (process.__write_pid calm (World.start fresh_pid)).2) = ["100".toList] :=
  ⟨rfl, by decide, fun _ => ⟨_, rfl⟩, fun _ => rfl, fun _ t => Int.ofNat_nonneg t.length,
    by decide, by decide,
    (write_pid_read_back calm (World.start fresh_pid) 100 rfl (by decide)
      (fun _ => ⟨_, rfl⟩) (fun _ => rfl) (fun _ t => Int.ofNat_nonneg t.length)
      (by decide) (by decide)).2.1⟩

/-! ## Creating a directory (C16) -/

theorem after_append (k : Caller) (d0 : Dirs) (h1 h2 : List Event) :
    k.after d0 (h1 ++ h2) = k.after (k.after d0 h1) h2 := by
  simp [Caller.after, List.foldl_append]

theorem after_snoc (k : Caller) (d0 : Dirs) (h : List Event) (e : Event) :
    k.after d0 (h ++ [e]) = k.step (k.after d0 h) e := by
  simp [Caller.after, List.foldl_append]

/-- Events other than `mkdir` and `chown` leave the directories. -/
theorem after_idle (k : Caller) (d0 : Dirs) (h l : List Event)
    (hl : ∀ e ∈ l, (∀ p m, e ≠ .sys (.mkdir p m)) ∧ (∀ p u g, e ≠ .sys (.chown p u g))) :
    k.after d0 (h ++ l) = k.after d0 h := by
  induction l generalizing h with
  | nil => simp
  | cons e rest ih =>
    have he := hl e (List.mem_cons_self _ _)
    have hstep : k.step (k.after d0 h) e = k.after d0 h := by
      unfold Caller.step
      split
      · exact absurd rfl (he.1 _ _)
      · exact absurd rfl (he.2 _ _ _)
      · rfl
    have : h ++ e :: rest = (h ++ [e]) ++ rest := by simp
    rw [this, ih (h ++ [e]) (fun x hx => hl x (List.mem_cons_of_mem _ hx)), after_snoc, hstep]

/-- What `create_directory` does on a directory that exists. -/
theorem create_directory_existing (k : Caller) (d0 : Dirs) (w : World) (p : Str)
    (uid gid : Nat) (x : Dir) (hx : k.after d0 w.trace p = some x) :
    (credentials.create_directory (on_disk k d0) p uid gid w).2.trace
      = w.trace ++ reconcile p uid gid x ∧
    ((x.st_uid = uid ∧ x.st_gid = gid) →
      (credentials.create_directory (on_disk k d0) p uid gid w).1 = .ok ()) := by
  have h1 : k.after d0 (w.trace ++ [.sys (.opendir p)]) p = some x := by
    rw [after_idle _ _ _ _ (by simp), hx]
  have h2 : k.after d0 (w.trace ++ [.sys (.opendir p), .sys (.fstat p), .sys .closedir]) p
      = some x := by
    rw [after_idle _ _ _ _ (by simp), hx]
  by_cases ho : x.st_uid ≠ uid ∨ x.st_gid ≠ gid
  · rcases hc : k.may_chown with _ | _ <;>
      simp [credentials.create_directory, on_disk, bind_apply, ask, sys, emit, pure_apply, raise,
        hx, h1, h2, stat_of, Ret.success, reconcile, ho, hc]
    all_goals tauto
  · simp [credentials.create_directory, on_disk, bind_apply, ask, sys, emit, pure_apply, raise,
      hx, h1, stat_of, Ret.success, reconcile, ho]

/-- What a successful `create_directory` leaves on a path that did not exist. -/
theorem create_directory_absent (k : Caller) (d0 : Dirs) (w : World) (p : Str)
    (uid gid : Nat) (hx : k.after d0 w.trace p = none)
    (hok : (credentials.create_directory (on_disk k d0) p uid gid w).1 = .ok ()) :
    k.after d0 (credentials.create_directory (on_disk k d0) p uid gid w).2.trace p
      = some ⟨0o755, uid, gid⟩ := by
  have h1 : k.after d0 (w.trace ++ [.sys (.opendir p)]) p = none := by
    rw [after_idle _ _ _ _ (by simp), hx]
  have hm : k.after d0 (w.trace ++ [.sys (.opendir p), .sys (.mkdir p 0o755)]) p
      = if k.may_mkdir p then some ⟨0o755, k.euid, k.egid⟩ else none := by
    have : w.trace ++ [.sys (.opendir p), .sys (.mkdir p 0o755)]
        = (w.trace ++ [.sys (.opendir p)]) ++ [.sys (.mkdir p 0o755)] := by simp
    rw [this, after_snoc]
    rcases hmk : k.may_mkdir p with _ | _ <;> simp [Caller.step, h1, hmk]
  have hs : k.after d0 (w.trace ++ [.sys (.opendir p), .sys (.mkdir p 0o755), .sys (.stat p)]) p
      = if k.may_mkdir p then some ⟨0o755, k.euid, k.egid⟩ else none := by
    have : w.trace ++ [.sys (.opendir p), .sys (.mkdir p 0o755), .sys (.stat p)]
        = (w.trace ++ [.sys (.opendir p), .sys (.mkdir p 0o755)]) ++ [.sys (.stat p)] := by simp
    rw [this, after_idle _ _ _ _ (by simp), hm]
  have hc : k.after d0 (w.trace ++ [.sys (.opendir p), .sys (.mkdir p 0o755), .sys (.stat p),
      .sys (.chown p uid gid)]) p
      = if k.may_mkdir p then
          (if k.may_chown then some ⟨0o755, uid, gid⟩ else some ⟨0o755, k.euid, k.egid⟩)
        else none := by
    have : w.trace ++ [.sys (.opendir p), .sys (.mkdir p 0o755), .sys (.stat p),
        .sys (.chown p uid gid)]
        = (w.trace ++ [.sys (.opendir p), .sys (.mkdir p 0o755), .sys (.stat p)])
          ++ [.sys (.chown p uid gid)] := by simp
    rw [this, after_snoc]
    rcases hmk : k.may_mkdir p with _ | _ <;> rcases hch : k.may_chown with _ | _ <;>
      simp [Caller.step, hs, hmk, hch]
  rcases hmk : k.may_mkdir p with _ | _
  · simp [credentials.create_directory, on_disk, bind_apply, ask, sys, emit, pure_apply, raise,
      hx, h1, hmk] at hok
  · simp only [hmk, if_true] at hm hs hc
    by_cases ho : k.euid ≠ uid ∨ k.egid ≠ gid
    · rcases hch : k.may_chown with _ | _
      · simp [credentials.create_directory, on_disk, bind_apply, ask, sys, emit, pure_apply,
          raise, hx, h1, hm, hs, hmk, hch, stat_of, Ret.success, ho] at hok
      · simp only [hch, if_true] at hc
        simp [credentials.create_directory, on_disk, bind_apply, ask, sys, emit, pure_apply,
          raise, hx, h1, hm, hs, hc, hmk, hch, stat_of, Ret.success, ho]
    · have ho1 : k.euid = uid ∧ k.egid = gid := by
        constructor <;> by_contra h <;> exact ho (by tauto)
      simp [credentials.create_directory, on_disk, bind_apply, ask, sys, emit, pure_apply,
        raise, hx, h1, hm, hs, hmk, stat_of, Ret.success, ho1.1, ho1.2]

theorem new_events_append (w w1 : World) (l : List Event) (h : w1.trace = w.trace ++ l) :
    new_events w w1 = l := by
  simp [new_events, h]

/-- C16, over the filesystem model: when `create_directory(p, uid, gid)` ends
normally on a path that does not exist, `p` is a directory created with mode
`0755` and owned by `(uid, gid)`, and a second `create_directory(p, uid, gid)`
ends normally having called `opendir`, `fstat` and `closedir` only, so neither
`mkdir` nor `chown`; on a directory that exists it calls no `mkdir`, and it calls
`chown` exactly when the owner differs from `uid` or the group from `gid`. -/
theorem create_directory_idempotent (k : Caller) (d0 : Dirs) (w : World) (p : Str)
    (uid gid : Nat) :
    let w1 := (credentials.create_directory (on_disk k d0) p uid gid w).2
    (k.after d0 w.trace p = none →
      (credentials.create_directory (on_disk k d0) p uid gid w).1 = .ok () →
      k.after d0 w1.trace p = some ⟨0o755, uid, gid⟩ ∧
      (credentials.create_directory (on_disk k d0) p uid gid w1).1 = .ok () ∧
      new_events w1 (credentials.create_directory (on_disk k d0) p uid gid w1).2
        = [.sys (.opendir p), .sys (.fstat p), .sys .closedir]) ∧
    (∀ x, k.after d0 w.trace p = some x →
      new_events w w1 = reconcile p uid gid x ∧
      (∀ q m, Event.sys (.mkdir q m) ∉ new_events w w1) ∧
      ((∃ q u g, Event.sys (.chown q u g) ∈ new_events w w1) ↔
        (x.st_uid ≠ uid ∨ x.st_gid ≠ gid))) := by
  intro w1
  constructor
  · intro hx hok
    have hd := create_directory_absent k d0 w p uid gid hx hok
    obtain ⟨ht, ho⟩ := create_directory_existing k d0 w1 p uid gid _ hd
    refine ⟨hd, ho ⟨rfl, rfl⟩, ?_⟩
    rw [new_events_append _ _ _ ht]
    simp [reconcile]
  · intro x hx
    obtain ⟨ht, -⟩ := create_directory_existing k d0 w p uid gid x hx
    have hn := new_events_append w w1 _ ht
    rw [hn]
    refine ⟨rfl, ?_, ?_⟩
    · intro q m
      unfold reconcile
      split <;> simp
    · unfold reconcile
      split <;> simp_all

/-- Witness of C16: root creates `/run/eggd` for user and group 1000. -/
theorem create_directory_idempotent_witness :
    root_caller.after no_dirs (World.start fresh).trace "/run/eggd".toList = none ∧
    (credentials.create_directory (on_disk root_caller no_dirs) "/run/eggd".toList 1000 1000
      (World.start fresh)).1 = .ok () ∧
    root_caller.after no_dirs
      (credentials.create_directory (on_disk root_caller no_dirs) "/run/eggd".toList 1000 1000
        (World.start fresh)).2.trace "/run/eggd".toList = some ⟨0o755, 1000, 1000⟩ :=
  ⟨rfl, by decide!,
    ((create_directory_idempotent root_caller no_dirs (World.start fresh) "/run/eggd".toList
      1000 1000).1 rfl (by decide!)).1⟩

/-! ## The working directory (C17) -/

/-- When the first `getcwd` stores the path, `working_directory()` returns it. -/
theorem working_directory_fits (σ : Sys) (w : World) (path : Str)
    (h : σ.getcwd w.trace 1024 = .ok path) :
    (credentials.working_directory σ w).1 = .ok (c_str path) := by
  simp [credentials.working_directory, bind_apply, ask, h, pure_apply]

/-- When the first `getcwd` fails with an error other than `ERANGE`,
`working_directory()` raises it. -/
theorem working_directory_fails (σ : Sys) (w : World) (e : Nat)
    (h : σ.getcwd w.trace 1024 = .error e) (he : e ≠ ERANGE) :
    (credentials.working_directory σ w).1
      = .raised (.system_error e .system "getcwd() failed".toList) := by
  simp [credentials.working_directory, bind_apply, ask, h, he, raise]

/-- When the first `getcwd` fails with `ERANGE`, `working_directory()` hands a
released array to `getcwd`. -/
theorem working_directory_erange (σ : Sys) (w : World)
    (h : σ.getcwd w.trace 1024 = .error ERANGE) :
    (credentials.working_directory σ w).1 = .undefined .use_after_free := by
  simp [credentials.working_directory, bind_apply, ask, h, fault]

set_option maxRecDepth 100000 in
/-- C17 at the failing input: in a working directory whose path has 1024 bytes
`working_directory()` returns no path; after the first `getcwd` fails with `ERANGE`
it hands the released array to `getcwd`. -/
theorem working_directory_long_path :
    long_path.length = 1024 ∧
    deep.getcwd [] 1024 = .error ERANGE ∧
    deep.getcwd [] 2048 = .ok long_path ∧
    (credentials.working_directory deep (World.start fresh)).1 = .undefined .use_after_free ∧
    (credentials.working_directory deep (World.start fresh)).2.trace = [.sys (.getcwd 1024)] := by
  have hlen : long_path.length = 1024 := by decide
  have h1 : ∀ t, deep.getcwd t 1024 = .error ERANGE := by
    intro t
    show (if long_path.length < 1024 then Except.ok long_path else Except.error ERANGE) = _
    rw [hlen]
    rfl
  have h2 : deep.getcwd [] 2048 = .ok long_path := by
    show (if long_path.length < 2048 then Except.ok long_path else Except.error ERANGE) = _
    rw [hlen]
    rfl
  refine ⟨hlen, h1 [], h2, working_directory_erange deep (World.start fresh) (h1 _), ?_⟩
  simp [credentials.working_directory, bind_apply, ask, fault, World.start, h1]

/-! ## Syslog opened and closed (C18) -/

/-- Counterexample to C18: on the object `fresh`, `disable(syslog)` calls
`closelog()` with no `openlog()` before it; `enable(syslog)`, `execute()` and the
destructor call `openlog()` twice and `closelog()` once; and two `enable(syslog)`
in a row leave two opens outstanding where one leaves one. -/
theorem syslog_not_paired :
    (perform_all calm [.disable_syslog] (World.start fresh)).trace = [.sys .closelog] ∧
    paired 0 (perform_all calm [.disable_syslog] (World.start fresh)).trace = false ∧
    paired 0 (perform_all calm [.enable_syslog, .execute, .destroy] (World.start fresh)).trace
      = false ∧
    outstanding 0 (perform_all calm [.enable_syslog, .execute, .destroy]
      (World.start fresh)).trace = 1 ∧
    outstanding 0 (perform_all calm [.enable_syslog] (World.start fresh)).trace = 1 ∧
    outstanding 0 (perform_all calm [.enable_syslog, .enable_syslog] (World.start fresh)).trace
      = 2 := by
  decide!

/-- C18 as amended: no record is kept of whether syslog is open. `enable(syslog)`
sets the flag and calls `openlog()` once, every time; `disable(syslog)` clears the
flag and calls `closelog()` once, every time; the first block of `execute()` calls
`openlog()` once when the flag is set and nothing otherwise; the destructor calls
`closelog()` once when the flag is set and nothing otherwise. Two `enable(syslog)`
in a row leave the object as one does, and two more opens outstanding. -/
theorem syslog_calls (w : World) (n : Nat) :
    process.enable .syslog w = (.ok (),
      { w with self := { w.self with __f_req_syslog := true }
               trace := w.trace ++ opening w.self }) ∧
    process.disable .syslog w = (.ok (),
      { w with self := { w.self with __f_req_syslog := false }
               trace := w.trace ++ [.sys .closelog] }) ∧
    process.open_syslog w = (.ok (),
      { w with trace := w.trace ++ (if w.self.__f_req_syslog then opening w.self else []) }) ∧
    process.destruct w = (.ok (),
      { w with trace := w.trace ++ (if w.self.__f_req_syslog then [.sys .closelog] else []) }) ∧
    (process.enable .syslog (process.enable .syslog w).2).2.self
      = (process.enable .syslog w).2.self ∧
    outstanding n (new_events w (process.enable .syslog (process.enable .syslog w).2).2)
      = n + 2 := by
  have he : ∀ w1 : World, process.enable .syslog w1 = (.ok (),
      { w1 with self := { w1.self with __f_req_syslog := true }
                trace := w1.trace ++ opening w1.self }) := by
    intro w1
    rcases ht : w1.self.__f_trace with _ | _ <;>
      simp [process.enable, process.assign, bind_apply, this, sys, emit, pure_apply, ht, opening]
  refine ⟨he w, ?_, ?_, ?_, ?_, ?_⟩
  · simp [process.disable, process.assign, bind_apply, sys, emit]
  · rcases hs : w.self.__f_req_syslog with _ | _ <;> rcases ht : w.self.__f_trace with _ | _ <;>
      simp [process.open_syslog, bind_apply, this, sys, emit, pure_apply, hs, ht, opening]
  · rcases hs : w.self.__f_req_syslog with _ | _ <;>
      simp [process.destruct, bind_apply, this, sys, emit, pure_apply, hs]
  · rw [he, he]
  · rw [he, he]
    rcases ht : w.self.__f_trace with _ | _ <;>
      simp [new_events, opening, ht, outstanding]

/-! ## Flags (C19) -/

/-- C19: for every property `p` other than `description` (the flag properties,
and `trace`) and every state: `enable(p)`, `disable(p)` and `toggle(p, b)` end
normally and leave `status(p)` true, false and `b`; they leave `status(q)` of
every other property `q` and every value `get` returns; the object the constructor
builds has every status false; `status(description)` is false in every state. -/
theorem flags_follow (w : World) (p : property) (b : Bool) (hp : p ≠ .description) :
    ((process.enable p w).1 = .ok () ∧ (process.disable p w).1 = .ok () ∧
      (process.toggle p b w).1 = .ok ()) ∧
    (process.status (process.enable p w).2.self p = true ∧
      process.status (process.disable p w).2.self p = false ∧
      process.status (process.toggle p b w).2.self p = b) ∧
    (∀ q, q ≠ p →
      process.status (process.enable p w).2.self q = process.status w.self q ∧
      process.status (process.disable p w).2.self q = process.status w.self q ∧
      process.status (process.toggle p b w).2.self q = process.status w.self q) ∧
    (∀ q, process.get (process.enable p w).2.self q = process.get w.self q ∧
      process.get (process.disable p w).2.self q = process.get w.self q ∧
      process.get (process.toggle p b w).2.self q = process.get w.self q) ∧
    (∀ (σ : Sys) (name : Str) (w0 : World), (process.construct σ name w0).1 = .ok () →
      ∀ q, process.status (process.construct σ name w0).2.self q = false) ∧
    (∀ w1 : World, process.status w1.self .description = false) := by
  refine ⟨?_, ?_, ?_, ?_, ?_, fun _ => rfl⟩
  · cases p <;> cases b <;>
      first
      | exact absurd rfl hp
      | (rcases ht : w.self.__f_trace with _ | _ <;>
          simp [process.enable, process.disable, process.toggle, process.assign, bind_apply,
            this, sys, emit, pure_apply, ht])
  · cases p <;> cases b <;>
      first
      | exact absurd rfl hp
      | (rcases ht : w.self.__f_trace with _ | _ <;>
          simp [process.enable, process.disable, process.toggle, process.assign, bind_apply,
            this, sys, emit, pure_apply, ht, process.status])
  · intro q hq
    cases p <;> cases b <;> cases q <;>
      first
      | exact absurd rfl hp
      | exact absurd rfl hq
      | (rcases ht : w.self.__f_trace with _ | _ <;>
          simp [process.enable, process.disable, process.toggle, process.assign, bind_apply,
            this, sys, emit, pure_apply, ht, process.status])
  · intro q
    cases p <;> cases b <;> cases q <;>
      first
      | exact absurd rfl hp
      | (rcases ht : w.self.__f_trace with _ | _ <;>
          simp [process.enable, process.disable, process.toggle, process.assign, bind_apply,
            this, sys, emit, pure_apply, ht, process.get])
  · intro σ name w0 hok q
    have hends : Ends (fun w1 => ∀ q, process.status w1.self q = false)
        (process.construct σ name w0) := by
      unfold process.construct
      refine ends_bind _ fun _ _ => ?_
      refine ends_bind _ fun _ _ => ?_
      refine ends_bind _ fun _ _ => ?_
      refine ends_bind _ fun _ _ => ?_
      refine ends_bind _ fun _ _ => ?_
      refine ends_bind _ fun _ _ => ?_
      intro _ _ q
      cases q <;> rfl
    exact hends () hok q

/-- Witness of C19: the daemon flag on the object `fresh`. -/
theorem flags_follow_witness :
    property.daemon ≠ property.description ∧
    process.status (process.toggle .daemon true (World.start fresh)).2.self .daemon = true ∧
    process.status (process.toggle .daemon true (World.start fresh)).2.self .syslog = false :=
  have h := flags_follow (World.start fresh) .daemon true (by decide)
  ⟨by decide, h.2.1.2.2, (h.2.2.1 .syslog (by decide)).2.2⟩

/-! ## The signal mask at `fork()` (C20) -/

/-- C20 at the failing input: `__fork()` from an empty mask, where `sigprocmask`
reports the mask in force. After `lock()` every signal is blocked; at the call of
`fork()` the mask is empty: `release(SIGCHLD)` has unblocked `SIGINT` (2) and every
other signal along with `SIGCHLD` (17). -/
theorem fork_with_open_mask :
    Event.sys .fork ∈ (process.__fork (masked 0) (World.start fresh)).2.trace ∧
    sigmask 0 (signal.controller.lock (masked 0) (World.start fresh)).2.trace = 2 ^ 65 - 2 ∧
    sigmask 0 (before_fork (process.__fork (masked 0) (World.start fresh)).2.trace) = 0 ∧
    Sigset.mem
      (sigmask 0 (before_fork (process.__fork (masked 0) (World.start fresh)).2.trace)) 2
      = false := by
  decide!

/-! ## The traditional credential switch (C21) -/

theorem plain_filters (t : List Event) (h : t.all Event.plain = true) :
    identity_calls t = [] ∧ env_writes t = [] := by
  simp only [identity_calls, env_writes, List.filter_eq_nil_iff]
  rw [List.all_eq_true] at h
  constructor <;> intro e he <;> have := h e he <;> simp [Event.plain] at this <;> simp [this]

theorem plain_user_id_to_name (σ : Sys) (n : Nat) :
    Keeps Event.plain (credentials.user_id_to_name σ n) := by
  unfold credentials.user_id_to_name
  repeat' first
    | with_reducible exact keeps_raise_bind _ _ _
    | with_reducible exact keeps_pure _ _
    | with_reducible exact keeps_raise _ _
    | with_reducible apply keeps_ask
    | with_reducible apply keeps_bind
    | with_reducible apply keeps_ite
    | intro _
    | split
    | rfl

theorem plain_group_id_to_name (σ : Sys) (n : Nat) :
    Keeps Event.plain (credentials.group_id_to_name σ n) := by
  unfold credentials.group_id_to_name
  repeat' first
    | with_reducible exact keeps_raise_bind _ _ _
    | with_reducible exact keeps_pure _ _
    | with_reducible exact keeps_raise _ _
    | with_reducible apply keeps_ask
    | with_reducible apply keeps_bind
    | with_reducible apply keeps_ite
    | intro _
    | split
    | rfl

theorem ite_world {α : Type} (c : Prop) [Decidable c] (a b : M α) (w : World) :
    (if c then a else b) w = if c then a w else b w := by
  split <;> rfl

theorem env_write_not_identity (e : Event) (he : e.env_write = true) :
    e.identity = false := by
  unfold Event.identity
  split <;> first | rfl | simp [Event.env_write] at he

theorem identity_result_plain (σ : Sys) (h : List Event) (e : Event)
    (he : e.identity = false) : identity_result σ h e = none := by
  unfold identity_result
  split <;> first | rfl | simp [Event.identity] at he

theorem stops_plain (σ : Sys) (o : Outcome Unit) (t : List Event)
    (ht : t.all Event.plain = true) (h rest : List Event) :
    stops_at_failure σ o h (t ++ rest) ↔ stops_at_failure σ o (h ++ t) rest := by
  induction t generalizing h with
  | nil => simp
  | cons e t ih =>
    simp only [List.all_cons, Bool.and_eq_true] at ht
    have he : e.identity = false := by
      have := ht.1
      simp [Event.plain] at this
      exact this.1
    have step : stops_at_failure σ o h (e :: (t ++ rest)) ↔
        stops_at_failure σ o (h ++ [e]) (t ++ rest) := by
      simp [stops_at_failure, identity_result_plain σ h e he]
    rw [List.cons_append, step, ih ht.2]
    simp

theorem settled_plain (t : List Event) (ht : t.all Event.plain = true) (rest : List Event) :
    settled (t ++ rest) = settled rest := by
  induction t with
  | nil => rfl
  | cons e t ih =>
    simp only [List.all_cons, Bool.and_eq_true] at ht
    have he : e.env_write = false := by
      have := ht.1
      simp [Event.plain] at this
      exact this.2
    simp [settled, he, ih ht.2]

theorem stops_all_plain (σ : Sys) (o : Outcome Unit) (t : List Event)
    (ht : t.all Event.plain = true) (h : List Event) : stops_at_failure σ o h t := by
  have := stops_plain σ o t ht h []
  rw [List.append_nil] at this
  rw [this]
  trivial

theorem settled_all_plain (t : List Event) (ht : t.all Event.plain = true) :
    settled t = true := by
  have := settled_plain t ht []
  rw [List.append_nil] at this
  rw [this]
  rfl

/-- What `stops_at_failure` says of an event of the list. -/
theorem stops_at_failure_split (σ : Sys) (o : Outcome Unit) (tr : List Event) :
    ∀ h, stops_at_failure σ o h tr → ∀ pre e post r name, tr = pre ++ e :: post →
      identity_result σ (h ++ pre) e = some (r, name) → r.val < 0 →
      post = [] ∧ o = .raised (.system_error r.errno .system name) := by
  induction tr with
  | nil =>
    intro h _ pre e post r name heq
    simp at heq
  | cons a tr ih =>
    intro h hst pre e post r name heq hres hneg
    cases pre with
    | nil =>
      simp only [List.nil_append, List.cons.injEq] at heq
      obtain ⟨rfl, rfl⟩ := heq
      rw [List.append_nil] at hres
      exact hst.1 r name hres hneg
    | cons b pre =>
      simp only [List.cons_append, List.cons.injEq] at heq
      obtain ⟨rfl, rfl⟩ := heq
      refine ih (h ++ [a]) hst.2 pre e post r name rfl ?_ hneg
      rw [List.append_assoc]
      exact hres

/-- What `settled` says of a write of the environment in the list. -/
theorem settled_split (tr : List Event) :
    settled tr = true → ∀ pre e post, tr = pre ++ e :: post → e.env_write = true →
      identity_calls post = [] := by
  induction tr with
  | nil =>
    intro _ pre e post heq
    simp at heq
  | cons a tr ih =>
    intro hst pre e post heq he
    simp only [settled, Bool.and_eq_true, Bool.or_eq_true, Bool.not_eq_true',
      List.isEmpty_iff] at hst
    cases pre with
    | nil =>
      simp only [List.nil_append, List.cons.injEq] at heq
      obtain ⟨rfl, rfl⟩ := heq
      rcases hst.1 with h | h
      · rw [h] at he
        cases he
      · exact h
    | cons b pre =>
      simp only [List.cons_append, List.cons.injEq] at heq
      exact ih hst.2 pre e post heq.2 he

theorem log_trace_apply (n : Nat) (s : String) (w : World) :
    log_trace n s w = (.ok (), { w with trace := w.trace ++ trace_note w.self n s }) := by
  rcases hs : w.self.__f_req_syslog with _ | _ <;>
    rcases ht : w.self.__f_trace with _ | _ <;>
    simp [log_trace, trace_note, bind_apply, pure_apply, this, sys, emit, hs, ht]

theorem log_sys_apply (n : Nat) (s : String) (w : World) :
    log_sys n s w = (.ok (), { w with trace := w.trace ++ sys_note w.self n s }) := by
  rcases hs : w.self.__f_req_syslog with _ | _ <;>
    simp [log_sys, sys_note, bind_apply, pure_apply, this, sys, emit, hs]

theorem trace_note_plain (p : process) (n : Nat) (s : String) :
    (trace_note p n s).all Event.plain = true := by
  unfold trace_note
  split <;> simp [Event.plain, Event.identity, Event.env_write]

theorem sys_note_plain (p : process) (n : Nat) (s : String) :
    (sys_note p n s).all Event.plain = true := by
  unfold sys_note
  split <;> simp [Event.plain, Event.identity, Event.env_write]

theorem trace_note_identity (p : process) (n : Nat) (s : String) :
    List.filter Event.identity (trace_note p n s) = [] :=
  (plain_filters _ (trace_note_plain p n s)).1

theorem trace_note_env (p : process) (n : Nat) (s : String) :
    List.filter Event.env_write (trace_note p n s) = [] :=
  (plain_filters _ (trace_note_plain p n s)).2

theorem sys_note_identity (p : process) (n : Nat) (s : String) :
    List.filter Event.identity (sys_note p n s) = [] :=
  (plain_filters _ (sys_note_plain p n s)).1

theorem sys_note_env (p : process) (n : Nat) (s : String) :
    List.filter Event.env_write (sys_note p n s) = [] :=
  (plain_filters _ (sys_note_plain p n s)).2

set_option maxHeartbeats 4000000 in
theorem traditional_core (σ : Sys) (w : World)
    (hflag : w.self.__f_req_user_change = true)
    (hneq : w.self._uid ≠ σ.geteuid w.trace)
    (huid : ∀ h, σ.getuid h = 0) (hgid : ∀ h, σ.getgid h = 0)
    (hcap : ∀ h, σ.capng_have_capability h = false) :
    Switched σ w (process.__set_credentials σ w).1
      (new_events w (process.__set_credentials σ w).2) := by
  obtain ⟨hs1, t1, ht1, hp1⟩ := (plain_user_id_to_name σ (σ.geteuid w.trace)).keeps
    { w with trace := w.trace ++ [.sys .geteuid] }
  rcases hr1 : credentials.user_id_to_name σ (σ.geteuid w.trace)
    { w with trace := w.trace ++ [.sys .geteuid] } with ⟨o1, w1⟩
  rw [hr1] at hs1 ht1
  simp only at hs1 ht1
  obtain ⟨hi1, he1⟩ := plain_filters t1 hp1
  simp only [identity_calls, env_writes] at hi1 he1
  cases o1 with
  | raised e =>
    simp [process.__set_credentials, bind_apply, pure_apply, this, hflag, ask, hr1, ht1, new_events,
      Switched, identity_calls, env_writes, Event.identity, Event.env_write, List.filter_append,
      hi1, he1, stops_at_failure, identity_result, stops_plain, settled_plain, hp1, settled,
      stops_all_plain, settled_all_plain]
  | undefined u =>
    simp [process.__set_credentials, bind_apply, pure_apply, this, hflag, ask, hr1, ht1, new_events,
      Switched, identity_calls, env_writes, Event.identity, Event.env_write, List.filter_append,
      hi1, he1, stops_at_failure, identity_result, stops_plain, settled_plain, hp1, settled,
      stops_all_plain, settled_all_plain]
  | ok n1 =>
    obtain ⟨hs2, t2, ht2, hp2⟩ := (plain_group_id_to_name σ (σ.getegid w1.trace)).keeps
      { w1 with trace := w1.trace ++ [.sys .getegid] }
    rcases hr2 : credentials.group_id_to_name σ (σ.getegid w1.trace)
      { w1 with trace := w1.trace ++ [.sys .getegid] } with ⟨o2, w2⟩
    rw [hr2] at hs2 ht2
    simp only at hs2 ht2
    rw [hs1] at hs2
    rw [ht1] at ht2
    obtain ⟨hi2, he2⟩ := plain_filters t2 hp2
    simp only [identity_calls, env_writes] at hi2 he2
    cases o2 with
    | raised e =>
      simp [process.__set_credentials, bind_apply, pure_apply, this, hflag, ask, hr1, hr2, ht2,
        new_events, Switched, identity_calls, env_writes, Event.identity, Event.env_write,
        List.filter_append, hi1, he1, hi2, he2, stops_at_failure, identity_result, stops_plain,
        settled_plain, hp1, hp2, settled, stops_all_plain, settled_all_plain]
    | undefined u =>
      simp [process.__set_credentials, bind_apply, pure_apply, this, hflag, ask, hr1, hr2, ht2,
        new_events, Switched, identity_calls, env_writes, Event.identity, Event.env_write,
        List.filter_append, hi1, he1, hi2, he2, stops_at_failure, identity_result, stops_plain,
        settled_plain, hp1, hp2, settled, stops_all_plain, settled_all_plain]
    | ok n2 =>
      have hneq1 : ¬ σ.geteuid w.trace = w.self._uid := fun h => hneq h.symm
      rcases hpw : σ.HAVE_PWUID_R with _ | _
      · rcases hinit : σ.HAVE_INITGROUPS with _ | _ <;>
        simp [process.__set_credentials, bind_apply, pure_apply, this, hflag, ask, hr1, hr2,
          hs2, ht2, hinit, hpw, log_sys_apply, log_trace_apply, sys, emit, raise, fault,
          process.set_up_environment, hneq, hneq1, huid, hgid, hcap, ite_world] <;>
        split_ifs <;>
        (try simp only [not_lt] at *) <;>
        first
          | (simp [Switched, new_events, ht2, identity_calls, env_writes, Event.identity,
            Event.env_write, List.filter_append, hi1, he1, hi2, he2, stops_at_failure,
            bind_apply, pure_apply, fault, emit, identity_result, stops_plain, settled_plain,
            hp1, hp2, settled, stops_all_plain, settled_all_plain, traditional_calls,
            environment_calls, hinit, trace_note_plain, sys_note_plain, trace_note_identity,
            trace_note_env, sys_note_identity, sys_note_env, *]
             done)
          | (generalize hlook : σ.getpwuid _ _ = look at *
             rcases look with ⟨r3, _ | pw3⟩ <;>
             simp [Switched, new_events, ht2, identity_calls, env_writes, Event.identity,
            Event.env_write, List.filter_append, hi1, he1, hi2, he2, stops_at_failure,
            bind_apply, pure_apply, fault, emit, identity_result, stops_plain, settled_plain,
            hp1, hp2, settled, stops_all_plain, settled_all_plain, traditional_calls,
            environment_calls, hinit, trace_note_plain, sys_note_plain, trace_note_identity,
            trace_note_env, sys_note_identity, sys_note_env, *])
      · rcases hinit : σ.HAVE_INITGROUPS with _ | _ <;>
        simp [process.__set_credentials, bind_apply, pure_apply, this, hflag, ask, hr1, hr2,
          hs2, ht2, hinit, hpw, log_sys_apply, log_trace_apply, sys, emit, raise, fault,
          process.set_up_environment, hneq, hneq1, huid, hgid, hcap, ite_world] <;>
        split_ifs <;>
        (try simp only [not_lt] at *) <;>
        first
          | (simp [Switched, new_events, ht2, identity_calls, env_writes, Event.identity,
            Event.env_write, List.filter_append, hi1, he1, hi2, he2, stops_at_failure,
            bind_apply, pure_apply, fault, emit, identity_result, stops_plain, settled_plain,
            hp1, hp2, settled, stops_all_plain, settled_all_plain, traditional_calls,
            environment_calls, hinit, trace_note_plain, sys_note_plain, trace_note_identity,
            trace_note_env, sys_note_identity, sys_note_env, *]
             done)
          | (generalize hlook : σ.getpwuid_r _ _ = look at *
             rcases look with ⟨r3, _ | pw3⟩ <;>
             simp [Switched, new_events, ht2, identity_calls, env_writes, Event.identity,
            Event.env_write, List.filter_append, hi1, he1, hi2, he2, stops_at_failure,
            bind_apply, pure_apply, fault, emit, identity_result, stops_plain, settled_plain,
            hp1, hp2, settled, stops_all_plain, settled_all_plain, traditional_calls,
            environment_calls, hinit, trace_note_plain, sys_note_plain, trace_note_identity,
            trace_note_env, sys_note_identity, sys_note_env, *])

/-- C21: on the traditional path of `__set_credentials()` (the user switch
enabled, the target uid different from the effective uid, the real uid and gid 0,
`CAP_SETUID` not effective) the identity calls are made in the order `setgid`,
`initgroups` (where the build has it), `setegid`, `setuid`, `seteuid`, all of them on
a normal return; an identity call that fails is the last event and the error raised
carries its `errno` and its name; a write of `USER`, `LOGNAME` or `HOME` comes after
all the identity calls, each of which succeeded, and the writes are `USER` and
`LOGNAME` with the target user name, then `HOME`. -/
theorem traditional_switch (σ : Sys) (w : World)
    (hflag : w.self.__f_req_user_change = true)
    (hneq : w.self._uid ≠ σ.geteuid w.trace)
    (huid : ∀ h, σ.getuid h = 0) (hgid : ∀ h, σ.getgid h = 0)
    (hcap : ∀ h, σ.capng_have_capability h = false) :
    identity_calls (new_events w (process.__set_credentials σ w).2) <+:
      traditional_calls σ w.self ∧
    ((process.__set_credentials σ w).1 = .ok () →
      identity_calls (new_events w (process.__set_credentials σ w).2) =
        traditional_calls σ w.self ∧
      ∃ dir, env_writes (new_events w (process.__set_credentials σ w).2) =
        environment_calls w.self dir) ∧
    (∀ pre e post r name, new_events w (process.__set_credentials σ w).2 = pre ++ e :: post →
      identity_result σ (w.trace ++ pre) e = some (r, name) → r.val < 0 →
      post = [] ∧
      (process.__set_credentials σ w).1 = .raised (.system_error r.errno .system name)) ∧
    (∀ pre e post, new_events w (process.__set_credentials σ w).2 = pre ++ e :: post →
      e.env_write = true →
      identity_calls pre = traditional_calls σ w.self ∧ identity_calls post = [] ∧
      ∀ pre1 c post1 r name, pre = pre1 ++ c :: post1 →
        identity_result σ (w.trace ++ pre1) c = some (r, name) → 0 ≤ r.val) ∧
    ∃ dir, env_writes (new_events w (process.__set_credentials σ w).2) <+:
      environment_calls w.self dir := by
  obtain ⟨hA, hB, hC, hD, hE, hF⟩ := traditional_core σ w hflag hneq huid hgid hcap
  have hstop := stops_at_failure_split σ _ _ w.trace hC
  refine ⟨hA, hB, hstop, ?_, hF⟩
  intro pre e post heq he
  have hpost := settled_split _ hD pre e post heq he
  have hne : env_writes (new_events w (process.__set_credentials σ w).2) ≠ [] := by
    rw [heq]
    simp [env_writes, List.filter_append, he]
  have hL := hE hne
  have hid := env_write_not_identity e he
  refine ⟨?_, hpost, ?_⟩
  · rw [← hL, heq]
    simp only [identity_calls] at hpost
    simp [identity_calls, List.filter_append, hid, hpost]
  · intro pre1 c post1 r name hpre hres
    by_contra hneg
    have hlt : r.val < 0 := lt_of_not_le hneg
    have heq1 : new_events w (process.__set_credentials σ w).2 =
        pre1 ++ c :: (post1 ++ e :: post) := by
      rw [heq, hpre]
      simp
    have := (hstop pre1 c (post1 ++ e :: post) r name heq1 hres hlt).1
    simp at this

/-- Witness of C21: the object `fresh_other`, whose target user is 1000, started
by root in the environment `calm`. -/
theorem traditional_switch_witness :
    (World.start fresh_other).self.__f_req_user_change = true ∧
    (World.start fresh_other).self._uid ≠ calm.geteuid (World.start fresh_other).trace ∧
    (process.__set_credentials calm (World.start fresh_other)).1 = .ok () ∧
    identity_calls (new_events (World.start fresh_other)
      (process.__set_credentials calm (World.start fresh_other)).2) =
      traditional_calls calm (World.start fresh_other).self :=
  have h := traditional_switch calm (World.start fresh_other) rfl (by decide) (fun _ => rfl)
    (fun _ => rfl) (fun _ => rfl)
  ⟨rfl, by decide, rfl, (h.2.1 rfl).1⟩

/-! ## The credential switch skipped (C22) -/

/-- The start of `__set_credentials()` when the effective ids resolve to names:
the two lookups return, leave the object, and append plain events only. -/
theorem names_resolved (σ : Sys) (w : World)
    (hu : ∀ h w1, ∃ n, (credentials.user_id_to_name σ (σ.geteuid h) w1).1 = .ok n)
    (hg : ∀ h w1, ∃ n, (credentials.group_id_to_name σ (σ.getegid h) w1).1 = .ok n) :
    ∃ (n1 : Str) (w1 : World) (t1 : List Event) (n2 : Str) (w2 : World) (t2 : List Event),
      credentials.user_id_to_name σ (σ.geteuid w.trace)
        { w with trace := w.trace ++ [.sys .geteuid] } = (.ok n1, w1) ∧
      w1.self = w.self ∧ w1.trace = w.trace ++ [.sys .geteuid] ++ t1 ∧
      t1.all Event.plain = true ∧
      credentials.group_id_to_name σ (σ.getegid w1.trace)
        { w1 with trace := w1.trace ++ [.sys .getegid] } = (.ok n2, w2) ∧
      w2.self = w.self ∧ w2.trace = w.trace ++ [.sys .geteuid] ++ t1 ++ [.sys .getegid] ++ t2 ∧
      t2.all Event.plain = true := by
  obtain ⟨n1, hn1⟩ := hu w.trace { w with trace := w.trace ++ [.sys .geteuid] }
  obtain ⟨hs1, t1, ht1, hp1⟩ := (plain_user_id_to_name σ (σ.geteuid w.trace)).keeps
    { w with trace := w.trace ++ [.sys .geteuid] }
  rcases hr1 : credentials.user_id_to_name σ (σ.geteuid w.trace)
    { w with trace := w.trace ++ [.sys .geteuid] } with ⟨o1, w1⟩
  rw [hr1] at hn1 hs1 ht1
  simp only at hn1 hs1 ht1
  subst hn1
  obtain ⟨n2, hn2⟩ := hg w1.trace { w1 with trace := w1.trace ++ [.sys .getegid] }
  obtain ⟨hs2, t2, ht2, hp2⟩ := (plain_group_id_to_name σ (σ.getegid w1.trace)).keeps
    { w1 with trace := w1.trace ++ [.sys .getegid] }
  rcases hr2 : credentials.group_id_to_name σ (σ.getegid w1.trace)
    { w1 with trace := w1.trace ++ [.sys .getegid] } with ⟨o2, w2⟩
  rw [hr2] at hn2 hs2 ht2
  simp only at hn2 hs2 ht2
  subst hn2
  exact ⟨n1, w1, t1, n2, w2, t2, rfl, hs1, ht1, hp1, hr2, by rw [hs2, hs1],
    by rw [ht2, ht1], hp2⟩

set_option maxHeartbeats 2000000 in
/-- C22: provided the effective uid and gid resolve to names,
`__set_credentials()` returns normally, makes no identity-changing call and writes
none of `USER`, `LOGNAME`, `HOME` in each of these cases: the user flag is not
enabled; the target uid equals the effective uid; the real uid is not 0 and
`CAP_SETUID` is not effective. -/
theorem set_credentials_skips (σ : Sys) (w : World)
    (hu : ∀ h w1, ∃ n, (credentials.user_id_to_name σ (σ.geteuid h) w1).1 = .ok n)
    (hg : ∀ h w1, ∃ n, (credentials.group_id_to_name σ (σ.getegid h) w1).1 = .ok n)
    (hcase : w.self.__f_req_user_change = false ∨
      w.self._uid = σ.geteuid w.trace ∨
      ((∀ h, σ.getuid h ≠ 0) ∧ (∀ h, σ.capng_have_capability h = false))) :
    (process.__set_credentials σ w).1 = .ok () ∧
    identity_calls (new_events w (process.__set_credentials σ w).2) = [] ∧
    env_writes (new_events w (process.__set_credentials σ w).2) = [] := by
  rcases hf : w.self.__f_req_user_change with _ | _
  · rcases hs : w.self.__f_req_syslog with _ | _ <;>
      simp [process.__set_credentials, bind_apply, this, hf, log_sys, hs, pure_apply, sys, emit,
        new_events, identity_calls, env_writes, Event.identity, Event.env_write]
  · obtain ⟨n1, w1, t1, n2, w2, t2, hr1, hs1, ht1, hp1, hr2, hs2, ht2, hp2⟩ :=
      names_resolved σ w hu hg
    obtain ⟨hi1, he1⟩ := plain_filters t1 hp1
    obtain ⟨hi2, he2⟩ := plain_filters t2 hp2
    simp only [identity_calls, env_writes] at hi1 he1 hi2 he2
    by_cases hsame : w.self._uid = σ.geteuid w.trace
    · rw [← hsame] at hr1
      rcases hs : w.self.__f_req_syslog with _ | _ <;>
        rcases ht : w.self.__f_trace with _ | _ <;>
        simp [process.__set_credentials, bind_apply, this, hf, log_sys, log_trace, hs, ht,
          pure_apply, sys, emit, ask, hr1, hr2, hs2, ht2, hsame.symm, new_events,
          identity_calls, env_writes, Event.identity, Event.env_write, List.filter_append,
          hi1, he1, hi2, he2]
    · have hcase3 : (∀ h, σ.getuid h ≠ 0) ∧ (∀ h, σ.capng_have_capability h = false) := by
        rcases hcase with h | h | h
        · rw [hf] at h
          cases h
        · exact absurd h hsame
        · exact h
      obtain ⟨huid, hcap⟩ := hcase3
      have hsame1 : ¬ σ.geteuid w.trace = w.self._uid := fun h => hsame h.symm
      rcases hs : w.self.__f_req_syslog with _ | _ <;>
        rcases ht : w.self.__f_trace with _ | _ <;>
        simp [process.__set_credentials, bind_apply, this, hf, log_sys, log_trace, hs, ht,
          pure_apply, sys, emit, ask, hr1, hr2, hs2, ht2, hsame, hsame1, huid, hcap, new_events,
          identity_calls, env_writes, Event.identity, Event.env_write, List.filter_append,
          hi1, he1, hi2, he2]

/-- Witness of C22: the object `fresh_switch` of root, started by root in the
environment `calm`, where every id resolves to the name `root`. -/
theorem set_credentials_skips_witness :
    (World.start fresh_switch).self._uid = calm.geteuid (World.start fresh_switch).trace ∧
    (process.__set_credentials calm (World.start fresh_switch)).1 = .ok () ∧
    identity_calls (new_events (World.start fresh_switch)
      (process.__set_credentials calm (World.start fresh_switch)).2) = [] :=
  have h := set_credentials_skips calm (World.start fresh_switch)
    (fun _ _ => ⟨"root".toList, rfl⟩) (fun _ _ => ⟨"root".toList, rfl⟩) (Or.inr (Or.inl rfl))
  ⟨rfl, h.1, h.2.1⟩

/-! ## Cutting at the last `/` (C23, C24) -/

theorem find_last_of_none (s : Str) (c : Char) : find_last_of s c = none ↔ c ∉ s := by
  induction s with
  | nil => simp [find_last_of]
  | cons x xs ih =>
    simp only [find_last_of, List.mem_cons, not_or]
    rcases h : find_last_of xs c with _ | i
    · rw [h] at ih
      have hx : c ∉ xs := ih.mp rfl
      by_cases hxc : x = c
      · simp [hxc]
      · simp [hxc, hx, Ne.symm hxc]
    · have hx : ¬ c ∉ xs := fun hn => by
        have := ih.mpr hn
        rw [h] at this
        cases this
      simp
      intro _
      exact not_not.mp hx

theorem find_last_of_some (s : Str) (c : Char) (i : Nat) (h : find_last_of s c = some i) :
    s = s.take i ++ c :: s.drop (i + 1) ∧ c ∉ s.drop (i + 1) := by
  induction s generalizing i with
  | nil => simp [find_last_of] at h
  | cons x xs ih =>
    simp only [find_last_of] at h
    rcases hx : find_last_of xs c with _ | j
    · rw [hx] at h
      simp only at h
      by_cases hxc : x = c
      · simp only [hxc, if_true, Option.some.injEq] at h
        subst h
        subst hxc
        exact ⟨by simp, by simpa using (find_last_of_none xs x).mp hx⟩
      · simp [hxc] at h
    · rw [hx] at h
      simp only [Option.some.injEq] at h
      subst h
      obtain ⟨h1, h2⟩ := ih j hx
      refine ⟨?_, by simpa using h2⟩
      simp only [List.take_succ_cons, List.drop_succ_cons, List.cons_append, List.cons.injEq,
        true_and]
      exact h1

/-- For a PID path with a `/`, the directory is the path cut at its last `/`. -/
theorem pid_directory_slash (p : Str) (h : '/' ∈ p) :
    ∃ file, p = pid_directory p ++ '/' :: file ∧ '/' ∉ file := by
  rcases hf : find_last_of p '/' with _ | i
  · exact absurd h ((find_last_of_none p '/').mp hf)
  · obtain ⟨h1, h2⟩ := find_last_of_some p '/' i hf
    refine ⟨p.drop (i + 1), ?_, h2⟩
    simp only [pid_directory, hf, substr, List.drop_zero]
    exact h1

/-- For a PID path without a `/`, the directory is the PID path itself. -/
theorem pid_directory_no_slash (p : Str) (h : '/' ∉ p) : pid_directory p = p := by
  simp [pid_directory, (find_last_of_none p '/').mpr h, substr]

/-- C23 at the failing input: with the PID path `eggd.pid`, which has no `/`,
the directory `execute()` passes to `create_directory` is `eggd.pid`, the PID file
path itself. -/
theorem relative_pid_path_is_directory :
    fresh_relative.__f_req_pid_file = true ∧
    fresh_relative._pid_path = "eggd.pid".toList ∧
    pid_directory "eggd.pid".toList = "eggd.pid".toList ∧
    passed_directory (process.execute calm (World.start fresh_relative)).2.trace
      = some "eggd.pid".toList := by
  decide!

/-- C24: when the constructor returns, the stored name `n` is the part of its
argument `a` after the last `/`: `a = pre ++ n` where `pre` is empty or ends with
`/`, `n` has no `/`, and `n = a` when `a` has no `/`. -/
theorem constructor_name (σ : Sys) (a : Str) (w : World)
    (hok : (process.construct σ a w).1 = .ok ()) :
    ∃ pre, a = pre ++ (process.construct σ a w).2.self._name ∧
      (pre = [] ∨ ∃ q, pre = q ++ ['/']) ∧
      '/' ∉ (process.construct σ a w).2.self._name ∧
      ('/' ∉ a → (process.construct σ a w).2.self._name = a) := by
  have hends : Ends (fun w1 => w1.self._name = substr a (match find_last_of a '/' with
      | none => 0
      | some st => st + 1) none) (process.construct σ a w) := by
    unfold process.construct
    refine ends_bind _ fun _ _ => ?_
    refine ends_bind _ fun _ _ => ?_
    refine ends_bind _ fun _ _ => ?_
    refine ends_bind _ fun _ _ => ?_
    refine ends_bind _ fun _ _ => ?_
    refine ends_bind _ fun _ _ => ?_
    intro _ _
    rfl
  rw [hends () hok]
  rcases hf : find_last_of a '/' with _ | i
  · have hn := (find_last_of_none a '/').mp hf
    exact ⟨[], by simp [substr], Or.inl rfl, by simpa [substr] using hn, fun _ => by simp [substr]⟩
  · obtain ⟨h1, h2⟩ := find_last_of_some a '/' i hf
    refine ⟨a.take i ++ ['/'], ?_, Or.inr ⟨_, rfl⟩, by simpa [substr] using h2, ?_⟩
    · simp only [substr, List.append_assoc, List.singleton_append]
      exact h1
    · intro hn
      exact absurd ((find_last_of_none a '/').mpr hn ▸ hf) (by simp)

/-- Witness of C24: the constructor on `/usr/bin/eggd` in the environment `calm`. -/
theorem constructor_name_witness :
    (process.construct calm "/usr/bin/eggd".toList (World.start fresh)).1 = .ok () ∧
    (process.construct calm "/usr/bin/eggd".toList (World.start fresh)).2.self._name
      = "eggd".toList ∧
    ∃ pre, "/usr/bin/eggd".toList = pre ++
        (process.construct calm "/usr/bin/eggd".toList (World.start fresh)).2.self._name ∧
      (pre = [] ∨ ∃ q, pre = q ++ ['/']) ∧
      '/' ∉ (process.construct calm "/usr/bin/eggd".toList (World.start fresh)).2.self._name ∧
      ('/' ∉ "/usr/bin/eggd".toList →
        (process.construct calm "/usr/bin/eggd".toList (World.start fresh)).2.self._name
          = "/usr/bin/eggd".toList) :=
  ⟨by decide!, by decide!,
    constructor_name calm "/usr/bin/eggd".toList (World.start fresh) (by decide!)⟩

/-! ## A failing `enable` (C25) -/

/-- When `sigaction` fails, `enable` raises having deleted what the slot held and
stored the new handler. -/
theorem enable_fails_populated (σ : Sys) (w : World) (h : signal.handler)
    (h0 : 0 ≤ h._id) (h1 : h._id < σ.NSIG)
    (hadd : ∀ i : Nat, i < σ.NSIG → (i = h._id.toNat ∨ w._s_handler i ≠ none) →
      σ.sigaddset_errno i = none)
    (hsa : ∀ t act, (σ.sigaction t h._id act).1.val ≠ 0) :
    (∃ e, (signal.controller.enable σ (some h) w).1 = .raised e) ∧
    (signal.controller.enable σ (some h) w).2._s_handler h._id.toNat = some h ∧
    (∀ x, w._s_handler h._id.toNat = some x →
      Event.deleted x ∈ (signal.controller.enable σ (some h) w).2.trace) := by
  have hr : 0 ≤ h._id ∧ h._id < signal.controller.count σ := ⟨h0, h1⟩
  have hc : ¬ signal.controller.count σ ≤ h._id := by
    simp only [signal.controller.count]
    omega
  have hfill : ∀ w1 : World, w1._s_handler = Function.update w._s_handler h._id.toNat (some h) →
      ∃ m, signal.controller.fill_set σ (List.range σ.NSIG) sigemptyset w1 = (.ok m, w1) := by
    intro w1 hw1
    apply fill_set_ok
    · intro i hi
      exact List.mem_range.mp hi
    · intro i hi hne
      apply hadd i (List.mem_range.mp hi)
      by_cases hi : i = h._id.toNat
      · exact Or.inl hi
      · right
        rw [hw1, Function.update_noteq hi] at hne
        exact hne
  rcases hs : w._s_handler h._id.toNat with _ | x
  · obtain ⟨m, hm⟩ := hfill { w with
      _s_handler := Function.update w._s_handler h._id.toNat (some h) } rfl
    have hz := hsa w.trace (trampoline h m)
    simp only [trampoline] at hz
    simp [signal.controller.enable, bind_apply, raise, hc, signal.controller.load, hr, hs,
      pure_apply, signal.controller.store, hm, ask, hz]
  · obtain ⟨m, hm⟩ := hfill { w with
      _s_handler := Function.update w._s_handler h._id.toNat (some h)
      trace := w.trace ++ [.deleted x] } rfl
    have hz := hsa (w.trace ++ [.deleted x]) (trampoline h m)
    simp only [trampoline] at hz
    simp [signal.controller.enable, bind_apply, raise, hc, signal.controller.load, hr, hs,
      pure_apply, signal.controller.store, hm, ask, hz, emit]

/-- C25 at the failing inputs, on an empty table: `enable` of a handler for the
signal number 0 raises, as `sigaddset` rejects 0, and leaves slot 0 populated; an
`enable` for `SIGUSR1`, which ends normally before, raises after it. `enable` of a
handler for `SIGKILL` raises, as `sigaction` fails, and leaves slot 9 populated.
Where `first_usr1` is installed and `sigaction` fails, `enable` of `second_usr1`
raises having deleted `first_usr1`, with `second_usr1` in the slot. -/
theorem enable_failure_changes_table :
    (signal.controller.enable calm (some null_signal) (World.start fresh)).1
      = .raised (.system_error EINVAL .system "Wrong signal 0".toList) ∧
    (World.start fresh)._s_handler 0 = none ∧
    (signal.controller.enable calm (some null_signal) (World.start fresh)).2._s_handler 0
      = some null_signal ∧
    (signal.controller.enable calm (some first_usr1) (World.start fresh)).1 = .ok () ∧
    (signal.controller.enable calm (some first_usr1)
      (signal.controller.enable calm (some null_signal) (World.start fresh)).2).1
      = .raised (.system_error EINVAL .system "Wrong signal 0".toList) ∧
    (signal.controller.enable calm (some for_kill) (World.start fresh)).1
      = .raised (.system_error EINVAL .system "Unable to set up signal handler for 9".toList) ∧
    (signal.controller.enable calm (some for_kill) (World.start fresh)).2._s_handler 9
      = some for_kill ∧
    usr1_installed._s_handler 10 = some first_usr1 ∧
    (signal.controller.enable refusing (some second_usr1) usr1_installed).1
      = .raised (.system_error EINVAL .system "Unable to set up signal handler for 10".toList) ∧
    (signal.controller.enable refusing (some second_usr1) usr1_installed).2._s_handler 10
      = some second_usr1 ∧
    (signal.controller.enable refusing (some second_usr1) usr1_installed).2.trace
      = [.deleted first_usr1,
         .sys (.sigaction 10 ⟨.__signal_callback, 2 ^ 10, SA_SIGINFO ||| SA_RESTART⟩)] := by
  decide!

/-! ## The handler table across `__fork()` (C26) -/

/-- C26 at the failing input: the user installed `user_chld` for `SIGCHLD`, then
`__fork()` returns in the child. The disposition of `SIGCHLD` is as before, but
`user_chld` has been deleted and slot 17 is empty: a `SIGCHLD` delivered afterwards
is dispatched to no handler and counted as an error. -/
theorem fork_drops_user_handler :
    (chld_installed._s_handler 17).map (fun h => h.object) = some user_chld.object ∧
    (process.__fork kernel chld_installed).1 = .ok false ∧
    (process.__fork kernel chld_installed).2._s_handler 17 = none ∧
    deletions user_chld.object (new_events chld_installed
      (process.__fork kernel chld_installed).2) = 1 ∧
    disposition SigAction.default 17 (process.__fork kernel chld_installed).2.trace
      = disposition SigAction.default 17 chld_installed.trace ∧
    (signal.controller.__signal_callback kernel 17
      (process.__fork kernel chld_installed).2).2._s_stat 17 = ⟨0, 1⟩ ∧
    (signal.controller.__signal_callback kernel 17
      (process.__fork kernel chld_installed).2).2.trace
      = (process.__fork kernel chld_installed).2.trace := by
  decide!

/-! ## Removing the PID file (C27) -/

/-- The member `__remove_pid()` calls `remove` on the stored path, whatever the
flag is. -/
theorem remove_pid_unconditional (w : World) :
    process.__remove_pid w = (.ok (), { w with trace := w.trace ++ [.sys (.remove w.self._pid_path)] }) := by
  simp [process.__remove_pid, bind_apply, this, sys, emit]

/-- C27 at the failing input: the PID file is not enabled and the path
`/run/other.pid` is stored. `execute()` returns normally, writes no file, and calls
`remove` on `/run/other.pid`. -/
theorem execute_removes_without_flag :
    fresh_stored.__f_req_pid_file = false ∧
    fresh_stored._pid_path = "/run/other.pid".toList ∧
    (process.execute calm (World.start fresh_stored)).1 = .ok () ∧
    written (process.execute calm (World.start fresh_stored)).2.trace = [] ∧
    removed (process.execute calm (World.start fresh_stored)).2.trace
      = ["/run/other.pid".toList] := by
  decide!

/-! ## Rebinding the standard descriptors (C28) -/

/-- When `/dev/null` opens, the lambda `null_open` ends normally whatever `dup2`
returns. -/
theorem null_open_ignores_dup2 (σ : Sys) (w : World) (the_attributes : Nat) (the_fd : Int)
    (hopen : 0 ≤ (σ.open_ w.trace "/dev/null".toList the_attributes).val) :
    (process.null_open σ the_attributes the_fd w).1 = .ok () := by
  have hn : ¬ (σ.open_ w.trace "/dev/null".toList the_attributes).val < 0 := by omega
  have hn1 : ¬ (σ.open_ w.trace ['/', 'd', 'e', 'v', '/', 'n', 'u', 'l', 'l']
      the_attributes).val < 0 := hn
  have hlt : ∀ (c : Prop) [Decidable c], ¬ ((if c then (1 : Int) else 0) < 0) := by
    intro c _
    split <;> omega
  simp [process.null_open, bind_apply, ask, sys, emit, raise, pure_apply, hn1, hlt]

/-- C28 at the failing input: every `dup2` fails with `EBADF`. `__detach_terminal()`
returns normally, no descriptor having been rebound. -/
theorem detach_terminal_ignores_dup2 :
    (no_dup.dup2 [] 3 0) = ⟨-1, EBADF⟩ ∧
    (process.__detach_terminal no_dup (World.start fresh)).1 = .ok () ∧
    (process.__detach_terminal no_dup (World.start fresh)).2.trace
      = [.sys (.open_ "/dev/null".toList O_RDONLY), .sys (.dup2 3 0), .sys (.close 3),
         .sys (.open_ "/dev/null".toList O_WRONLY), .sys (.dup2 3 1), .sys (.close 3),
         .sys (.open_ "/dev/null".toList O_WRONLY), .sys (.dup2 3 2), .sys (.close 3),
         .sys .getdtablesize, .sys (.close 3), .sys (.close 4)] := by
  decide!

/-! ## The pid read from the PID file (C29) -/

/-- C29 at the failing inputs: on an empty PID file and on one holding `abc` or
`0`, the PID-file check calls `kill(0, 0)`, which succeeds on the caller's process
group, and raises `device_or_resource_busy`; on one holding `-5` it calls
`kill(-5, 0)` and raises the same. -/
theorem pid_file_probes_group :
    probed (process.pid_file_check (pid_file_with []) (World.start fresh_pid)).2.trace = [0] ∧
    (process.pid_file_check (pid_file_with []) (World.start fresh_pid)).1
      = .raised (errc_device_or_resource_busy (process_exists [])) ∧
    probed (process.pid_file_check (pid_file_with "abc".toList) (World.start fresh_pid)).2.trace
      = [0] ∧
    (process.pid_file_check (pid_file_with "abc".toList) (World.start fresh_pid)).1
      = .raised (errc_device_or_resource_busy (process_exists "abc".toList)) ∧
    probed (process.pid_file_check (pid_file_with "0".toList) (World.start fresh_pid)).2.trace
      = [0] ∧
    probed (process.pid_file_check (pid_file_with "-5".toList) (World.start fresh_pid)).2.trace
      = [-5] ∧
    (process.pid_file_check (pid_file_with "-5".toList) (World.start fresh_pid)).1
      = .raised (errc_device_or_resource_busy (process_exists "-5".toList)) := by
  decide!

/-! ## The mode of a loaded file (C30) -/

theorem raise_bit_mode (st_mode bit : Nat) (assign : mode → mode) (f : file) :
    (file.raise_bit st_mode bit assign f)._mode
      = if has_bit st_mode bit then assign f._mode else f._mode := by
  unfold file.raise_bit
  split <;> rfl

theorem mode_eq (a b : mode)
    (h1 : a.set_user_id = b.set_user_id) (h2 : a.set_group_id = b.set_group_id)
    (h3 : a.sticky_bit = b.sticky_bit)
    (h4 : a.user.read = b.user.read) (h5 : a.user.write = b.user.write)
    (h6 : a.user.execute = b.user.execute)
    (h7 : a.group.read = b.group.read) (h8 : a.group.write = b.group.write)
    (h9 : a.group.execute = b.group.execute)
    (h10 : a.other.read = b.other.read) (h11 : a.other.write = b.other.write)
    (h12 : a.other.execute = b.other.execute) : a = b := by
  obtain ⟨_, _, _, ⟨_, _, _⟩, ⟨_, _, _⟩, ⟨_, _, _⟩⟩ := a
  obtain ⟨_, _, _, ⟨_, _, _⟩, ⟨_, _, _⟩, ⟨_, _, _⟩⟩ := b
  simp_all

/-- What a successful `load` leaves in `_mode`: the bits the object held before,
with the bits of `st_mode` added. -/
theorem load_adds_bits (stat : Str → Ret × struct_stat) (name : Str) (f : file)
    (hok : ¬ (stat (c_str name)).1.val < 0) :
    (file.load stat name f).1 = .ok () ∧
    (file.load stat name f).2.get_mode = f._mode.or (mode_of (stat (c_str name)).2.st_mode) := by
  rcases hs : stat (c_str name) with ⟨r, buffer⟩
  rw [hs] at hok
  simp only at hok
  simp only [file.load, file.__stat, hs, hok, if_false, file.get_mode, true_and,
    raise_bit_mode]
  apply mode_eq <;>
    simp only [apply_ite mode.set_user_id, apply_ite mode.set_group_id,
      apply_ite mode.sticky_bit, apply_ite mode.user, apply_ite mode.group,
      apply_ite mode.other, apply_ite permission.read, apply_ite permission.write,
      apply_ite permission.execute, ite_self, mode.or, mode_of] <;>
    split <;> simp_all

/-- C30 at the failing input: an object that loaded `/bin/tool` (mode `0755`)
loads `/etc/secret` (mode `0600`). The `stat` of `/etc/secret` has none of the bits
read and execute for group and others and execute for the user; `get_mode()` has
them all, kept from `/bin/tool`. A first load into a new object is right. -/
theorem load_keeps_old_bits :
    (file.load two_files "/bin/tool".toList file.construct).1 = .ok () ∧
    (file.load two_files "/bin/tool".toList file.construct).2.get_mode = mode_of 0o100755 ∧
    (file.load two_files "/etc/secret".toList
      (file.load two_files "/bin/tool".toList file.construct).2).1 = .ok () ∧
    mode_of 0o100600
      = ⟨false, false, false, ⟨true, true, false⟩, ⟨false, false, false⟩,
        ⟨false, false, false⟩⟩ ∧
    (file.load two_files "/etc/secret".toList
      (file.load two_files "/bin/tool".toList file.construct).2).2.get_mode
      = ⟨false, false, false, ⟨true, true, true⟩, ⟨true, false, true⟩, ⟨true, false, true⟩⟩ := by
  decide!

end Egg
